import Mathlib

/-!
The proxy request pipeline of open-load.

A shallow embedding of

* `internal/channel/openai_channel.go` (`isOpenRouterURL`, `applyOpenRouterHeaders`,
  `ModifyRequest`, `IsStreamRequest`, `ExtractModel`, the URL construction of `ValidateKey`),
* `internal/proxy/token_parser.go` (`parseTokensFromResponse`, `parseTokensFromStreamChunk`,
  `handleStreamingResponseWithTokens`, `handleNormalResponseWithTokens`),
* `internal/proxy/server.go` (`executeRequestWithRetry`, `logRequest`,
  `checkModelPermissions`, `markOrganizationVerifiedOnSuccess`).

Go strings are `String`s (sequences of characters); the Go standard library pieces the
code relies on (`strings`, `net/http.Header`, `encoding/json`, `net/url`) are modelled
in the first sections, the repository code after them.
-/

namespace OpenLoad

/-! ## Go `strings` -/

/-- Go `strings.HasPrefix`. -/
def HasPrefix (s p : String) : Bool := p.data.isPrefixOf s.data

/-- Go `strings.HasSuffix`. -/
def HasSuffix (s p : String) : Bool := p.data.reverse.isPrefixOf s.data.reverse

/-- Go `strings.TrimPrefix`. -/
def TrimPrefix (s p : String) : String :=
  if HasPrefix s p then ⟨s.data.drop p.data.length⟩ else s

/-- Whether `p` occurs in `cs` as a contiguous block. -/
def isInfixOf (p : List Char) : List Char → Bool
  | [] => p.isPrefixOf []
  | c :: cs => p.isPrefixOf (c :: cs) || isInfixOf p cs

/-- Go `strings.Contains`. -/
def Contains (s sub : String) : Bool := isInfixOf sub.data s.data

/-- Go `strings.ToLower`, on the ASCII letters (`A`-`Z` become `a`-`z`, every other
character is kept). -/
def ToLower (s : String) : String := ⟨s.data.map Char.toLower⟩

/-- Go `strings.TrimRight(s, cutset)`: drop the trailing characters that belong to `cutset`. -/
def TrimRight (s cutset : String) : String :=
  ⟨(s.data.reverse.dropWhile (fun c => cutset.data.contains c)).reverse⟩

/-- Go `unicode.IsSpace`. -/
def isSpace (c : Char) : Bool :=
  let n := c.toNat
  (0x09 ≤ n && n ≤ 0x0D) || n = 0x20 || n = 0x85 || n = 0xA0 || n = 0x1680 ||
  (0x2000 ≤ n && n ≤ 0x200A) || n = 0x2028 || n = 0x2029 || n = 0x202F || n = 0x205F ||
  n = 0x3000

/-- Go `strings.TrimSpace`, on character lists. -/
def trimSpaceChars (cs : List Char) : List Char :=
  ((cs.dropWhile isSpace).reverse.dropWhile isSpace).reverse

/-- Go `strings.TrimSpace`. -/
def TrimSpace (s : String) : String := ⟨trimSpaceChars s.data⟩

/-- Go `strings.Split(s, "\n")`, on character lists: the pieces between line feeds. -/
def splitNewline : List Char → List (List Char)
  | [] => [[]]
  | c :: cs =>
    if c = '\n' then [] :: splitNewline cs
    else
      match splitNewline cs with
      | [] => [[c]]
      | l :: ls => (c :: l) :: ls

/-- Go `strings.Split(s, "\n")`. -/
def SplitLines (s : String) : List String := (splitNewline s.data).map String.mk

/-! ## Go `net/http.Header` -/

/-- Go `http.Header` (`map[string][]string`): the values stored under each key. -/
abbrev Header := List (String × List String)

/-- Go `textproto.validHeaderFieldByte`: the characters of an HTTP token. -/
def validHeaderFieldByte (c : Char) : Bool :=
  c.isAlphanum || "!#$%&'*+-.^_`|~".data.contains c

/-- The rewriting loop of Go `textproto.canonicalMIMEHeaderKey`: upper case at the start
and after each dash, lower case elsewhere. -/
def canonicalChars : Bool → List Char → List Char
  | _, [] => []
  | upper, c :: cs =>
    let c1 := if upper then c.toUpper else c.toLower
    c1 :: canonicalChars (c1 = '-') cs

/-- Go `textproto.CanonicalMIMEHeaderKey`: a key with a character that is not a token
character is returned unchanged. -/
def CanonicalMIMEHeaderKey (s : String) : String :=
  if s.data.all validHeaderFieldByte then ⟨canonicalChars true s.data⟩ else s

namespace Header

/-- The map lookup `h[key]` on an already canonical key. -/
def lookup (h : Header) (key : String) : Option (List String) :=
  (h.find? (fun e => e.1 = key)).map (fun e => e.2)

/-- Go `Header.Get`: the first value stored under the canonical form of `key`, or `""`. -/
def Get (h : Header) (key : String) : String :=
  match h.lookup (CanonicalMIMEHeaderKey key) with
  | some (v :: _) => v
  | _ => ""

/-- Go `Header.Set`: the canonical key now maps to the single value. -/
def Set (h : Header) (key value : String) : Header :=
  (CanonicalMIMEHeaderKey key, [value]) ::
    h.filter (fun e => e.1 ≠ CanonicalMIMEHeaderKey key)

/-- Go `Header.Del`: the canonical key is removed from the map. -/
def Del (h : Header) (key : String) : Header :=
  h.filter (fun e => e.1 ≠ CanonicalMIMEHeaderKey key)

/-- Go `Header.Clone`. -/
def Clone (h : Header) : Header := h

end Header

/-! ## Go `encoding/json` -/

/-- A JSON value; a number keeps its literal text. -/
inductive Json where
  | null
  | bool (b : Bool)
  | num (lit : String)
  | str (s : String)
  | arr (items : List Json)
  | obj (members : List (String × Json))

/-- The tokens of a JSON text. -/
inductive Token where
  | lbrace | rbrace | lbrack | rbrack | colon | comma
  | str (s : String)
  | num (lit : String)
  | word (w : String)

/-- Value of a hexadecimal digit. -/
def hexVal (c : Char) : Option Nat :=
  if c.isDigit then some (c.toNat - '0'.toNat)
  else if 'a'.toNat ≤ c.toNat ∧ c.toNat ≤ 'f'.toNat then some (c.toNat - 'a'.toNat + 10)
  else if 'A'.toNat ≤ c.toNat ∧ c.toNat ≤ 'F'.toNat then some (c.toNat - 'A'.toNat + 10)
  else none

/-- Where the scanner stands: between tokens, inside a string (after a backslash, inside
a `\u` escape with `todo` digits to come), a number or a literal. A string is
accumulated as code units, in reverse: a character is its code point, a `\u` escape
its 16-bit unit. -/
inductive LexMode where
  | top
  | inStr (acc : List Nat)
  | inEsc (acc : List Nat)
  | inUni (acc : List Nat) (todo : Nat) (val : Nat)
  | inNum (acc : List Char)
  | inWord (acc : List Char)

/-- Go `utf16.DecodeRune` along a string: a high surrogate followed by a low one is one
character, any other surrogate is U+FFFD. `pending` is a high surrogate just read. -/
def combineSurrogates : Option Nat → List Nat → List Char
  | none, [] => []
  | some _, [] => [Char.ofNat 0xFFFD]
  | none, u :: us =>
    if 0xD800 ≤ u ∧ u < 0xDC00 then combineSurrogates (some u) us
    else if 0xDC00 ≤ u ∧ u < 0xE000 then Char.ofNat 0xFFFD :: combineSurrogates none us
    else Char.ofNat u :: combineSurrogates none us
  | some hi, u :: us =>
    if 0xDC00 ≤ u ∧ u < 0xE000 then
      Char.ofNat (0x10000 + (hi - 0xD800) * 0x400 + (u - 0xDC00)) :: combineSurrogates none us
    else if 0xD800 ≤ u ∧ u < 0xDC00 then Char.ofNat 0xFFFD :: combineSurrogates (some u) us
    else Char.ofNat 0xFFFD :: Char.ofNat u :: combineSurrogates none us

/-- JSON white space. -/
def isJsonSpace (c : Char) : Bool := c = ' ' || c = '\t' || c = '\r' || c = '\n'

/-- Characters that continue a number literal. -/
def isNumChar (c : Char) : Bool :=
  c.isDigit || c = '-' || c = '+' || c = '.' || c = 'e' || c = 'E'

/-- The punctuation token of a character, if it is one. -/
def punct (c : Char) : Option Token :=
  if c = '{' then some .lbrace else if c = '}' then some .rbrace
  else if c = '[' then some .lbrack else if c = ']' then some .rbrack
  else if c = ':' then some .colon else if c = ',' then some .comma
  else none

/-- What a character does between tokens: the tokens it emits and the next mode;
`none` when no JSON token starts with it. -/
def lexTop (c : Char) : Option (List Token × LexMode) :=
  if isJsonSpace c then some ([], .top)
  else if c = '"' then some ([], .inStr [])
  else if c.isDigit || c = '-' then some ([], .inNum [c])
  else if c.isLower then some ([], .inWord [c])
  else (punct c).map (fun t => ([t], .top))

/-- One character of the scanner: the tokens completed by it (latest first) and the
next mode; `none` on a character that cannot stand there. -/
def lexStep : LexMode → Char → Option (List Token × LexMode)
  | .top, c => lexTop c
  | .inNum n, c =>
    if isNumChar c then some ([], .inNum (c :: n))
    else (lexTop c).map (fun r => (r.1 ++ [Token.num ⟨n.reverse⟩], r.2))
  | .inWord w, c =>
    if c.isLower then some ([], .inWord (c :: w))
    else (lexTop c).map (fun r => (r.1 ++ [Token.word ⟨w.reverse⟩], r.2))
  | .inStr s, c =>
    if c = '"' then some ([Token.str ⟨combineSurrogates none s.reverse⟩], .top)
    else if c = '\\' then some ([], .inEsc s)
    else if c.toNat < 0x20 then none
    else some ([], .inStr (c.toNat :: s))
  | .inEsc s, c =>
    if c = '"' ∨ c = '\\' ∨ c = '/' then some ([], .inStr (c.toNat :: s))
    else if c = 'b' then some ([], .inStr (8 :: s))
    else if c = 'f' then some ([], .inStr (12 :: s))
    else if c = 'n' then some ([], .inStr (10 :: s))
    else if c = 'r' then some ([], .inStr (13 :: s))
    else if c = 't' then some ([], .inStr (9 :: s))
    else if c = 'u' then some ([], .inUni s 3 0)
    else none
  | .inUni s todo val, c =>
    match hexVal c with
    | none => none
    | some d =>
      match todo with
      | 0 => some ([], .inStr ((val * 16 + d) :: s))
      | k + 1 => some ([], .inUni s k (val * 16 + d))

/-- The scanner: the tokens of a JSON text (`acc` holds them latest first); `none` when
the text is not a sequence of JSON tokens. -/
def lex : LexMode → List Char → List Token → Option (List Token)
  | .top, [], acc => some acc.reverse
  | .inNum n, [], acc => some ((Token.num ⟨n.reverse⟩ :: acc).reverse)
  | .inWord w, [], acc => some ((Token.word ⟨w.reverse⟩ :: acc).reverse)
  | _, [], _ => none
  | m, c :: cs, acc =>
    match lexStep m c with
    | none => none
    | some (ts, m1) => lex m1 cs (ts ++ acc)

/-- States of the recogniser of a JSON number literal
`-? (0 | [1-9][0-9]*) (. [0-9]+)? ([eE] [+-]? [0-9]+)?`. -/
inductive NumState where
  | start | minus | zero | int | dot | frac | e | esign | exp | bad
  deriving DecidableEq

/-- One character of a number literal. -/
def numStep : NumState → Char → NumState
  | .start, c => if c = '-' then .minus else if c = '0' then .zero
                 else if c.isDigit then .int else .bad
  | .minus, c => if c = '0' then .zero else if c.isDigit then .int else .bad
  | .zero, c => if c = '.' then .dot else if c = 'e' ∨ c = 'E' then .e else .bad
  | .int, c => if c.isDigit then .int else if c = '.' then .dot
               else if c = 'e' ∨ c = 'E' then .e else .bad
  | .dot, c => if c.isDigit then .frac else .bad
  | .frac, c => if c.isDigit then .frac else if c = 'e' ∨ c = 'E' then .e else .bad
  | .e, c => if c = '+' ∨ c = '-' then .esign else if c.isDigit then .exp else .bad
  | .esign, c => if c.isDigit then .exp else .bad
  | .exp, c => if c.isDigit then .exp else .bad
  | .bad, _ => .bad

/-- Whether the text is a JSON number literal. -/
def validNumber (lit : String) : Bool :=
  match lit.data.foldl numStep .start with
  | .zero | .int | .frac | .exp => true
  | _ => false

/-- The value of a token that is a value by itself. -/
def scalar : Token → Option Json
  | .str s => some (.str s)
  | .num l => if validNumber l then some (.num l) else none
  | .word w =>
    if w = "true" then some (.bool true) else if w = "false" then some (.bool false)
    else if w = "null" then some .null else none
  | _ => none

/-- An array or object being read: what is complete so far (latest first) and, in an
object, the key whose value is being read. -/
inductive Frame where
  | arr (rev : List Json)
  | obj (rev : List (String × Json)) (key : Option String)

/-- What the parser expects next. -/
inductive PState where
  | value
  | arrStart
  | objStart
  | key
  | colon
  | done (v : Json)

/-- The nesting limit of the scanner (`maxNestingDepth` in `encoding/json`). -/
def maxNestingDepth : Nat := 10000

/-- The scanner's `pushParseState` at an opening bracket: the array or object is entered,
unless that makes the nesting deeper than `maxNestingDepth`, which is an error
(`exceeded max depth`). -/
def pushFrame (next : PState) (f : Frame) (st : List Frame) : Option (PState × List Frame) :=
  if st.length < maxNestingDepth then some (next, f :: st) else none

/-- One token of the parser. -/
def parseStep : PState → List Frame → Token → Option (PState × List Frame)
  | .value, st, .lbrack => pushFrame .arrStart (.arr []) st
  | .value, st, .lbrace => pushFrame .objStart (.obj [] none) st
  | .value, st, t => (scalar t).map (fun v => (.done v, st))
  | .arrStart, .arr _ :: st, .rbrack => some (.done (.arr []), st)
  | .arrStart, st, .lbrack => pushFrame .arrStart (.arr []) st
  | .arrStart, st, .lbrace => pushFrame .objStart (.obj [] none) st
  | .arrStart, st, t => (scalar t).map (fun v => (.done v, st))
  | .objStart, .obj _ _ :: st, .rbrace => some (.done (.obj []), st)
  | .objStart, .obj rev _ :: st, .str k => some (.colon, .obj rev (some k) :: st)
  | .key, .obj rev _ :: st, .str k => some (.colon, .obj rev (some k) :: st)
  | .colon, st, .colon => some (.value, st)
  | .done v, .arr rev :: st, .comma => some (.value, .arr (v :: rev) :: st)
  | .done v, .arr rev :: st, .rbrack => some (.done (.arr (v :: rev).reverse), st)
  | .done v, .obj rev (some k) :: st, .comma => some (.key, .obj ((k, v) :: rev) none :: st)
  | .done v, .obj rev (some k) :: st, .rbrace =>
    some (.done (.obj ((k, v) :: rev).reverse), st)
  | _, _, _ => none

/-- The parser: the value written by a token sequence, `none` when it is not exactly
one JSON value. -/
def parse : PState → List Frame → List Token → Option Json
  | .done v, [], [] => some v
  | _, _, [] => none
  | ps, st, t :: ts =>
    match parseStep ps st t with
    | none => none
    | some (ps1, st1) => parse ps1 st1 ts

/-- The JSON value written by a text; `none` is a syntax error of `json.Unmarshal`, which
a text nested deeper than `maxNestingDepth` is too. -/
def parseJSON (s : String) : Option Json :=
  (lex .top s.data []).bind (parse .value [])

/-- Go `json.Valid`. -/
def jsonValid (s : String) : Bool := (parseJSON s).isSome

/-- Case folding of `encoding/json` for field names: lower-case ASCII letters fold to
upper case, and so do the two other letters whose fold is an ASCII letter (U+017F to
`S`, U+212A to `K`). -/
def foldRune (c : Char) : Char :=
  if c.isLower then c.toUpper
  else if c.toNat = 0x17F then 'S' else if c.toNat = 0x212A then 'K' else c

/-- Whether the object key `key` selects the struct field tagged `name`: the exact name,
or the same name up to case folding. -/
def fieldMatches (name key : String) : Bool :=
  key = name || key.data.map foldRune = name.data.map foldRune

/-- Decoding a JSON value into a Go `bool` holding `cur`: `none` is an
`UnmarshalTypeError`. -/
def decodeBool (cur : Bool) : Json → Option Bool
  | .bool b => some b
  | .null => some cur
  | _ => none

/-- Decoding a JSON value into a Go `string` holding `cur`. -/
def decodeString (cur : String) : Json → Option String
  | .str s => some s
  | .null => some cur
  | _ => none

/-- The number written by a sequence of decimal digits. -/
def digitsVal (ds : List Char) : Option Nat :=
  if ds ≠ [] ∧ ds.all Char.isDigit then
    some (ds.foldl (fun n d => n * 10 + (d.toNat - '0'.toNat)) 0)
  else none

/-- Go `strconv.ParseInt(lit, 10, 64)` on a JSON number literal. -/
def parseInt64 (lit : String) : Option Int :=
  match lit.data with
  | '-' :: ds => (digitsVal ds).bind (fun n => if n ≤ 2 ^ 63 then some (-(n : Int)) else none)
  | ds => (digitsVal ds).bind (fun n => if n < 2 ^ 63 then some (n : Int) else none)

/-- Decoding a JSON value into a Go `int64` holding `cur`. -/
def decodeInt64 (cur : Int) : Json → Option Int
  | .num l => parseInt64 l
  | .null => some cur
  | _ => none

/-- Decoding the members of a JSON object into a struct: each member is offered to
`field` in order; the first type error makes `json.Unmarshal` return an error (`none`). -/
def decodeMembers {α : Type} (field : α → String × Json → Option α)
    (init : α) (ms : List (String × Json)) : Option α :=
  ms.foldl (fun acc m => acc.bind (fun cur => field cur m)) (some init)

/-- Decoding of a JSON value into a struct value `init` (`json.Unmarshal(data, &v)`):
`null` leaves it unchanged, an object fills it, anything else is a type error. -/
def decodeStruct {α : Type} (field : α → String × Json → Option α) (init : α) :
    Json → Option α
  | .null => some init
  | .obj ms => decodeMembers field init ms
  | _ => none

/-- What Go `strconv` has read of a number literal in `decimal.set`, the reading that
decides a range error: the significant digits kept, as the number `mant` they write and
their count `nd` (the buffer holds 800 digits, further ones are dropped), the position
`dp` of the decimal point, and the exponent part with its sign. -/
structure Decimal where
  mant : Nat
  nd : Nat
  dp : Int
  sawdot : Bool
  inExp : Bool
  eneg : Bool
  e : Nat

/-- One character of a JSON number literal, as `decimal.set` reads it: a leading zero
moves the decimal point and is not kept; the digits of the exponent are accumulated only
while the exponent is below 10000. -/
def Decimal.step (b : Decimal) (c : Char) : Decimal :=
  if b.inExp then
    if c = '-' then { b with eneg := true }
    else if c = '+' then b
    else if b.e < 10000 then { b with e := b.e * 10 + (c.toNat - '0'.toNat) }
    else b
  else if c = '-' then b
  else if c = '.' then { b with sawdot := true, dp := b.nd }
  else if c = 'e' ∨ c = 'E' then { b with inExp := true }
  else if c = '0' ∧ b.nd = 0 then { b with dp := b.dp - 1 }
  else if b.nd < 800 then
    { b with mant := b.mant * 10 + (c.toNat - '0'.toNat), nd := b.nd + 1 }
  else b

/-- The decimal point after the literal is read: the number of digits kept when the
literal has no `.`, moved by the exponent. The value read is `mant * 10 ^ (point - nd)`. -/
def Decimal.point (b : Decimal) : Int :=
  (if b.sawdot then b.dp else (b.nd : Int)) + (if b.eneg then -(b.e : Int) else (b.e : Int))

/-- The least number that rounds to infinity as a `float64`: `2 ^ 1024 - 2 ^ 970`,
halfway between the largest `float64` and `2 ^ 1024`, written out in decimal. -/
def float64Limit : Nat :=
  179769313486231580793728971405303415079934132710037826936173778980444968292764750946649017977587207096330286416692887910946555547851940402630657488671505820681908902000708383676273854845817711531764475730270069855571366959622842914819860834936475292719074168444365510704342711559699508093042880177904174497792

/-- Whether Go `strconv.ParseFloat(lit, 64)` returns a range error on a JSON number
literal: the value read rounds to infinity, which it does from `float64Limit` on.
`decimal.floatBits` decides a decimal point beyond 310 digits, or below -330, without
looking at the digits. -/
def parseFloatRangeError (lit : String) : Bool :=
  let b := lit.data.foldl Decimal.step ⟨0, 0, 0, false, false, false, 0⟩
  if b.nd = 0 then false
  else if b.point > 310 then true
  else if b.point < -330 then false
  else if b.point ≥ (b.nd : Int) then
    decide (b.mant * 10 ^ (b.point - b.nd).toNat ≥ float64Limit)
  else decide (b.mant ≥ float64Limit * 10 ^ ((b.nd : Int) - b.point).toNat)

mutual
/-- The number literals of a JSON value, in the order of the text. -/
def Json.numbers : Json → List String
  | .num lit => [lit]
  | .arr items => Json.numbersOfItems items
  | .obj members => Json.numbersOfMembers members
  | _ => []
/-- The number literals of the items of an array. -/
def Json.numbersOfItems : List Json → List String
  | [] => []
  | v :: vs => v.numbers ++ Json.numbersOfItems vs
/-- The number literals of the member values of an object. -/
def Json.numbersOfMembers : List (String × Json) → List String
  | [] => []
  | m :: ms => m.2.numbers ++ Json.numbersOfMembers ms
end

/-- Decoding into `map[string]any` (`json.Unmarshal(data, &errorJSON)`): an object gives
the map, `null` the nil map, any other value is a type error. Every value of the object,
at any depth, is decoded into an `any`, a number through `strconv.ParseFloat`: a number
literal outside the `float64` range makes `json.Unmarshal` return an error. The result is
the JSON value that was decoded into the map, a number literal standing for the `float64`
nearest to it (of members with the same key the map holds the last). -/
def unmarshalMap (s : String) : Option Json :=
  match parseJSON s with
  | some (.obj ms) =>
    if (Json.numbersOfMembers ms).any parseFloatRangeError then none else some (.obj ms)
  | some .null => some .null
  | _ => none

/-! ## Go `net/url` -/

/-- Go `url.URL`, for URLs without user information, opaque part or fragment. -/
structure URL where
  Scheme : String
  Host : String
  Path : String
  RawQuery : String

/-- Go `url.validOptionalPort`: empty, or a colon followed by decimal digits. -/
def validOptionalPort : List Char → Bool
  | [] => true
  | c :: ds => c = ':' && ds.all Char.isDigit

/-- Go `url.splitHostPort`, the host part, on the reversed host: the text after the last
colon is cut when it is a port. `seen` holds, in order, the characters after the
position reached. -/
def cutPort : List Char → List Char → List Char
  | [], seen => seen
  | c :: rev, seen =>
    if c = ':' then
      if validOptionalPort (c :: seen) then rev.reverse else rev.reverse ++ c :: seen
    else cutPort rev (c :: seen)

/-- Go `URL.Hostname`: the host without a valid port and without the square brackets of
an IPv6 literal. -/
def URL.Hostname (u : URL) : String :=
  let host : String := ⟨cutPort u.Host.data.reverse []⟩
  if HasPrefix host "[" && HasSuffix host "]" then
    ⟨(host.data.drop 1).take (host.data.length - 2)⟩
  else host

/-- Go `URL.String`, for a path and a host made of characters that are written
unescaped. -/
def URL.String (u : URL) : String :=
  (if u.Scheme ≠ "" then u.Scheme ++ ":" else "") ++
  (if (u.Scheme ≠ "" ∨ u.Host ≠ "") ∧ (u.Host ≠ "" ∨ u.Path ≠ "") then "//" else "") ++
  u.Host ++
  (if u.Path ≠ "" ∧ ¬ HasPrefix u.Path "/" ∧ u.Host ≠ "" then "/" else "") ++
  u.Path ++
  (if u.RawQuery ≠ "" then "?" ++ u.RawQuery else "")

/-! ## Data model (`internal/models`, as used by the pipeline) -/

/-- The `TokenUsage` struct of `token_parser.go`. -/
structure TokenUsage where
  PromptTokens : Int
  CompletionTokens : Int
  TotalTokens : Int
  deriving DecidableEq

/-- The fields of `models.APIKey` the pipeline reads or writes. -/
structure APIKey where
  ID : Nat
  KeyValue : String
  IsOrganizationKey : Bool
  OrganizationID : String
  deriving DecidableEq

/-- The fields of the effective configuration of a group the pipeline reads.
`PremiumModelsMap` is the key set of the Go map. -/
structure EffectiveConfig where
  RequestTimeout : Int
  MaxRetries : Int
  AppUrl : String
  EnableRequestBodyLogging : Bool
  PremiumModelsMap : List String

/-- A header rule of a group; its content is interpreted by `utils.ApplyHeaderRules`. -/
structure HeaderRule where
  Key : String
  Value : String
  Action : String

/-- The fields of `models.Group` the pipeline reads. -/
structure Group where
  ID : Nat
  Name : String
  DisplayName : String
  GroupType : String
  EffectiveConfig : EffectiveConfig
  HeaderRuleList : List HeaderRule

/-- The request received from the client (`c *gin.Context`): method, URL, the parsed
query values gin keeps (`queryCache`), headers and the client address gin reports. -/
structure ClientRequest where
  Method : String
  URL : URL
  queryCache : List (String × List String)
  Header : Header
  ClientIP : String

/-- The `c.GetHeader` accessor of gin. -/
def ClientRequest.GetHeader (c : ClientRequest) (key : String) : String := c.Header.Get key

/-- The `c.Query` accessor of gin: the first value of the query parameter, or `""`. -/
def ClientRequest.Query (c : ClientRequest) (key : String) : String :=
  match (c.queryCache.find? (fun e => e.1 = key)).map (fun e => e.2) with
  | some (v :: _) => v
  | _ => ""

/-- Go `Request.UserAgent`. -/
def ClientRequest.UserAgent (c : ClientRequest) : String := c.Header.Get "User-Agent"

/-- The request sent upstream (`req *http.Request`); `URL` is `none` for a nil URL. -/
structure UpstreamRequest where
  Method : String
  URL : Option URL
  Header : Header
  Body : String
  ContentLength : Nat

/-- The response of the upstream (`resp *http.Response`); `BodyReadable = false` when
reading the body fails. -/
structure Response where
  StatusCode : Nat
  Header : Header
  Body : String
  BodyReadable : Bool

/-- Modelled from the spec: the constant `models.RequestTypeRetry`, declared outside the
sources at hand; the log type it names is `retry`. -/
def RequestTypeRetry : String := "retry"

/-- Modelled from the spec: the constant `models.RequestTypeFinal`, declared outside the
sources at hand; the log type it names is `final`. -/
def RequestTypeFinal : String := "final"

/-- Modelled from the spec: the record `models.RequestLog`, declared outside the sources at
hand. It has the fields `logRequest` fills and `Tokens`, the optional token usage triple
(prompt, completion, total) of the data model, stored in the columns migration v1.3.0
adds to `request_logs`; `none` is its zero value. -/
structure RequestLog where
  GroupID : Nat
  GroupName : String
  ParentGroupID : Nat
  ParentGroupName : String
  IsSuccess : Bool
  SourceIP : String
  StatusCode : Nat
  RequestPath : String
  Duration : Int
  UserAgent : String
  RequestType : String
  IsStream : Bool
  UpstreamAddr : String
  RequestBody : String
  Model : String
  KeyValue : String
  KeyHash : String
  ErrorMessage : String
  Tokens : Option TokenUsage

/-! ## `internal/channel/openai_channel.go` -/

/-- The function `isOpenRouterURL`. -/
def isOpenRouterURL (u : Option URL) : Bool :=
  match u with
  | none => false
  | some u => Contains (ToLower u.Hostname) "openrouter.ai"

/-- The function `applyOpenRouterHeaders`; a nil request does not arise in the model,
`group` is `none` for a nil group. -/
def applyOpenRouterHeaders (req : UpstreamRequest) (group : Option Group) : UpstreamRequest :=
  if req.URL.isNone || !isOpenRouterURL req.URL then req
  else
    let req1 : UpstreamRequest :=
      if req.Header.Get "HTTP-Referer" = "" then
        let referer := req.Header.Get "Origin"
        let referer := if referer = "" then req.Header.Get "Referer" else referer
        let referer :=
          match group with
          | some g => if referer = "" then g.EffectiveConfig.AppUrl else referer
          | none => referer
        if referer ≠ "" then { req with Header := req.Header.Set "HTTP-Referer" referer }
        else req
      else req
    match group with
    | some g =>
      if req1.Header.Get "X-Title" = "" then
        let title := g.DisplayName
        let title := if title = "" then g.Name else title
        if title ≠ "" then { req1 with Header := req1.Header.Set "X-Title" title } else req1
      else req1
    | none => req1

/-- The method `OpenAIChannel.ModifyRequest`. -/
def OpenAIChannel.ModifyRequest (req : UpstreamRequest) (apiKey : APIKey)
    (group : Option Group) : UpstreamRequest :=
  applyOpenRouterHeaders
    { req with Header := req.Header.Set "Authorization" ("Bearer " ++ apiKey.KeyValue) } group

/-- The field decoder of `streamPayload` (`Stream bool`, tag `stream`). -/
def streamPayloadField (cur : Bool) (m : String × Json) : Option Bool :=
  if fieldMatches "stream" m.1 then decodeBool cur m.2 else some cur

/-- The call `json.Unmarshal(bodyBytes, &p)` for `p streamPayload`: `none` when it
returns an error, else `p.Stream`. -/
def unmarshalStreamPayload (bodyBytes : String) : Option Bool :=
  (parseJSON bodyBytes).bind (decodeStruct streamPayloadField false)

/-- The method `OpenAIChannel.IsStreamRequest`. -/
def OpenAIChannel.IsStreamRequest (c : ClientRequest) (bodyBytes : String) : Bool :=
  if Contains (c.GetHeader "Accept") "text/event-stream" then true
  else if c.Query "stream" = "true" then true
  else
    match unmarshalStreamPayload bodyBytes with
    | some stream => stream
    | none => false

/-- The field decoder of `modelPayload` (`Model string`, tag `model`). -/
def modelPayloadField (cur : String) (m : String × Json) : Option String :=
  if fieldMatches "model" m.1 then decodeString cur m.2 else some cur

/-- The call `json.Unmarshal(bodyBytes, &p)` for `p modelPayload`. -/
def unmarshalModelPayload (bodyBytes : String) : Option String :=
  (parseJSON bodyBytes).bind (decodeStruct modelPayloadField "")

/-- The method `OpenAIChannel.ExtractModel`. -/
def OpenAIChannel.ExtractModel (_c : ClientRequest) (bodyBytes : String) : String :=
  match unmarshalModelPayload bodyBytes with
  | some model => model
  | none => ""

/-- The URL built by `OpenAIChannel.ValidateKey` (the statements from
`finalURL := *upstreamURL` to `finalURL.RawQuery = endpointURL.RawQuery`), from the
upstream URL and the parsed validation endpoint. -/
def ValidateKey.finalURL (upstreamURL endpointURL : URL) : URL :=
  let finalURL := upstreamURL
  let endpointPath := endpointURL.Path
  let basePath := TrimRight finalURL.Path "/"
  let endpointPath :=
    if HasSuffix basePath "/v1" && HasPrefix endpointPath "/v1" then
      let endpointPath := TrimPrefix endpointPath "/v1"
      if endpointPath = "" then "/" else endpointPath
    else endpointPath
  { finalURL with
    Path := TrimRight finalURL.Path "/" ++ endpointPath
    RawQuery := endpointURL.RawQuery }

/-- The request URL of `OpenAIChannel.ValidateKey`: `reqURL := finalURL.String()`. -/
def ValidateKey.reqURL (upstreamURL endpointURL : URL) : String :=
  (ValidateKey.finalURL upstreamURL endpointURL).String

/-! ## `internal/proxy/token_parser.go` -/

/-- The field decoder of `TokenUsage` (tags `prompt_tokens`, `completion_tokens`,
`total_tokens`, each an `int64`). -/
def tokenUsageField (u : TokenUsage) (m : String × Json) : Option TokenUsage :=
  if fieldMatches "prompt_tokens" m.1 then
    (decodeInt64 u.PromptTokens m.2).map (fun n => { u with PromptTokens := n })
  else if fieldMatches "completion_tokens" m.1 then
    (decodeInt64 u.CompletionTokens m.2).map (fun n => { u with CompletionTokens := n })
  else if fieldMatches "total_tokens" m.1 then
    (decodeInt64 u.TotalTokens m.2).map (fun n => { u with TotalTokens := n })
  else some u

/-- Decoding a JSON value into the pointer `Usage *TokenUsage` holding `cur`: `null` sets
it to nil, an object fills the struct it points to (a fresh one for nil). -/
def decodeUsagePtr (cur : Option TokenUsage) : Json → Option (Option TokenUsage)
  | .null => some none
  | .obj ms => (decodeMembers tokenUsageField (cur.getD ⟨0, 0, 0⟩) ms).map some
  | _ => none

/-- The field decoder of `UsageResponse` (`Usage *TokenUsage`, tag `usage`). -/
def usageResponseField (cur : Option TokenUsage) (m : String × Json) :
    Option (Option TokenUsage) :=
  if fieldMatches "usage" m.1 then decodeUsagePtr cur m.2 else some cur

/-- The call `json.Unmarshal(data, &resp)` for `resp UsageResponse`: `none` when it returns
an error, else `resp.Usage` (`none` for nil). -/
def unmarshalUsageResponse (data : String) : Option (Option TokenUsage) :=
  (parseJSON data).bind (decodeStruct usageResponseField none)

/-- The function `parseTokensFromResponse`. -/
def parseTokensFromResponse (body : String) : Option TokenUsage :=
  match unmarshalUsageResponse body with
  | none => none
  | some usage => usage

/-- The loop of `parseTokensFromStreamChunk` over the lines of the chunk. -/
def parseTokensFromStreamChunk.scan : List String → Option TokenUsage
  | [] => none
  | line :: lines =>
    let line := TrimSpace line
    if !HasPrefix line "data:" then parseTokensFromStreamChunk.scan lines
    else
      let jsonStr := TrimPrefix line "data:"
      let jsonStr := TrimSpace jsonStr
      if jsonStr = "[DONE]" then parseTokensFromStreamChunk.scan lines
      else
        match unmarshalUsageResponse jsonStr with
        | none => parseTokensFromStreamChunk.scan lines
        | some none => parseTokensFromStreamChunk.scan lines
        | some (some usage) => some usage

/-- The function `parseTokensFromStreamChunk`. -/
def parseTokensFromStreamChunk (data : String) : Option TokenUsage :=
  parseTokensFromStreamChunk.scan (SplitLines data)

/-- Go `bufio.Reader.ReadBytes('\n')` on the bytes not yet read: the line (with its line
feed, when there is one), the bytes left, and whether a line feed was found; when none
was found the line is the rest of the body and comes with the error that ends the
body (`io.EOF`, or a read error). -/
def ReadBytes : List Char → List Char × List Char × Bool
  | [] => ([], [], false)
  | c :: cs =>
    if c = '\n' then ([c], cs, true)
    else
      let r := ReadBytes cs
      (c :: r.1, r.2.1, r.2.2)

/-- What a relay returns and what it has written to the client, one entry per
successful `Write` call. -/
structure Relay where
  usage : Option TokenUsage
  written : List String
  deriving DecidableEq

/-- The `for` loop of `handleStreamingResponseWithTokens`: `unread` is what the reader has
not delivered yet, `writeFails n` tells whether the `Write` call after `n` successful ones
returns an error. The loop returns `lastUsage` at `io.EOF` and at a read error alike.
`fuel` bounds the number of iterations. -/
def relayLoop (writeFails : Nat → Bool) :
    Nat → List Char → Option TokenUsage → List String → Option Relay
  | 0, _, _, _ => none
  | fuel + 1, unread, lastUsage, written =>
    let r := ReadBytes unread
    let line := r.1
    if line.length > 0 then
      let lastUsage :=
        match parseTokensFromStreamChunk ⟨line⟩ with
        | some usage => some usage
        | none => lastUsage
      if writeFails written.length then some ⟨lastUsage, written⟩
      else if r.2.2 then relayLoop writeFails fuel r.2.1 lastUsage (written ++ [⟨line⟩])
      else some ⟨lastUsage, written ++ [⟨line⟩]⟩
    else if r.2.2 then relayLoop writeFails fuel r.2.1 lastUsage written
    else some ⟨lastUsage, written⟩

/-- The method `handleNormalResponseWithTokens`: the body is read whole, parsed and
copied to the client (`copyFails`: the copy returns an error, which is only logged). -/
def handleNormalResponseWithTokens (copyFails : Bool) (resp : Response) : Relay :=
  if !resp.BodyReadable then ⟨none, []⟩
  else ⟨parseTokensFromResponse resp.Body, if copyFails then [] else [resp.Body]⟩

/-- The method `handleStreamingResponseWithTokens`; `canFlush` tells whether the writer is
an `http.Flusher`. The loop is given one iteration more than the body has bytes. -/
def handleStreamingResponseWithTokens (canFlush : Bool) (writeFails : Nat → Bool)
    (resp : Response) : Option Relay :=
  if !canFlush then some (handleNormalResponseWithTokens (writeFails 0) resp)
  else relayLoop writeFails (resp.Body.data.length + 1) resp.Body.data none []

/-! ## `internal/proxy/server.go` -/

/-- The base errors of `internal/errors` the pipeline answers with. -/
inductive ErrKind where
  | ErrNoKeysAvailable
  | ErrInternalServer
  | ErrBadRequest
  deriving DecidableEq

/-- What the pipeline writes to the client. -/
inductive ClientResponse where
  /-- The call `response.Error(c, app_errors.NewAPIError(base, message))`; without a
  message, `response.Error(c, base)`. -/
  | error (base : ErrKind) (message : Option String)
  /-- The call `response.Error(c, app_errors.NewAPIErrorWithUpstream(status, code, message))`. -/
  | upstreamError (status : Nat) (code : String) (message : String)
  /-- The call `c.JSON(status, value)`. -/
  | json (status : Nat) (value : Json)
  /-- The call `ps.handleModelListResponse(c, resp, group, channelHandler)`. -/
  | modelList (resp : Response)
  /-- The upstream headers and status are copied and the body is handed to
  `handleStreamingResponse` (`isStream`) or `handleNormalResponse`. -/
  | relayed (resp : Response) (isStream : Bool)

/-- What `client.Do(req)` returns: a transport error, or a response. -/
inductive DoResult where
  | failure (err : String)
  | response (resp : Response)

/-- The interface `channel.ChannelProxy`, as far as the pipeline uses it. The first
argument of the operations that may depend on channel state is the number of the call
(the retry count of the attempt that makes it). -/
structure ChannelProxy where
  BuildUpstreamURL : Nat → URL → String → Except String String
  ApplyModelRedirect : Nat → UpstreamRequest → String → Group → Except String String
  ModifyRequest : UpstreamRequest → APIKey → Option Group → UpstreamRequest
  IsStreamRequest : ClientRequest → String → Bool
  ExtractModel : ClientRequest → String → String
  GetHTTPClient : Nat → UpstreamRequest → DoResult
  GetStreamClient : Nat → UpstreamRequest → DoResult

/-- What the embedded `BaseChannel` gives an `OpenAIChannel`: URL building, model
redirection and the two HTTP clients. -/
structure BaseChannel where
  BuildUpstreamURL : Nat → URL → String → Except String String
  ApplyModelRedirect : Nat → UpstreamRequest → String → Group → Except String String
  HTTPClient : Nat → UpstreamRequest → DoResult
  StreamClient : Nat → UpstreamRequest → DoResult

/-- The channel `openai`: the methods of `OpenAIChannel` over its `BaseChannel`. -/
def OpenAIChannel (base : BaseChannel) : ChannelProxy where
  BuildUpstreamURL := base.BuildUpstreamURL
  ApplyModelRedirect := base.ApplyModelRedirect
  ModifyRequest := OpenAIChannel.ModifyRequest
  IsStreamRequest := OpenAIChannel.IsStreamRequest
  ExtractModel := OpenAIChannel.ExtractModel
  GetHTTPClient := base.HTTPClient
  GetStreamClient := base.StreamClient

/-- The `ProxyServer` struct, as far as the pipeline uses it: the key provider (the
result of the `SelectKey` call of each attempt), whether `requestLogService` is
non-nil, and the encryption service. -/
structure ProxyServer where
  SelectKey : Nat → Except String APIKey
  requestLogService : Bool
  Encrypt : String → Except String String
  Hash : String → String

/-- The functions of other packages the pipeline calls: `utils.TruncateString`,
`utils.ApplyHeaderRules`, `app_errors.IsIgnorableError`, `app_errors.ParseUpstreamError`,
`handleGzipCompression`, `shouldInterceptModelList`, the URL parsing of
`http.NewRequestWithContext`, and the clock (`time.Since(startTime).Milliseconds()` as
read by the attempt with the given retry count). -/
structure Collaborators where
  TruncateString : String → Nat → String
  ApplyHeaderRules : UpstreamRequest → List HeaderRule → ClientRequest → Group → APIKey →
    UpstreamRequest
  IsIgnorableError : String → Bool
  ParseUpstreamError : String → String
  handleGzipCompression : Response → String → String
  shouldInterceptModelList : String → String → Bool
  ParseURL : String → Option URL
  Since : Nat → Int

/-- The method `ProxyServer.logRequest`: the entry handed to `requestLogService.Record`,
`none` when the service is nil. `duration` is `time.Since(startTime).Milliseconds()`;
`none` stands for a nil pointer, error or slice. -/
def logRequest (ps : ProxyServer) (env : Collaborators) (c : ClientRequest)
    (originalGroup : Option Group) (group : Group) (apiKey : Option APIKey) (duration : Int)
    (statusCode : Nat) (finalError : Option String) (isStream : Bool) (upstreamAddr : String)
    (channelHandler : Option ChannelProxy) (bodyBytes : Option String)
    (requestType : String) : Option RequestLog :=
  if !ps.requestLogService then none
  else
    let requestBodyToLog :=
      if group.EffectiveConfig.EnableRequestBodyLogging then
        env.TruncateString (bodyBytes.getD "") 65000
      else ""
    let userAgent :=
      if group.EffectiveConfig.EnableRequestBodyLogging then c.UserAgent else ""
    let setParent :=
      match originalGroup with
      | some og => og.GroupType = "aggregate" && og.ID ≠ group.ID
      | none => false
    let keyValue :=
      match apiKey with
      | some k =>
        match ps.Encrypt k.KeyValue with
        | .error _ => "failed-to-encryption"
        | .ok encryptedKeyValue => encryptedKeyValue
      | none => ""
    some
      { GroupID := group.ID
        GroupName := group.Name
        ParentGroupID := if setParent then (originalGroup.map (fun og => og.ID)).getD 0 else 0
        ParentGroupName :=
          if setParent then (originalGroup.map (fun og => og.Name)).getD "" else ""
        IsSuccess := finalError.isNone && decide (statusCode < 400)
        SourceIP := c.ClientIP
        StatusCode := statusCode
        RequestPath := env.TruncateString c.URL.String 500
        Duration := duration
        UserAgent := userAgent
        RequestType := requestType
        IsStream := isStream
        UpstreamAddr := env.TruncateString upstreamAddr 500
        RequestBody := requestBodyToLog
        Model :=
          match channelHandler, bodyBytes with
          | some ch, some b => ch.ExtractModel c b
          | _, _ => ""
        KeyValue := keyValue
        KeyHash := (apiKey.map (fun k => ps.Hash k.KeyValue)).getD ""
        ErrorMessage := finalError.getD ""
        Tokens := none }

/-- The method `ProxyServer.checkModelPermissions`: the error it returns (`none` for
nil). Both branches on a premium model only write to the process log. -/
def checkModelPermissions (requestedModel : String) (apiKey : APIKey) (group : Group) :
    Option String :=
  if requestedModel = "" then none
  else
    let cfg := group.EffectiveConfig
    if cfg.PremiumModelsMap.length > 0 then
      if cfg.PremiumModelsMap.contains requestedModel then
        if !apiKey.IsOrganizationKey then none else none
      else none
    else none

/-- The method `ProxyServer.markOrganizationVerifiedOnSuccess`: the key as it is in memory
after the call, and the `keyProvider.UpdateOrganizationStatus(id, flag)` calls it starts. -/
def markOrganizationVerifiedOnSuccess (apiKey : Option APIKey) (group : Option Group)
    (model : String) : Option APIKey × List (Nat × Bool) :=
  match apiKey, group with
  | some k, some g =>
    if model = "" then (apiKey, [])
    else
      let cfg := g.EffectiveConfig
      if cfg.PremiumModelsMap.length = 0 then (apiKey, [])
      else if !cfg.PremiumModelsMap.contains model then (apiKey, [])
      else if k.IsOrganizationKey then (apiKey, [])
      else (some { k with IsOrganizationKey := true }, [(k.ID, true)])
  | _, _ => (apiKey, [])

/-- What one request has done so far, each list in the order of the calls: the log
entries handed to `requestLogService.Record`, the requests passed to `client.Do`, the
`keyProvider.UpdateStatus(apiKey, group, success, reason)` calls, the keys whose
`IsOrganizationKey` the request wrote (as they are after the write), the
`UpdateOrganizationStatus` calls started, and what was written to the client. -/
structure Effects where
  logs : List RequestLog
  sent : List UpstreamRequest
  statusUpdates : List (APIKey × Bool × String)
  promoted : List APIKey
  orgUpdates : List (Nat × Bool)
  responses : List ClientResponse

/-- Nothing done yet. -/
def Effects.empty : Effects := ⟨[], [], [], [], [], []⟩

/-- The log entry of a `logRequest` call is recorded, if there is one. -/
def Effects.record (fx : Effects) (entry : Option RequestLog) : Effects :=
  { fx with logs := fx.logs ++ entry.toList }

/-- A response is written to the client. -/
def Effects.respond (fx : Effects) (r : ClientResponse) : Effects :=
  { fx with responses := fx.responses ++ [r] }

/-- The call `http.NewRequestWithContext(ctx, c.Request.Method, upstreamURL,
bytes.NewReader(bodyBytes))` followed by `req.ContentLength = int64(len(bodyBytes))`;
`none` when the call returns an error. -/
def NewRequestWithContext (env : Collaborators) (method upstreamURL bodyBytes : String) :
    Option UpstreamRequest :=
  (env.ParseURL upstreamURL).map (fun u =>
    { Method := method, URL := some u, Header := [], Body := bodyBytes,
      ContentLength := bodyBytes.utf8ByteSize })

/-- How one run of the body of `executeRequestWithRetry` ends: it returns, or it calls
itself with `retryCount + 1`. -/
inductive Step where
  | done (fx : Effects)
  | again (fx : Effects)

/-- Go `io.ReadAll(resp.Body)` in the error branch, with the substitution the code makes
when the read fails. -/
def readErrorBody (resp : Response) : String :=
  if resp.BodyReadable then resp.Body else "Failed to read error body"

/-- The request after `req.Header = c.Request.Header.Clone()` and the three `Del` calls
that remove the client credentials; `req` is the result of `NewRequestWithContext`. -/
def strippedRequest (c : ClientRequest) (req : UpstreamRequest) : UpstreamRequest :=
  let req := { req with Header := c.Header.Clone }
  let req := { req with Header := req.Header.Del "Authorization" }
  let req := { req with Header := req.Header.Del "X-Api-Key" }
  { req with Header := req.Header.Del "X-Goog-Api-Key" }

/-- The upstream request as `executeRequestWithRetry` has it at `client.Do`, from the
stripped request: body replaced when the redirection changed it, `ModifyRequest`, header
rules when the group has some, and `X-Accel-Buffering` for a stream. -/
def prepareRequest (env : Collaborators) (c : ClientRequest) (channelHandler : ChannelProxy)
    (group : Group) (apiKey : APIKey) (bodyBytes finalBodyBytes : String) (isStream : Bool)
    (req : UpstreamRequest) : UpstreamRequest :=
  let req :=
    if finalBodyBytes ≠ bodyBytes then
      { req with Body := finalBodyBytes, ContentLength := finalBodyBytes.utf8ByteSize }
    else req
  let req := channelHandler.ModifyRequest req apiKey (some group)
  let req :=
    if group.HeaderRuleList.length > 0 then
      env.ApplyHeaderRules req group.HeaderRuleList c group apiKey
    else req
  if isStream then { req with Header := req.Header.Set "X-Accel-Buffering" "no" } else req

/-- The part of `executeRequestWithRetry` after `client.Do` returned a failure that is
not ignorable, or a response with status at least 400 other than 404: the key status
update, the log entry, and either the answer of the last attempt or the retry. -/
def handleFailure (ps : ProxyServer) (env : Collaborators) (c : ClientRequest)
    (channelHandler : ChannelProxy) (originalGroup group : Group) (bodyBytes : String)
    (isStream : Bool) (retryCount : Nat) (apiKey : APIKey) (upstreamURL : String)
    (statusCode : Nat) (errorMessage parsedError : String) (fx : Effects) : Step :=
  let cfg := group.EffectiveConfig
  let fx := { fx with statusUpdates := fx.statusUpdates ++ [(apiKey, false, parsedError)] }
  let isLastAttempt : Bool := decide ((retryCount : Int) ≥ cfg.MaxRetries)
  let requestType := if isLastAttempt then RequestTypeFinal else RequestTypeRetry
  let fx := fx.record (logRequest ps env c (some originalGroup) group (some apiKey)
    (env.Since retryCount) statusCode (some parsedError) isStream upstreamURL
    (some channelHandler) (some bodyBytes) requestType)
  if isLastAttempt then
    match unmarshalMap errorMessage with
    | some errorJSON => .done (fx.respond (.json statusCode errorJSON))
    | none => .done (fx.respond (.upstreamError statusCode "UPSTREAM_ERROR" errorMessage))
  else .again fx

/-- The part of `executeRequestWithRetry` after `client.Do(req)` has returned `result`, up
to the return or the recursive call. -/
def afterDo (ps : ProxyServer) (env : Collaborators) (c : ClientRequest)
    (channelHandler : ChannelProxy) (originalGroup group : Group) (bodyBytes : String)
    (isStream : Bool) (retryCount : Nat) (apiKey : APIKey) (upstreamURL : String)
    (result : DoResult) (fx : Effects) : Step :=
  match result with
  | .failure err =>
    if env.IsIgnorableError err then
      .done (fx.record (logRequest ps env c (some originalGroup) group (some apiKey)
        (env.Since retryCount) 499 (some err) isStream upstreamURL (some channelHandler)
        (some bodyBytes) RequestTypeFinal))
    else
      handleFailure ps env c channelHandler originalGroup group bodyBytes isStream retryCount
        apiKey upstreamURL 500 err err fx
  | .response resp =>
    if resp.StatusCode ≥ 400 ∧ resp.StatusCode ≠ 404 then
      let errorBody := env.handleGzipCompression resp (readErrorBody resp)
      handleFailure ps env c channelHandler originalGroup group bodyBytes isStream retryCount
        apiKey upstreamURL resp.StatusCode errorBody (env.ParseUpstreamError errorBody) fx
    else
      let successModel := channelHandler.ExtractModel c bodyBytes
      let marked := markOrganizationVerifiedOnSuccess (some apiKey) (some group) successModel
      let apiKey1 := marked.1.getD apiKey
      let fx :=
        { fx with
          promoted := fx.promoted ++ (if marked.2 = [] then [] else [apiKey1])
          orgUpdates := fx.orgUpdates ++ marked.2 }
      let fx :=
        if env.shouldInterceptModelList c.URL.Path c.Method then fx.respond (.modelList resp)
        else fx.respond (.relayed resp isStream)
      .done (fx.record (logRequest ps env c (some originalGroup) group (some apiKey1)
        (env.Since retryCount) resp.StatusCode none isStream upstreamURL (some channelHandler)
        (some bodyBytes) RequestTypeFinal))

/-- The body of `executeRequestWithRetry` for one value of `retryCount`, up to its return
or its recursive call. -/
def attempt (ps : ProxyServer) (env : Collaborators) (c : ClientRequest)
    (channelHandler : ChannelProxy) (originalGroup group : Group) (bodyBytes : String)
    (isStream : Bool) (retryCount : Nat) (fx : Effects) : Step :=
  match ps.SelectKey retryCount with
  | .error err =>
    let fx := fx.respond (.error .ErrNoKeysAvailable (some err))
    .done (fx.record (logRequest ps env c (some originalGroup) group none
      (env.Since retryCount) 503 (some err) isStream "" (some channelHandler)
      (some bodyBytes) RequestTypeFinal))
  | .ok apiKey =>
  match channelHandler.BuildUpstreamURL retryCount c.URL originalGroup.Name with
  | .error err =>
    .done (fx.respond (.error .ErrInternalServer (some ("Failed to build upstream URL: " ++ err))))
  | .ok upstreamURL =>
  match NewRequestWithContext env c.Method upstreamURL bodyBytes with
  | none => .done (fx.respond (.error .ErrInternalServer none))
  | some req =>
  let req := strippedRequest c req
  match channelHandler.ApplyModelRedirect retryCount req bodyBytes group with
  | .error err =>
    let fx := fx.respond (.error .ErrBadRequest (some err))
    .done (fx.record (logRequest ps env c (some originalGroup) group (some apiKey)
      (env.Since retryCount) 400 (some err) isStream upstreamURL (some channelHandler)
      (some bodyBytes) RequestTypeFinal))
  | .ok finalBodyBytes =>
  let requestedModel := channelHandler.ExtractModel c finalBodyBytes
  match checkModelPermissions requestedModel apiKey group with
  | some err =>
    let fx := fx.respond (.error .ErrBadRequest (some err))
    .done (fx.record (logRequest ps env c (some originalGroup) group (some apiKey)
      (env.Since retryCount) 403 (some err) isStream upstreamURL (some channelHandler)
      (some finalBodyBytes) RequestTypeFinal))
  | none =>
  let req := prepareRequest env c channelHandler group apiKey bodyBytes finalBodyBytes isStream req
  let client := if isStream then channelHandler.GetStreamClient else channelHandler.GetHTTPClient
  let resp := client retryCount req
  afterDo ps env c channelHandler originalGroup group bodyBytes isStream retryCount apiKey
    upstreamURL resp { fx with sent := fx.sent ++ [req] }

/-- The method `ProxyServer.executeRequestWithRetry`, from the effects so far to the
effects at its return. `fuel` bounds the depth of the recursion; `none` means the bound
was reached before the method returned. -/
def executeRequestWithRetry (ps : ProxyServer) (env : Collaborators) (c : ClientRequest)
    (channelHandler : ChannelProxy) (originalGroup group : Group) (bodyBytes : String)
    (isStream : Bool) : Nat → Nat → Effects → Option Effects
  | 0, _, _ => none
  | fuel + 1, retryCount, fx =>
    match attempt ps env c channelHandler originalGroup group bodyBytes isStream retryCount fx with
    | .done fx1 => some fx1
    | .again fx1 =>
      executeRequestWithRetry ps env c channelHandler originalGroup group bodyBytes isStream
        fuel (retryCount + 1) fx1

/-- The retry loop as `HandleProxy` enters it: `retryCount = 0`, nothing done yet, and a
recursion bound of `MaxRetries + 1` calls. -/
def runRequest (ps : ProxyServer) (env : Collaborators) (c : ClientRequest)
    (channelHandler : ChannelProxy) (originalGroup group : Group) (bodyBytes : String)
    (isStream : Bool) : Option Effects :=
  executeRequestWithRetry ps env c channelHandler originalGroup group bodyBytes isStream
    (group.EffectiveConfig.MaxRetries.toNat + 1) 0 Effects.empty

/-- The number of upstream attempts (`client.Do` calls) of a request. -/
def Effects.attempts (fx : Effects) : Nat := fx.sent.length

/-- The number of recorded log entries of the given type. -/
def Effects.countType (fx : Effects) (requestType : String) : Nat :=
  (fx.logs.filter (fun e => e.RequestType = requestType)).length

/-! ## Specification-side definitions -/

/-- The first non-empty string of a list, `""` when there is none. -/
def firstNonEmpty (candidates : List String) : String :=
  (candidates.find? (fun s => s ≠ "")).getD ""

/-- An upstream attempt: the key selected for it, the upstream address, the request passed
to `client.Do` and what `client.Do` returned. -/
structure UpstreamCall where
  apiKey : APIKey
  upstreamURL : String
  req : UpstreamRequest
  result : DoResult

/-- The upstream attempt of the call of `executeRequestWithRetry` with the given retry
count; `none` when that call returns before it reaches `client.Do` (key selection, URL
building, request construction or model redirection failed). -/
def upstreamCall (ps : ProxyServer) (env : Collaborators) (c : ClientRequest)
    (channelHandler : ChannelProxy) (originalGroup group : Group) (bodyBytes : String)
    (isStream : Bool) (retryCount : Nat) : Option UpstreamCall :=
  match ps.SelectKey retryCount with
  | .error _ => none
  | .ok apiKey =>
  match channelHandler.BuildUpstreamURL retryCount c.URL originalGroup.Name with
  | .error _ => none
  | .ok upstreamURL =>
  match NewRequestWithContext env c.Method upstreamURL bodyBytes with
  | none => none
  | some req =>
  match channelHandler.ApplyModelRedirect retryCount (strippedRequest c req) bodyBytes group with
  | .error _ => none
  | .ok finalBodyBytes =>
    let req := prepareRequest env c channelHandler group apiKey bodyBytes finalBodyBytes isStream
      (strippedRequest c req)
    some
      { apiKey := apiKey
        upstreamURL := upstreamURL
        req := req
        result :=
          (if isStream then channelHandler.GetStreamClient else channelHandler.GetHTTPClient)
            retryCount req }

/-- The result of `client.Do` in the call of `executeRequestWithRetry` with the given retry
count, `none` when that call does not reach `client.Do`. -/
def upstreamResult (ps : ProxyServer) (env : Collaborators) (c : ClientRequest)
    (channelHandler : ChannelProxy) (originalGroup group : Group) (bodyBytes : String)
    (isStream : Bool) (retryCount : Nat) : Option DoResult :=
  (upstreamCall ps env c channelHandler originalGroup group bodyBytes isStream retryCount).map
    (fun uc => uc.result)

/-- Whether the call with the given retry count returns without a log entry: the key was
selected, but the upstream URL could not be built or the request not be constructed. -/
def urlFails (ps : ProxyServer) (env : Collaborators) (c : ClientRequest)
    (channelHandler : ChannelProxy) (originalGroup : Group) (bodyBytes : String)
    (retryCount : Nat) : Bool :=
  match ps.SelectKey retryCount with
  | .error _ => false
  | .ok _ =>
  match channelHandler.BuildUpstreamURL retryCount c.URL originalGroup.Name with
  | .error _ => true
  | .ok upstreamURL => (NewRequestWithContext env c.Method upstreamURL bodyBytes).isNone

/-- The effects a step ends with. -/
def Step.fx : Step → Effects
  | .done fx => fx
  | .again fx => fx

/-- Whether the step is a recursive call. -/
def Step.isAgain : Step → Bool
  | .done _ => false
  | .again _ => true

/-- The lines of an upstream body, each with the line feed that ends it; the last line
is the rest of the body when the body does not end with a line feed. -/
def sseLines : List Char → List (List Char)
  | [] => []
  | c :: cs =>
    if c = '\n' then [c] :: sseLines cs
    else
      match sseLines cs with
      | [] => [[c]]
      | l :: ls => (c :: l) :: ls

/-- The lines of an upstream body, as strings. -/
def upstreamLines (body : String) : List String := (sseLines body.data).map String.mk

/-- The usage carried by one line of an event stream: the line, without surrounding
white space, is `data:` followed by a payload other than `[DONE]` that decodes as JSON
with a non-null `usage` field. -/
def lineUsage (line : String) : Option TokenUsage :=
  let text := TrimSpace line
  if HasPrefix text "data:" then
    let payload := TrimSpace (TrimPrefix text "data:")
    if payload = "[DONE]" then none
    else
      match unmarshalUsageResponse payload with
      | some (some usage) => some usage
      | _ => none
  else none

/-- The usage of the last line that carries one, `none` when no line does. -/
def lastUsage (lines : List String) : Option TokenUsage :=
  (lines.filterMap lineUsage).getLast?

/-- The values of the members of a JSON object whose key is `name`, exactly or up to case
folding, in the order of the text. -/
def fieldValues (name : String) (ms : List (String × Json)) : List Json :=
  (ms.filter (fun m => fieldMatches name m.1)).map (fun m => m.2)

/-- Whether a JSON value is `null`. -/
def Json.isNull : Json → Bool
  | .null => true
  | _ => false

/-- The boolean a JSON value is, `none` for any other value. -/
def Json.asBool : Json → Option Bool
  | .bool b => some b
  | _ => none

/-- The `int64` a JSON value is: a number literal that is an integer within the `int64`
range, written without fraction and exponent; `none` for any other value. -/
def Json.asInt64 : Json → Option Int
  | .num lit => parseInt64 lit
  | _ => none

/-- The bodies that switch streaming on: a JSON object in which every member named
`stream`, exactly or up to case, holds a boolean or `null`, and the last boolean among
them is `true`. -/
def streamTrueBody (body : String) : Bool :=
  match parseJSON body with
  | some (.obj ms) =>
    (fieldValues "stream" ms).all (fun v => v.isNull || v.asBool.isSome) &&
      decide (((fieldValues "stream" ms).filterMap Json.asBool).getLast? = some true)
  | _ => false

/-- The third condition of the stream detection read literally: the body is a JSON object
with a member `stream` whose value is `true`. -/
def hasStreamTrue (body : String) : Bool :=
  match parseJSON body with
  | some (.obj ms) => ms.any (fun m => m.1 = "stream" && m.2.asBool = some true)
  | _ => false

/-- The token count an object holds under `name`: the last `int64` among the members of
that name, `0` when there is none. -/
def countOf (name : String) (ums : List (String × Json)) : Int :=
  (((fieldValues name ums).filterMap Json.asInt64).getLast?).getD 0

/-- Whether the members of a usage object can be decoded: every member named
`prompt_tokens`, `completion_tokens` or `total_tokens` holds an `int64` or `null`. -/
def countsDecodable (ums : List (String × Json)) : Bool :=
  (fieldValues "prompt_tokens" ums).all (fun v => v.isNull || v.asInt64.isSome) &&
  (fieldValues "completion_tokens" ums).all (fun v => v.isNull || v.asInt64.isSome) &&
  (fieldValues "total_tokens" ums).all (fun v => v.isNull || v.asInt64.isSome)

/-- Whether the value of a `usage` member can be decoded: `null`, or an object whose
token counts can be. -/
def usageDecodable : Json → Bool
  | .null => true
  | .obj ums => countsDecodable ums
  | _ => false

/-- The usage object in force after one more `usage` member: `null` withdraws it, an
object adds its members to the ones in force. -/
def usageStep (acc : Option (List (String × Json))) : Json → Option (List (String × Json))
  | .obj ums => some (acc.getD [] ++ ums)
  | _ => none

/-- The usage object in force after the `usage` members of a payload (an event normally
has one): the members of the objects that follow the last `null`, `none` when the last
`usage` member is `null` or there is none. -/
def usageInForce (us : List Json) : Option (List (String × Json)) :=
  us.foldl usageStep none

/-- The usage a usage object with the given members writes: its three token counts. -/
def usageOfMembers (ums : List (String × Json)) : TokenUsage :=
  ⟨countOf "prompt_tokens" ums, countOf "completion_tokens" ums, countOf "total_tokens" ums⟩

/-- The usage a payload carries: the payload is a JSON object, each of its `usage`
members can be decoded, and there is a usage object in force at the end, whose three
token counts are the usage. -/
def payloadUsage (payload : String) : Option TokenUsage :=
  match parseJSON payload with
  | some (.obj ms) =>
    if (fieldValues "usage" ms).all usageDecodable then
      (usageInForce (fieldValues "usage" ms)).map usageOfMembers
    else none
  | _ => none

/-- Whether a payload is a JSON object with a `usage` member that is not `null`. -/
def hasNonNullUsage (payload : String) : Bool :=
  match parseJSON payload with
  | some (.obj ms) => (fieldValues "usage" ms).any (fun v => !v.isNull)
  | _ => false

/-- The payload of a line of an event stream: the line, without surrounding white space,
is `data:` followed by the payload, which is not `[DONE]`. -/
def dataPayload (line : String) : Option String :=
  let text := TrimSpace line
  if HasPrefix text "data:" then
    let payload := TrimSpace (TrimPrefix text "data:")
    if payload = "[DONE]" then none else some payload
  else none

/-- The usage carried by one line of an event stream: that of its payload. -/
def carriedUsage (line : String) : Option TokenUsage :=
  (dataPayload line).bind payloadUsage

/-- The usage of the last line that carries one, `none` when no line does. -/
def lastCarriedUsage (lines : List String) : Option TokenUsage :=
  (lines.filterMap carriedUsage).getLast?

/-! ## Example inputs -/

/-- A client request without headers and query parameters. -/
def Example.plainClient : ClientRequest :=
  { Method := "POST"
    URL := ⟨"", "", "/proxy/g1/v1/chat/completions", ""⟩
    queryCache := []
    Header := []
    ClientIP := "10.0.0.1" }

/-- A group named `g1` without header rules, with the given retry bound. -/
def Example.group (maxRetries : Int) : Group :=
  { ID := 1
    Name := "g1"
    DisplayName := "Group One"
    GroupType := "standard"
    EffectiveConfig :=
      { RequestTimeout := 30
        MaxRetries := maxRetries
        AppUrl := "https://app.example"
        EnableRequestBodyLogging := false
        PremiumModelsMap := [] }
    HeaderRuleList := [] }

/-- An upstream request to `openrouter.ai:443` carrying a `Referer` header only. -/
def Example.openRouterRequest : UpstreamRequest :=
  { Method := "POST"
    URL := some ⟨"https", "openrouter.ai:443", "/api/v1/chat/completions", ""⟩
    Header := [("Referer", ["https://ref.example"])]
    Body := ""
    ContentLength := 0 }

/-- The request body `{}`. -/
def Example.emptyObject : String := "\x7b\x7d"

/-- A body cut off in the middle of `true`: `{"stream": tru`. -/
def Example.cutBody : String := "\x7b\"stream\": tru"

/-- The request body `{"stream": true}`. -/
def Example.streamBody : String := "\x7b\"stream\": true\x7d"

/-- The upstream error body `{"error":{"message":"rate limit"}}`. -/
def Example.rateLimitBody : String :=
  "\x7b\"error\":\x7b\"message\":\"rate limit\"\x7d\x7d"

/-- The upstream body
`{"id":"x","usage":{"prompt_tokens":3,"completion_tokens":5,"total_tokens":8}}`. -/
def Example.usageBody : String :=
  "\x7b\"id\":\"x\",\"usage\":\x7b\"prompt_tokens\":3,\"completion_tokens\":5,\"total_tokens\":8\x7d\x7d"

/-- An upstream event stream: a chunk without usage, a chunk with usage (10, 20, 30),
and the `[DONE]` marker, each followed by an empty line. -/
def Example.sseBody : String :=
  "data: \x7b\"choices\":[]\x7d\n\ndata: \x7b\"usage\":\x7b\"prompt_tokens\":10,\"completion_tokens\":20,\"total_tokens\":30\x7d\x7d\n\ndata: [DONE]\n\n"

/-- A key of the pool. -/
def Example.key : APIKey := ⟨7, "sk-test", false, ""⟩

/-- A base channel with one upstream address and no model redirection, whose clients
answer the attempt with retry count `n` by `result n`. -/
def Example.base (result : Nat → DoResult) : BaseChannel :=
  { BuildUpstreamURL := fun _ _ _ => .ok "https://up.example/v1/chat/completions"
    ApplyModelRedirect := fun _ _ body _ => .ok body
    HTTPClient := fun n _ => result n
    StreamClient := fun n _ => result n }

/-- A base channel for which no upstream URL can be built. -/
def Example.baseWithoutURL : BaseChannel :=
  { BuildUpstreamURL := fun _ _ _ => .error "no upstream"
    ApplyModelRedirect := fun _ _ body _ => .ok body
    HTTPClient := fun _ _ => .failure "unreachable"
    StreamClient := fun _ _ => .failure "unreachable" }

/-- Collaborators: truncation to the first `n` characters, no header rules applied, error
bodies taken as they are. -/
def Example.env : Collaborators :=
  { TruncateString := fun s n => ⟨s.data.take n⟩
    ApplyHeaderRules := fun req _ _ _ _ => req
    IsIgnorableError := fun err => err = "context canceled"
    ParseUpstreamError := fun body => body
    handleGzipCompression := fun _ body => body
    shouldInterceptModelList := fun _ _ => false
    ParseURL := fun _ => some ⟨"https", "up.example", "/v1/chat/completions", ""⟩
    Since := fun _ => 0 }

/-- A proxy server with a log service, whose key provider answers the `n`-th attempt by
`keys n`. -/
def Example.server (keys : Nat → Except String APIKey) : ProxyServer :=
  { SelectKey := keys
    requestLogService := true
    Encrypt := fun s => .ok ("enc:" ++ s)
    Hash := fun s => "hash:" ++ s }

/-- A client request that carries its own credentials in all three headers. -/
def Example.clientWithCredentials : ClientRequest :=
  { Example.plainClient with
    Header :=
      [("Authorization", ["Bearer client-secret"]), ("X-Api-Key", ["client-key"]),
        ("X-Goog-Api-Key", ["client-goog"]), ("Content-Type", ["application/json"])] }

/-- An upstream response with the given status and body. -/
def Example.response (status : Nat) (body : String) : Response :=
  { StatusCode := status, Header := [], Body := body, BodyReadable := true }

/-- The three counts the log exactness property relates: `final` entries, `retry` entries
and upstream attempts. -/
def Effects.counts (fx : Effects) : Nat × Nat × Nat :=
  (fx.countType RequestTypeFinal, fx.countType RequestTypeRetry, fx.attempts)

/-- A key provider with a single usable key: it selects `Example.key` for the first
attempt and has no key available afterwards. -/
def Example.oneKey : Nat → Except String APIKey :=
  fun n => if n = 0 then .ok Example.key else .error "no keys available"

/-- An OpenAI channel whose upstream answers every attempt with status 500 and the
given body. -/
def Example.failingChannel (body : String) : ChannelProxy :=
  OpenAIChannel (Example.base (fun _ => .response (Example.response 500 body)))

/-- The values a request carries under the three credential headers `Authorization`,
`X-Api-Key` and `X-Goog-Api-Key` (`none`: the header is absent). -/
def credentialHeaders (req : UpstreamRequest) :
    Option (List String) × Option (List String) × Option (List String) :=
  (req.Header.lookup "Authorization", req.Header.lookup "X-Api-Key",
    req.Header.lookup "X-Goog-Api-Key")

/-- The answer of the last failed attempt for an upstream error body, by the JSON value
the body is: `null`, or an object all of whose numbers are within the `float64` range, is
sent as JSON with the upstream status; anything else (another JSON value, an object with
a number out of range, a text that is not JSON or is nested too deep) is wrapped. -/
def finalErrorAnswer (statusCode : Nat) (errorMessage : String) : ClientResponse :=
  match parseJSON errorMessage with
  | some .null => .json statusCode .null
  | some (.obj members) =>
    if ∀ lit ∈ (Json.obj members).numbers, parseFloatRangeError lit = false then
      .json statusCode (.obj members)
    else .upstreamError statusCode "UPSTREAM_ERROR" errorMessage
  | _ => .upstreamError statusCode "UPSTREAM_ERROR" errorMessage

/-- The keys an attempt promotes (as they are after the write) and the
`UpdateOrganizationStatus` calls it starts, by what `client.Do` returned for the attempt
made with `apiKey`: nothing on a transport error or on a status of at least 400 other than
404, else what `markOrganizationVerifiedOnSuccess` does for the model of the request. -/
def promotionOf (channelHandler : ChannelProxy) (c : ClientRequest) (group : Group)
    (bodyBytes : String) (apiKey : APIKey) (result : DoResult) :
    List APIKey × List (Nat × Bool) :=
  match result with
  | .failure _ => ([], [])
  | .response resp =>
    if resp.StatusCode ≥ 400 ∧ resp.StatusCode ≠ 404 then ([], [])
    else
      let marked := markOrganizationVerifiedOnSuccess (some apiKey) (some group)
        (channelHandler.ExtractModel c bodyBytes)
      (if marked.2 = [] then [] else [marked.1.getD apiKey], marked.2)

/-- The keys promoted and the organization-status updates started by the call of
`executeRequestWithRetry` with the given retry count. -/
def attemptPromotion (ps : ProxyServer) (env : Collaborators) (c : ClientRequest)
    (channelHandler : ChannelProxy) (originalGroup group : Group) (bodyBytes : String)
    (isStream : Bool) (retryCount : Nat) : List APIKey × List (Nat × Bool) :=
  match upstreamCall ps env c channelHandler originalGroup group bodyBytes isStream
    retryCount with
  | none => ([], [])
  | some uc => promotionOf channelHandler c group bodyBytes uc.apiKey uc.result

/-- A group like `Example.group 0` whose premium models are `gpt-premium`. -/
def Example.premiumGroup : Group :=
  { Example.group 0 with
    EffectiveConfig :=
      { (Example.group 0).EffectiveConfig with PremiumModelsMap := ["gpt-premium"] } }

/-- The request body `{"model":"gpt-premium"}`. -/
def Example.premiumBody : String := "\x7b\"model\":\"gpt-premium\"\x7d"

/-- A key that is already organization-verified. -/
def Example.verifiedKey : APIKey := ⟨8, "sk-org", true, "org-1"⟩

/-- A group like `Example.group 0` with request body logging switched on. -/
def Example.loggingGroup : Group :=
  { Example.group 0 with
    EffectiveConfig :=
      { (Example.group 0).EffectiveConfig with EnableRequestBodyLogging := true } }

/-- A client request that carries a `User-Agent` header. -/
def Example.clientWithAgent : ClientRequest :=
  { Example.plainClient with Header := [("User-Agent", ["curl/8.0"])] }

/-- A proxy server like `Example.server` whose `requestLogService` is nil. -/
def Example.serverWithoutLog (keys : Nat → Except String APIKey) : ProxyServer :=
  { Example.server keys with requestLogService := false }

/-- The request body `{"stream": true, "STREAM": 1}`. -/
def Example.streamThenNumberBody : String := "\x7b\"stream\": true, \"STREAM\": 1\x7d"

/-- The request body `{"Stream": true}`. -/
def Example.capitalStreamBody : String := "\x7b\"Stream\": true\x7d"

/-- The upstream error body `{"error":{"code":1e999}}`. -/
def Example.hugeNumberBody : String := "\x7b\"error\":\x7b\"code\":1e999\x7d\x7d"

/-- The payload `{"usage":{"prompt_tokens":1,"completion_tokens":2,"total_tokens":3}}`. -/
def Example.usagePayload : String :=
  "\x7b\"usage\":\x7b\"prompt_tokens\":1,\"completion_tokens\":2,\"total_tokens\":3\x7d\x7d"

/-- The payload `{"usage":7.5}`. -/
def Example.brokenUsagePayload : String := "\x7b\"usage\":7.5\x7d"

/-- An upstream event stream of two events: one with usage (1, 2, 3), then one whose
`usage` member is the number 7.5. -/
def Example.brokenUsageStream : String :=
  "data: " ++ Example.usagePayload ++ "\n\ndata: " ++ Example.brokenUsagePayload ++ "\n\n"

/-! # Properties -/

/-! ## Helper lemmas: strings -/

theorem string_append_data (a b : String) : (a ++ b).data = a.data ++ b.data := rfl

theorem string_eq_iff_data (a b : String) : a = b ↔ a.data = b.data :=
  ⟨fun h => h ▸ rfl, fun h => String.ext h⟩

theorem isPrefixOf_map_toLower (p s : List Char) (h : p.isPrefixOf s = true) :
    (p.map Char.toLower).isPrefixOf (s.map Char.toLower) = true := by
  rw [List.isPrefixOf_iff_prefix] at h ⊢
  obtain ⟨t, rfl⟩ := h
  exact ⟨t.map Char.toLower, by simp⟩

theorem isInfixOf_map_toLower (p s : List Char) (h : isInfixOf p s = true) :
    isInfixOf (p.map Char.toLower) (s.map Char.toLower) = true := by
  induction s with
  | nil =>
    cases p with
    | nil => rfl
    | cons a p => simp [isInfixOf] at h
  | cons c cs ih =>
    simp only [isInfixOf, Bool.or_eq_true, List.map_cons] at h ⊢
    rcases h with h | h
    · left
      have := isPrefixOf_map_toLower p (c :: cs) h
      simpa using this
    · right
      exact ih h

/-- Lowering a text keeps every occurrence of a lower-case needle. -/
theorem Contains_ToLower (s sub : String) (hsub : ToLower sub = sub)
    (h : Contains s sub = true) : Contains (ToLower s) sub = true := by
  have := isInfixOf_map_toLower sub.data s.data h
  unfold Contains
  have h2 : sub.data.map Char.toLower = sub.data := by
    have := congrArg String.data hsub
    simpa [ToLower] using this
  rw [h2] at this
  simpa [ToLower] using this

theorem isInfixOf_iff (p s : List Char) : isInfixOf p s = true ↔ p <:+: s := by
  induction s with
  | nil => simp [isInfixOf, List.isPrefixOf_iff_prefix]
  | cons c cs ih =>
    simp only [isInfixOf, Bool.or_eq_true, List.isPrefixOf_iff_prefix, ih,
      List.infix_cons_iff]

/-- An occurrence of a needle whose last character does not occur in `t` lies before
`t`. -/
theorem infix_of_infix_append (init : List Char) (z : Char) (pre t : List Char)
    (hz : z ∉ t) (h : init ++ [z] <:+: pre ++ t) : init ++ [z] <:+: pre := by
  obtain ⟨a, b, hab⟩ := h
  rw [List.append_eq_append_iff] at hab
  rcases hab with ⟨m, hm, _⟩ | ⟨m, hm, ht⟩
  · exact ⟨a, m, hm.symm⟩
  · rcases List.eq_nil_or_concat m with rfl | ⟨m1, w, rfl⟩
    · exact ⟨a, [], by simpa using hm⟩
    · exfalso
      rw [List.concat_eq_append, ← List.append_assoc, ← List.append_assoc] at hm
      have hzw : [z] = [w] := List.append_inj_right' hm rfl
      have hzw1 : z = w := by simpa using hzw
      apply hz
      rw [ht, hzw1]
      simp

/-- An occurrence of a needle whose first character does not occur in `t` lies after
`t`. -/
theorem infix_of_infix_append_left (y : Char) (rest t s : List Char)
    (hy : y ∉ t) (h : y :: rest <:+: t ++ s) : y :: rest <:+: s := by
  have h1 : (y :: rest).reverse <:+: (t ++ s).reverse := List.reverse_infix.mpr h
  rw [List.reverse_append, List.reverse_cons] at h1
  have h2 := infix_of_infix_append rest.reverse y s.reverse t.reverse (by simpa using hy) h1
  rw [← List.reverse_cons] at h2
  exact List.reverse_infix.mp h2

/-- What `cutPort` returns: the host as it is, or the host without a final colon and the
decimal digits after it. -/
theorem cutPort_spec (rev seen : List Char) :
    cutPort rev seen = rev.reverse ++ seen ∨
    ∃ ds, (∀ d ∈ ds, d.isDigit = true) ∧ rev.reverse ++ seen = cutPort rev seen ++ ':' :: ds := by
  induction rev generalizing seen with
  | nil => left; rfl
  | cons c rev ih =>
    by_cases hc : c = ':'
    · subst hc
      by_cases hv : validOptionalPort (':' :: seen) = true
      · right
        refine ⟨seen, ?_, ?_⟩
        · simpa [validOptionalPort] using hv
        · simp [cutPort, hv]
      · left
        simp [cutPort, hv]
    · have := ih (c :: seen)
      simpa [cutPort, hc] using this

/-- A host that contains `openrouter.ai` has a host name that contains it. -/
theorem Hostname_contains_openrouter (u : URL)
    (h : Contains u.Host "openrouter.ai" = true) :
    Contains u.Hostname "openrouter.ai" = true := by
  unfold Contains at h ⊢
  rw [isInfixOf_iff] at h ⊢
  have hneedle : "openrouter.ai".data = "openrouter.a".data ++ ['i'] := by decide
  have hneedle1 : "openrouter.ai".data = 'o' :: "penrouter.ai".data := by decide
  have hcut : "openrouter.ai".data <:+: cutPort u.Host.data.reverse [] := by
    rcases cutPort_spec u.Host.data.reverse [] with h1 | ⟨ds, hds, h1⟩
    · rw [h1]; simpa using h
    · simp only [List.reverse_reverse, List.append_nil] at h1
      rw [h1, hneedle] at h
      rw [hneedle]
      refine infix_of_infix_append _ 'i' _ _ ?_ h
      simp only [List.mem_cons, not_or]
      refine ⟨by decide, fun hmem => ?_⟩
      have := hds 'i' hmem
      revert this
      decide
  unfold URL.Hostname
  simp only
  generalize cutPort u.Host.data.reverse [] = host at hcut
  by_cases hb : (HasPrefix ⟨host⟩ "[" && HasSuffix ⟨host⟩ "]") = true
  · simp only [hb, if_true]
    simp only [Bool.and_eq_true, HasPrefix, HasSuffix, List.isPrefixOf_iff_prefix] at hb
    obtain ⟨⟨t1, ht1⟩, ⟨t2, ht2⟩⟩ := hb
    have hb1 : host = '[' :: t1 := by simpa using ht1.symm
    have hb2 : host = t2.reverse ++ [']'] := by
      have := congrArg List.reverse ht2
      simpa using this.symm
    have hmid : ∃ mid, host = '[' :: (mid ++ [']']) := by
      rcases List.eq_nil_or_concat t1 with rfl | ⟨m, w, rfl⟩
      · exfalso
        rw [hb1] at hb2
        rcases List.eq_nil_or_concat t2.reverse with h0 | ⟨m, w, h0⟩
        · rw [h0] at hb2; simp at hb2
        · rw [h0, List.concat_eq_append] at hb2
          have := congrArg List.length hb2
          simp at this
      · refine ⟨m, ?_⟩
        rw [hb1, List.concat_eq_append] at hb2 ⊢
        have h3 : ('[' :: m) ++ [w] = t2.reverse ++ [']'] := by simpa using hb2
        have h4 : [w] = [']'] := List.append_inj_right' h3 rfl
        have h5 : w = ']' := by simpa using h4
        rw [h5]
    obtain ⟨mid, hmid⟩ := hmid
    subst hmid
    have hres : List.take (('[' :: (mid ++ [']'])).length - 2)
        (List.drop 1 ('[' :: (mid ++ [']']))) = mid := by
      simp
    show "openrouter.ai".data <:+: List.take (('[' :: (mid ++ [']'])).length - 2)
        (List.drop 1 ('[' :: (mid ++ [']'])))
    rw [hres]
    have h6 : "openrouter.ai".data <:+: mid ++ [']'] := by
      rw [hneedle1] at hcut ⊢
      exact infix_of_infix_append_left 'o' _ ['['] _ (by decide) (by simpa using hcut)
    rw [hneedle] at h6 ⊢
    exact infix_of_infix_append _ 'i' _ _ (by decide) h6
  · simp only [hb, Bool.false_eq_true, if_false]
    exact hcut

/-- What `TrimRight s "/"` is: `s` without its trailing slashes. -/
theorem TrimRight_slash (s : String) :
    (∃ k, s = TrimRight s "/" ++ ⟨List.replicate k '/'⟩) ∧
      HasSuffix (TrimRight s "/") "/" = false := by
  have hp : ∀ c : Char, ("/".data.contains c) = decide (c = '/') := by
    intro c
    show (['/'] : List Char).contains c = decide (c = '/')
    by_cases hc : c = '/'
    · subst hc; rfl
    · simp [hc]
  have hfun : (fun c : Char => "/".data.contains c) = fun c => decide (c = '/') := funext hp
  constructor
  · refine ⟨(s.data.reverse.takeWhile (fun c => decide (c = '/'))).length, ?_⟩
    rw [string_eq_iff_data, string_append_data]
    simp only [TrimRight, hfun]
    have h1 := List.takeWhile_append_dropWhile (fun c => decide (c = '/')) s.data.reverse
    generalize ht : s.data.reverse.takeWhile (fun c => decide (c = '/')) = t at h1
    have h2 : t = List.replicate t.length '/' := by
      rw [List.eq_replicate_iff]
      refine ⟨rfl, ?_⟩
      intro b hb
      rw [← ht] at hb
      simpa using List.mem_takeWhile_imp hb
    have h3 := congrArg List.reverse h1
    rw [List.reverse_append, List.reverse_reverse, h2, List.reverse_replicate] at h3
    exact h3.symm
  · simp only [HasSuffix, TrimRight, hfun, List.reverse_reverse]
    generalize s.data.reverse = l
    show List.isPrefixOf ['/'] (List.dropWhile (fun c => decide (c = '/')) l) = false
    induction l with
    | nil => rfl
    | cons a l ih =>
      by_cases ha : a = '/'
      · simpa [List.dropWhile, ha] using ih
      · have : List.dropWhile (fun c => decide (c = '/')) (a :: l) = a :: l := by
          simp [List.dropWhile, ha]
        rw [this]
        simp [List.isPrefixOf, Ne.symm ha]

/-- What `TrimPrefix` does on a text that starts with the prefix. -/
theorem TrimPrefix_append (p rest : String) : TrimPrefix (p ++ rest) p = rest := by
  have h : HasPrefix (p ++ rest) p = true := by
    simp [HasPrefix, string_append_data]
  simp [TrimPrefix, h, string_append_data]

/-! ## Helper lemmas: headers -/

theorem Header.lookup_filter_ne (h : Header) (k key : String) :
    Header.lookup (h.filter (fun e => e.1 ≠ k)) key = if key = k then none else h.lookup key := by
  induction h with
  | nil => simp [Header.lookup]
  | cons e h ih =>
    by_cases hek : e.1 = k
    · have : List.filter (fun e => decide (e.1 ≠ k)) (e :: h) =
          List.filter (fun e => decide (e.1 ≠ k)) h := by simp [List.filter, hek]
      rw [this, ih]
      by_cases hkk : key = k
      · simp [hkk]
      · have hne : ¬ e.1 = key := fun h1 => hkk (h1 ▸ hek)
        simp [hkk, Header.lookup, List.find?, hne]
    · have : List.filter (fun e => decide (e.1 ≠ k)) (e :: h) =
          e :: List.filter (fun e => decide (e.1 ≠ k)) h := by simp [List.filter, hek]
      rw [this]
      by_cases hkey : e.1 = key
      · have hkk : ¬ key = k := fun h1 => hek (hkey.trans h1)
        simp [Header.lookup, List.find?, hkey, hkk]
      · have ih1 : Header.lookup (List.filter (fun e => decide (e.1 ≠ k)) h) key =
            if key = k then none else Header.lookup h key := ih
        simp only [Header.lookup, List.find?, hkey, decide_False] at ih1 ⊢
        exact ih1

theorem Header.lookup_Set_same (h : Header) (key value : String) :
    (h.Set key value).lookup (CanonicalMIMEHeaderKey key) = some [value] := by
  simp [Header.Set, Header.lookup, List.find?]

theorem Header.lookup_Set_other (h : Header) (key value k : String)
    (hk : k ≠ CanonicalMIMEHeaderKey key) : (h.Set key value).lookup k = h.lookup k := by
  have h1 := Header.lookup_filter_ne h (CanonicalMIMEHeaderKey key) k
  simp only [hk, if_false] at h1
  have hk2 : ¬ CanonicalMIMEHeaderKey key = k := fun e => hk e.symm
  simp only [Header.Set, Header.lookup, List.find?, hk2, decide_False] at h1 ⊢
  exact h1

theorem Header.lookup_Del_same (h : Header) (key : String) :
    (h.Del key).lookup (CanonicalMIMEHeaderKey key) = none := by
  unfold Header.Del
  rw [Header.lookup_filter_ne]
  simp

theorem Header.lookup_Del_other (h : Header) (key k : String)
    (hk : k ≠ CanonicalMIMEHeaderKey key) : (h.Del key).lookup k = h.lookup k := by
  unfold Header.Del
  rw [Header.lookup_filter_ne]
  simp [hk]

theorem Header.Get_Set_same (h : Header) (key value : String) :
    (h.Set key value).Get key = value := by
  simp [Header.Get, Header.lookup_Set_same]

theorem Header.Get_Set_other (h : Header) (key value k : String)
    (hk : CanonicalMIMEHeaderKey k ≠ CanonicalMIMEHeaderKey key) :
    (h.Set key value).Get k = h.Get k := by
  simp [Header.Get, Header.lookup_Set_other h key value _ hk]

theorem canonical_Authorization : CanonicalMIMEHeaderKey "Authorization" = "Authorization" := by
  decide

theorem canonical_XApiKey : CanonicalMIMEHeaderKey "X-Api-Key" = "X-Api-Key" := by decide

theorem canonical_XGoogApiKey : CanonicalMIMEHeaderKey "X-Goog-Api-Key" = "X-Goog-Api-Key" := by
  decide

theorem canonical_HTTPReferer : CanonicalMIMEHeaderKey "HTTP-Referer" = "Http-Referer" := by
  decide

theorem canonical_XTitle : CanonicalMIMEHeaderKey "X-Title" = "X-Title" := by decide

theorem canonical_XAccel : CanonicalMIMEHeaderKey "X-Accel-Buffering" = "X-Accel-Buffering" := by
  decide

/-- The header changes of `applyOpenRouterHeaders` touch only `Http-Referer` and
`X-Title`. -/
theorem applyOpenRouterHeaders_lookup_other (req : UpstreamRequest) (group : Option Group)
    (k : String) (h1 : k ≠ "Http-Referer") (h2 : k ≠ "X-Title") :
    (applyOpenRouterHeaders req group).Header.lookup k = req.Header.lookup k := by
  have e1 : ∀ (h : Header) v, (h.Set "HTTP-Referer" v).lookup k = h.lookup k := fun h v =>
    Header.lookup_Set_other h _ v k (by rw [canonical_HTTPReferer]; exact h1)
  have e2 : ∀ (h : Header) v, (h.Set "X-Title" v).lookup k = h.lookup k := fun h v =>
    Header.lookup_Set_other h _ v k (by rw [canonical_XTitle]; exact h2)
  unfold applyOpenRouterHeaders
  cases group <;> simp only [] <;> split_ifs <;> simp [e1, e2]

/-! ## Helper lemmas: decoding into structs -/

theorem float64Limit_eq : float64Limit = 2 ^ 1024 - 2 ^ 970 := by
  norm_num [float64Limit]

theorem pushFrame_too_deep (next : PState) (f : Frame) (st : List Frame)
    (h : maxNestingDepth ≤ st.length) : pushFrame next f st = none := by
  unfold pushFrame
  simp [Nat.not_lt.mpr h]

theorem foldl_bind_none {α β : Type} (f : α → β → Option α) (ms : List β) :
    ms.foldl (fun acc m => acc.bind (fun cur => f cur m)) none = none := by
  induction ms with
  | nil => rfl
  | cons m ms ih => simpa using ih

theorem decodeMembers_cons {α : Type} (field : α → String × Json → Option α) (init : α)
    (m : String × Json) (ms : List (String × Json)) :
    decodeMembers field init (m :: ms) =
      (field init m).bind (fun cur => decodeMembers field cur ms) := by
  unfold decodeMembers
  simp only [List.foldl_cons, Option.some_bind]
  cases field init m with
  | none => simpa using foldl_bind_none field ms
  | some cur => rfl

theorem fieldValues_cons (name : String) (m : String × Json) (ms : List (String × Json)) :
    fieldValues name (m :: ms) =
      if fieldMatches name m.1 = true then m.2 :: fieldValues name ms
      else fieldValues name ms := by
  unfold fieldValues
  by_cases h : fieldMatches name m.1 = true <;> simp [List.filter_cons, h]

theorem fieldValues_append (name : String) (a b : List (String × Json)) :
    fieldValues name (a ++ b) = fieldValues name a ++ fieldValues name b := by
  simp [fieldValues]

theorem getLast?_getD_cons {α : Type} (x : α) (xs : List α) (d : α) :
    ((x :: xs).getLast?).getD d = (xs.getLast?).getD x := by
  cases xs with
  | nil => rfl
  | cons y ys =>
    rw [List.getLast?_cons_cons]
    obtain ⟨z, hz⟩ : ∃ z, (y :: ys).getLast? = some z :=
      ⟨_, List.getLast?_eq_getLast _ (by simp)⟩
    rw [hz]
    rfl

theorem getLast?_getD_append {α : Type} (a b : List α) (d : α) :
    ((a ++ b).getLast?).getD d = (b.getLast?).getD ((a.getLast?).getD d) := by
  induction a generalizing d with
  | nil => simp
  | cons x xs ih =>
    rw [List.cons_append, getLast?_getD_cons, getLast?_getD_cons, ih]

theorem filterMap_getLast?_getD_cons {α : Type} (f : Json → Option α) (v : Json)
    (vs : List Json) (d : α) :
    (((v :: vs).filterMap f).getLast?).getD d =
      ((vs.filterMap f).getLast?).getD ((f v).getD d) := by
  cases h : f v with
  | none => simp [List.filterMap_cons, h]
  | some x => simp [List.filterMap_cons, h, getLast?_getD_cons]

theorem decodeBool_eq (cur : Bool) (v : Json) :
    decodeBool cur v =
      if (v.isNull || v.asBool.isSome) = true then some (v.asBool.getD cur) else none := by
  cases v <;> rfl

theorem decodeInt64_eq (cur : Int) (v : Json) :
    decodeInt64 cur v =
      if (v.isNull || v.asInt64.isSome) = true then some (v.asInt64.getD cur) else none := by
  cases v with
  | num lit =>
    simp only [decodeInt64, Json.isNull, Json.asInt64, Bool.false_or]
    cases parseInt64 lit <;> rfl
  | _ => rfl

/-- What decoding the members of an object into `streamPayload` gives: an error when a
member named `stream` holds something other than a boolean or `null`, else the last
boolean among these members, or the value held before. -/
theorem decodeMembers_streamPayload (ms : List (String × Json)) :
    ∀ init : Bool, decodeMembers streamPayloadField init ms =
      if (fieldValues "stream" ms).all (fun v => v.isNull || v.asBool.isSome) = true then
        some ((((fieldValues "stream" ms).filterMap Json.asBool).getLast?).getD init)
      else none := by
  induction ms with
  | nil => intro init; rfl
  | cons m ms ih =>
    intro init
    rw [decodeMembers_cons, fieldValues_cons]
    by_cases hm : fieldMatches "stream" m.1 = true
    · simp only [streamPayloadField, hm, if_true, decodeBool_eq, List.all_cons,
        filterMap_getLast?_getD_cons]
      by_cases hv : (m.2.isNull || m.2.asBool.isSome) = true
      · simp only [hv, if_true, Option.some_bind, ih, Bool.true_and]
      · simp [hv]
    · simp only [streamPayloadField, hm, Bool.false_eq_true, if_false, Option.some_bind, ih]

/-- The bodies `json.Unmarshal` decodes into a `streamPayload` with `Stream` true. -/
theorem unmarshalStreamPayload_eq_some_true (body : String) :
    unmarshalStreamPayload body = some true ↔ streamTrueBody body = true := by
  unfold unmarshalStreamPayload streamTrueBody
  cases parseJSON body with
  | none => simp
  | some v =>
    cases v with
    | obj ms =>
      simp only [Option.some_bind, decodeStruct, decodeMembers_streamPayload]
      by_cases hall : (fieldValues "stream" ms).all (fun v => v.isNull || v.asBool.isSome) = true
      · simp only [hall, if_true, Bool.true_and, decide_eq_true_eq, Option.some.injEq]
        cases ((fieldValues "stream" ms).filterMap Json.asBool).getLast? <;> simp
      · simp [hall]
    | _ => simp [decodeStruct]

theorem fieldMatches_fold (name key : String) (h : fieldMatches name key = true) :
    key.data.map foldRune = name.data.map foldRune := by
  unfold fieldMatches at h
  simp only [Bool.or_eq_true, decide_eq_true_eq] at h
  rcases h with h | h
  · rw [h]
  · exact h

theorem fieldMatches_exclusive (n1 n2 key : String)
    (hne : n1.data.map foldRune ≠ n2.data.map foldRune)
    (h : fieldMatches n1 key = true) : fieldMatches n2 key = false := by
  by_contra h2
  have h2 : fieldMatches n2 key = true := by simpa using h2
  exact hne ((fieldMatches_fold n1 key h).symm.trans (fieldMatches_fold n2 key h2))

theorem tokenUsageField_prompt (u : TokenUsage) (m : String × Json)
    (h : fieldMatches "prompt_tokens" m.1 = true) :
    tokenUsageField u m =
      (decodeInt64 u.PromptTokens m.2).map (fun n => { u with PromptTokens := n }) ∧
    fieldMatches "completion_tokens" m.1 = false ∧ fieldMatches "total_tokens" m.1 = false :=
  ⟨by simp [tokenUsageField, h],
    fieldMatches_exclusive "prompt_tokens" _ _ (by decide) h,
    fieldMatches_exclusive "prompt_tokens" _ _ (by decide) h⟩

theorem tokenUsageField_completion (u : TokenUsage) (m : String × Json)
    (h : fieldMatches "completion_tokens" m.1 = true) :
    tokenUsageField u m =
      (decodeInt64 u.CompletionTokens m.2).map (fun n => { u with CompletionTokens := n }) ∧
    fieldMatches "prompt_tokens" m.1 = false ∧ fieldMatches "total_tokens" m.1 = false := by
  have h1 := fieldMatches_exclusive "completion_tokens" "prompt_tokens" _ (by decide) h
  exact ⟨by simp [tokenUsageField, h, h1], h1,
    fieldMatches_exclusive "completion_tokens" _ _ (by decide) h⟩

theorem tokenUsageField_total (u : TokenUsage) (m : String × Json)
    (h : fieldMatches "total_tokens" m.1 = true) :
    tokenUsageField u m =
      (decodeInt64 u.TotalTokens m.2).map (fun n => { u with TotalTokens := n }) ∧
    fieldMatches "prompt_tokens" m.1 = false ∧ fieldMatches "completion_tokens" m.1 = false := by
  have h1 := fieldMatches_exclusive "total_tokens" "prompt_tokens" _ (by decide) h
  have h2 := fieldMatches_exclusive "total_tokens" "completion_tokens" _ (by decide) h
  exact ⟨by simp [tokenUsageField, h, h1, h2], h1, h2⟩

/-- What decoding the members of an object into a `TokenUsage` gives: an error when a
member named after one of the three fields holds something other than an `int64` or
`null`, else each field is the last `int64` among the members of its name, or the value
held before. -/
theorem decodeMembers_tokenUsage (ums : List (String × Json)) :
    ∀ u : TokenUsage, decodeMembers tokenUsageField u ums =
      if countsDecodable ums = true then
        some
          ⟨(((fieldValues "prompt_tokens" ums).filterMap Json.asInt64).getLast?).getD
              u.PromptTokens,
            (((fieldValues "completion_tokens" ums).filterMap Json.asInt64).getLast?).getD
              u.CompletionTokens,
            (((fieldValues "total_tokens" ums).filterMap Json.asInt64).getLast?).getD
              u.TotalTokens⟩
      else none := by
  induction ums with
  | nil => intro u; rfl
  | cons m ums ih =>
    intro u
    rw [decodeMembers_cons]
    unfold countsDecodable
    simp only [fieldValues_cons]
    by_cases hp : fieldMatches "prompt_tokens" m.1 = true
    · obtain ⟨e, h1, h2⟩ := tokenUsageField_prompt u m hp
      rw [e]
      simp only [hp, h1, h2, if_true, Bool.false_eq_true, if_false, decodeInt64_eq,
        List.all_cons, filterMap_getLast?_getD_cons]
      by_cases hv : (m.2.isNull || m.2.asInt64.isSome) = true
      · simp only [hv, if_true, Option.map_some', Option.some_bind, ih, Bool.true_and]
        unfold countsDecodable
        rfl
      · simp [hv]
    · by_cases hc : fieldMatches "completion_tokens" m.1 = true
      · obtain ⟨e, h1, h2⟩ := tokenUsageField_completion u m hc
        rw [e]
        simp only [hc, h1, h2, if_true, Bool.false_eq_true, if_false, decodeInt64_eq,
          List.all_cons, filterMap_getLast?_getD_cons]
        by_cases hv : (m.2.isNull || m.2.asInt64.isSome) = true
        · simp only [hv, if_true, Option.map_some', Option.some_bind, ih, Bool.true_and]
          unfold countsDecodable
          rfl
        · simp [hv]
      · by_cases ht : fieldMatches "total_tokens" m.1 = true
        · obtain ⟨e, h1, h2⟩ := tokenUsageField_total u m ht
          rw [e]
          simp only [ht, h1, h2, if_true, Bool.false_eq_true, if_false, decodeInt64_eq,
            List.all_cons, filterMap_getLast?_getD_cons]
          by_cases hv : (m.2.isNull || m.2.asInt64.isSome) = true
          · simp only [hv, if_true, Option.map_some', Option.some_bind, ih, Bool.true_and]
            unfold countsDecodable
            rfl
          · simp [hv]
        · have e : tokenUsageField u m = some u := by simp [tokenUsageField, hp, hc, ht]
          rw [e]
          simp only [hp, hc, ht, Bool.false_eq_true, if_false, Option.some_bind, ih]
          unfold countsDecodable
          rfl

theorem countOf_append (name : String) (a ums : List (String × Json)) :
    (((fieldValues name ums).filterMap Json.asInt64).getLast?).getD (countOf name a) =
      countOf name (a ++ ums) := by
  unfold countOf
  rw [fieldValues_append, List.filterMap_append, getLast?_getD_append]

/-- Decoding a usage object into the struct the pointer holds (a fresh one for nil) gives
the usage written by the members in force followed by those of the object. -/
theorem decodeMembers_tokenUsage_inForce (acc : Option (List (String × Json)))
    (ums : List (String × Json)) :
    decodeMembers tokenUsageField ((acc.map usageOfMembers).getD ⟨0, 0, 0⟩) ums =
      if countsDecodable ums = true then some (usageOfMembers (acc.getD [] ++ ums))
      else none := by
  have h0 : (acc.map usageOfMembers).getD ⟨0, 0, 0⟩ = usageOfMembers (acc.getD []) := by
    cases acc <;> rfl
  rw [h0, decodeMembers_tokenUsage]
  by_cases hd : countsDecodable ums = true
  · simp only [hd, if_true, usageOfMembers, countOf_append]
  · simp [hd]

/-- What decoding the members of an object into a `UsageResponse` gives: an error when a
`usage` member cannot be decoded, else the usage written by the usage object in force at
the end, nil when there is none. -/
theorem decodeMembers_usageResponse (ms : List (String × Json)) :
    ∀ acc : Option (List (String × Json)),
      decodeMembers usageResponseField (acc.map usageOfMembers) ms =
        if (fieldValues "usage" ms).all usageDecodable = true then
          some (((fieldValues "usage" ms).foldl usageStep acc).map usageOfMembers)
        else none := by
  induction ms with
  | nil => intro acc; rfl
  | cons m ms ih =>
    intro acc
    rw [decodeMembers_cons, fieldValues_cons]
    by_cases hm : fieldMatches "usage" m.1 = true
    · simp only [usageResponseField, hm, if_true, List.all_cons, List.foldl_cons]
      cases hv : m.2 with
      | null =>
        simp only [decodeUsagePtr, Option.some_bind, usageDecodable, usageStep, Bool.true_and]
        exact ih none
      | obj ums =>
        simp only [decodeUsagePtr, usageDecodable, usageStep, decodeMembers_tokenUsage_inForce]
        by_cases hd : countsDecodable ums = true
        · simp only [hd, if_true, Option.map_some', Option.some_bind, Bool.true_and]
          exact ih (some (acc.getD [] ++ ums))
        · simp [hd]
      | bool b => simp [decodeUsagePtr, usageDecodable]
      | num l => simp [decodeUsagePtr, usageDecodable]
      | str s => simp [decodeUsagePtr, usageDecodable]
      | arr items => simp [decodeUsagePtr, usageDecodable]
    · simp only [usageResponseField, hm, Bool.false_eq_true, if_false, Option.some_bind, ih]

/-- The non-nil usage `json.Unmarshal` decodes from a payload is the usage the payload
carries. -/
theorem unmarshalUsageResponse_payloadUsage (payload : String) :
    (match unmarshalUsageResponse payload with
      | some (some usage) => some usage
      | _ => none) = payloadUsage payload := by
  unfold unmarshalUsageResponse payloadUsage usageInForce
  cases parseJSON payload with
  | none => rfl
  | some v =>
    cases v with
    | obj ms =>
      have h := decodeMembers_usageResponse ms none
      simp only [Option.map_none'] at h
      simp only [Option.some_bind, decodeStruct, h]
      by_cases hall : (fieldValues "usage" ms).all usageDecodable = true
      · simp only [hall, if_true]
        cases (fieldValues "usage" ms).foldl usageStep none <;> rfl
      · simp [hall]
    | _ => rfl

/-- What `parseTokensFromStreamChunk` finds in a line is the usage the line carries. -/
theorem lineUsage_eq_carriedUsage (line : String) : lineUsage line = carriedUsage line := by
  unfold lineUsage carriedUsage dataPayload
  simp only []
  split_ifs with h1 h2
  · rfl
  · simp only [Option.some_bind]
    exact unmarshalUsageResponse_payloadUsage _
  · rfl

theorem lastUsage_eq_lastCarriedUsage (lines : List String) :
    lastUsage lines = lastCarriedUsage lines := by
  unfold lastUsage lastCarriedUsage
  have h : lineUsage = carriedUsage := funext lineUsage_eq_carriedUsage
  rw [h]

/-! ## The OpenAI channel -/

/-- C7: the path of the validation URL built by `ValidateKey` is the upstream base path
without its trailing slashes, followed by the endpoint path, except that when the trimmed
base path ends in `/v1` and the endpoint path begins with `/v1` that prefix is stripped
from the endpoint path, and `/` is substituted if this leaves it empty. Trimming removes
exactly the trailing slashes, stripping removes exactly the prefix, and for base
`https://h/api/v1` and endpoint `/v1/chat/completions` the URL is
`https://h/api/v1/chat/completions`. -/
theorem ValidateKey_url_dedup (upstreamURL endpointURL : URL) :
    (ValidateKey.finalURL upstreamURL endpointURL).Path =
        TrimRight upstreamURL.Path "/" ++
          (if HasSuffix (TrimRight upstreamURL.Path "/") "/v1" = true ∧
              HasPrefix endpointURL.Path "/v1" = true then
            (if TrimPrefix endpointURL.Path "/v1" = "" then "/"
             else TrimPrefix endpointURL.Path "/v1")
          else endpointURL.Path) ∧
    ((∃ k, upstreamURL.Path = TrimRight upstreamURL.Path "/" ++ ⟨List.replicate k '/'⟩) ∧
      HasSuffix (TrimRight upstreamURL.Path "/") "/" = false) ∧
    (∀ rest, TrimPrefix ("/v1" ++ rest) "/v1" = rest) ∧
    ValidateKey.reqURL ⟨"https", "h", "/api/v1", ""⟩ ⟨"", "", "/v1/chat/completions", ""⟩ =
      "https://h/api/v1/chat/completions" := by
  refine ⟨?_, TrimRight_slash _, fun rest => TrimPrefix_append _ _, by decide⟩
  unfold ValidateKey.finalURL
  simp only [Bool.and_eq_true]

/-- C8, as amended: `IsStreamRequest` of the OpenAI channel is true exactly when the
`Accept` header contains `text/event-stream`, or the query parameter `stream` equals
`true`, or the body is a JSON object (valid JSON, nested no deeper than 10000) in which
every member named `stream`, exactly or up to case, holds a boolean or `null` and the
last boolean among them is `true`. So a JSON object whose only such member holds `true`
yields true, and when neither the header nor the query condition holds, a body that is
not valid JSON yields false. Header and query parameter are read as gin reads them
(`c.GetHeader`, `c.Query`). -/
theorem IsStreamRequest_iff (c : ClientRequest) (bodyBytes : String) :
    (OpenAIChannel.IsStreamRequest c bodyBytes = true ↔
      (Contains (c.GetHeader "Accept") "text/event-stream" = true ∨
        c.Query "stream" = "true" ∨
        streamTrueBody bodyBytes = true)) ∧
    (∀ ms, parseJSON bodyBytes = some (.obj ms) →
      fieldValues "stream" ms = [.bool true] →
      OpenAIChannel.IsStreamRequest c bodyBytes = true) ∧
    (jsonValid bodyBytes = false →
      Contains (c.GetHeader "Accept") "text/event-stream" = false →
      c.Query "stream" ≠ "true" →
      OpenAIChannel.IsStreamRequest c bodyBytes = false) := by
  have hiff : OpenAIChannel.IsStreamRequest c bodyBytes = true ↔
      (Contains (c.GetHeader "Accept") "text/event-stream" = true ∨
        c.Query "stream" = "true" ∨
        streamTrueBody bodyBytes = true) := by
    rw [← unmarshalStreamPayload_eq_some_true]
    unfold OpenAIChannel.IsStreamRequest
    by_cases h1 : Contains (c.GetHeader "Accept") "text/event-stream" = true
    · simp [h1]
    · by_cases h2 : c.Query "stream" = "true"
      · simp [h2]
      · cases h3 : unmarshalStreamPayload bodyBytes with
        | none => simp [h1, h2]
        | some b => cases b <;> simp [h1, h2]
  refine ⟨hiff, ?_, ?_⟩
  · intro ms hp hv
    refine hiff.mpr (Or.inr (Or.inr ?_))
    unfold streamTrueBody
    simp only [hp, hv]
    rfl
  · intro hv h1 h2
    have h3 : streamTrueBody bodyBytes = false := by
      unfold streamTrueBody
      unfold jsonValid at hv
      cases hp : parseJSON bodyBytes with
      | none => rfl
      | some v => simp [hp] at hv
    by_contra hne
    have ht : OpenAIChannel.IsStreamRequest c bodyBytes = true := by simpa using hne
    rcases hiff.mp ht with h | h | h
    · rw [h1] at h; exact absurd h (by decide)
    · exact h2 h
    · rw [h3] at h; exact absurd h (by decide)

/-- C8, amended, at a request without `Accept` header and query parameter: a body cut off
in the middle of `true` yields false, the body `{"stream": true}` yields true. -/
theorem IsStreamRequest_iff_witness :
    jsonValid Example.cutBody = false ∧
    Contains (Example.plainClient.GetHeader "Accept") "text/event-stream" = false ∧
    Example.plainClient.Query "stream" ≠ "true" ∧
    OpenAIChannel.IsStreamRequest Example.plainClient Example.cutBody = false ∧
    streamTrueBody Example.streamBody = true ∧
    OpenAIChannel.IsStreamRequest Example.plainClient Example.streamBody = true :=
  ⟨by decide, by decide, by decide,
    (IsStreamRequest_iff Example.plainClient Example.cutBody).2.2
      (by decide) (by decide) (by decide),
    by decide,
    (IsStreamRequest_iff Example.plainClient Example.streamBody).1.mpr
      (Or.inr (Or.inr (by decide)))⟩

/-- C8 as stated fails, in both directions, at a request without `Accept` header and
query parameter. The body `{"stream": true, "STREAM": 1}` is JSON with `stream: true`,
but `json.Unmarshal` returns an error at the member `STREAM`, which names the same field
and holds a number: the result is false. The body `{"Stream": true}` has no member
`stream`, and the result is true. -/
theorem IsStreamRequest_iff_counterexample :
    hasStreamTrue Example.streamThenNumberBody = true ∧
    OpenAIChannel.IsStreamRequest Example.plainClient Example.streamThenNumberBody = false ∧
    hasStreamTrue Example.capitalStreamBody = false ∧
    OpenAIChannel.IsStreamRequest Example.plainClient Example.capitalStreamBody = true := by
  refine ⟨?_, ?_, ?_, ?_⟩ <;> decide

/-- C9: for a request whose URL host (the `Host` of the URL, or its host name without the
port) contains `openrouter.ai`: when it carries no `HTTP-Referer` and at least one of
the `Origin` header, the `Referer` header and `group.AppUrl` is non-empty,
`applyOpenRouterHeaders` leaves it with `HTTP-Referer` equal to the first non-empty of
`Origin`, `Referer`, `group.AppUrl`, in that order; a non-empty `HTTP-Referer` sent by
the client is left as it is. Headers are read as `Header.Get` reads them. -/
theorem applyOpenRouterHeaders_referer (req : UpstreamRequest) (u : URL) (g : Group)
    (hurl : req.URL = some u)
    (hhost : Contains u.Host "openrouter.ai" = true ∨
      Contains u.Hostname "openrouter.ai" = true) :
    (req.Header.Get "HTTP-Referer" = "" →
      (req.Header.Get "Origin" ≠ "" ∨ req.Header.Get "Referer" ≠ "" ∨
        g.EffectiveConfig.AppUrl ≠ "") →
      (applyOpenRouterHeaders req (some g)).Header.Get "HTTP-Referer" =
        firstNonEmpty
          [req.Header.Get "Origin", req.Header.Get "Referer", g.EffectiveConfig.AppUrl]) ∧
    (req.Header.Get "HTTP-Referer" ≠ "" →
      (applyOpenRouterHeaders req (some g)).Header.lookup "Http-Referer" =
          req.Header.lookup "Http-Referer" ∧
        (applyOpenRouterHeaders req (some g)).Header.Get "HTTP-Referer" =
          req.Header.Get "HTTP-Referer") := by
  have hor : (req.URL.isNone || !isOpenRouterURL req.URL) = false := by
    have h1 : isOpenRouterURL (some u) = true :=
      Contains_ToLower u.Hostname "openrouter.ai" (by decide)
        (hhost.elim (Hostname_contains_openrouter u) id)
    simp [hurl, h1]
  have hne : CanonicalMIMEHeaderKey "HTTP-Referer" ≠ CanonicalMIMEHeaderKey "X-Title" := by
    decide
  have eT : ∀ (h : Header) v, (h.Set "X-Title" v).Get "HTTP-Referer" = h.Get "HTTP-Referer" :=
    fun h v => Header.Get_Set_other h _ v _ hne
  have eL : ∀ (h : Header) v, (h.Set "X-Title" v).lookup "Http-Referer" =
      h.lookup "Http-Referer" :=
    fun h v => Header.lookup_Set_other h _ v _ (by decide)
  constructor
  · intro hnone hsome
    by_cases ho : req.Header.Get "Origin" = ""
    · by_cases hr : req.Header.Get "Referer" = ""
      · have ha : g.EffectiveConfig.AppUrl ≠ "" := by
          rcases hsome with h | h | h
          · exact absurd ho h
          · exact absurd hr h
          · exact h
        simp only [applyOpenRouterHeaders, hor, hnone, ho, hr, ha, firstNonEmpty, List.find?,
          Bool.false_eq_true, if_false, if_true, ne_eq, not_true_eq_false, not_false_eq_true,
          decide_True, decide_False, Option.getD_some]
        split_ifs <;> simp [eT, Header.Get_Set_same]
      · simp only [applyOpenRouterHeaders, hor, hnone, ho, hr, firstNonEmpty, List.find?,
          Bool.false_eq_true, if_false, if_true, ne_eq, not_true_eq_false, not_false_eq_true,
          decide_True, decide_False, Option.getD_some]
        split_ifs <;> simp [eT, Header.Get_Set_same]
    · simp only [applyOpenRouterHeaders, hor, hnone, ho, firstNonEmpty, List.find?,
        Bool.false_eq_true, if_false, if_true, ne_eq, not_true_eq_false, not_false_eq_true,
        decide_True, decide_False, Option.getD_some]
      split_ifs <;> simp [eT, Header.Get_Set_same]
  · intro hsome
    simp only [applyOpenRouterHeaders, hor, hsome, Bool.false_eq_true, if_false]
    constructor
    · split_ifs <;> simp [eL]
    · split_ifs <;> simp [eT]

/-- C9, at a request to `openrouter.ai:443` that carries only a `Referer` header. -/
theorem applyOpenRouterHeaders_referer_witness :
    Contains (URL.mk "https" "openrouter.ai:443" "/api/v1/chat/completions" "").Host
      "openrouter.ai" = true ∧
    Example.openRouterRequest.Header.Get "HTTP-Referer" = "" ∧
    Example.openRouterRequest.Header.Get "Referer" ≠ "" ∧
    (applyOpenRouterHeaders Example.openRouterRequest (some (Example.group 0))).Header.Get
        "HTTP-Referer" = "https://ref.example" :=
  ⟨by decide, by decide, by decide,
    ((applyOpenRouterHeaders_referer Example.openRouterRequest
      ⟨"https", "openrouter.ai:443", "/api/v1/chat/completions", ""⟩ (Example.group 0) rfl
      (Or.inl (by decide))).1 (by decide) (Or.inr (Or.inl (by decide)))).trans (by decide)⟩

/-! ## Helper lemmas: the retry loop -/

theorem checkModelPermissions_eq_none (requestedModel : String) (apiKey : APIKey)
    (group : Group) : checkModelPermissions requestedModel apiKey group = none := by
  simp [checkModelPermissions]

/-- What a `logRequest` call hands to the log service. -/
theorem logRequest_spec (ps : ProxyServer) (env : Collaborators) (c : ClientRequest)
    (originalGroup : Option Group) (group : Group) (apiKey : Option APIKey) (duration : Int)
    (statusCode : Nat) (finalError : Option String) (isStream : Bool) (upstreamAddr : String)
    (channelHandler : Option ChannelProxy) (bodyBytes : Option String) (requestType : String) :
    (ps.requestLogService = true →
      (logRequest ps env c originalGroup group apiKey duration statusCode finalError isStream
        upstreamAddr channelHandler bodyBytes requestType).isSome = true) ∧
    ∀ e, logRequest ps env c originalGroup group apiKey duration statusCode finalError isStream
        upstreamAddr channelHandler bodyBytes requestType = some e →
      e.RequestType = requestType ∧ e.StatusCode = statusCode ∧ e.Tokens = none ∧
        e.IsSuccess = (finalError.isNone && decide (statusCode < 400)) := by
  unfold logRequest
  cases hs : ps.requestLogService
  · simp
  · simp only [Bool.not_true, Bool.false_eq_true, if_false]
    refine ⟨fun _ => rfl, fun e he => ?_⟩
    simp only [Option.some.injEq] at he
    subst he
    simp

/-- An attempt that reaches `client.Do` continues with `afterDo`. -/
theorem attempt_of_upstreamCall (ps : ProxyServer) (env : Collaborators) (c : ClientRequest)
    (channelHandler : ChannelProxy) (originalGroup group : Group) (bodyBytes : String)
    (isStream : Bool) (retryCount : Nat) (fx : Effects) (uc : UpstreamCall)
    (h : upstreamCall ps env c channelHandler originalGroup group bodyBytes isStream
      retryCount = some uc) :
    attempt ps env c channelHandler originalGroup group bodyBytes isStream retryCount fx =
      afterDo ps env c channelHandler originalGroup group bodyBytes isStream retryCount
        uc.apiKey uc.upstreamURL uc.result { fx with sent := fx.sent ++ [uc.req] } := by
  unfold upstreamCall at h
  unfold attempt
  cases h1 : ps.SelectKey retryCount with
  | error err => simp [h1] at h
  | ok apiKey =>
    cases h2 : channelHandler.BuildUpstreamURL retryCount c.URL originalGroup.Name with
    | error err => simp [h1, h2] at h
    | ok upstreamURL =>
      cases h3 : NewRequestWithContext env c.Method upstreamURL bodyBytes with
      | none => simp [h1, h2, h3] at h
      | some req =>
        cases h4 : channelHandler.ApplyModelRedirect retryCount (strippedRequest c req)
            bodyBytes group with
        | error err => simp [h1, h2, h3, h4] at h
        | ok finalBodyBytes =>
          simp only [h1, h2, h3, h4, Option.some.injEq] at h
          subst h
          simp only [h3, h4, checkModelPermissions_eq_none]

/-- The key and the request of an upstream attempt. -/
theorem upstreamCall_spec (ps : ProxyServer) (env : Collaborators) (c : ClientRequest)
    (channelHandler : ChannelProxy) (originalGroup group : Group) (bodyBytes : String)
    (isStream : Bool) (retryCount : Nat) (uc : UpstreamCall)
    (h : upstreamCall ps env c channelHandler originalGroup group bodyBytes isStream
      retryCount = some uc) :
    ps.SelectKey retryCount = .ok uc.apiKey ∧
    ∃ req0 finalBodyBytes,
      uc.req = prepareRequest env c channelHandler group uc.apiKey bodyBytes finalBodyBytes
        isStream (strippedRequest c req0) := by
  unfold upstreamCall at h
  cases h1 : ps.SelectKey retryCount with
  | error err => simp [h1] at h
  | ok apiKey =>
    cases h2 : channelHandler.BuildUpstreamURL retryCount c.URL originalGroup.Name with
    | error err => simp [h1, h2] at h
    | ok upstreamURL =>
      cases h3 : NewRequestWithContext env c.Method upstreamURL bodyBytes with
      | none => simp [h1, h2, h3] at h
      | some req =>
        cases h4 : channelHandler.ApplyModelRedirect retryCount (strippedRequest c req)
            bodyBytes group with
        | error err => simp [h1, h2, h3, h4] at h
        | ok finalBodyBytes =>
          simp only [h1, h2, h3, h4, Option.some.injEq] at h
          subst h
          exact ⟨rfl, req, finalBodyBytes, rfl⟩

/-- An attempt that does not reach `client.Do` returns: without a log entry when the URL
or the request could not be built, else with one `final` entry of status 503 (no key)
or 400 (model redirection failed). -/
theorem attempt_of_no_upstreamCall (ps : ProxyServer) (env : Collaborators)
    (c : ClientRequest) (channelHandler : ChannelProxy) (originalGroup group : Group)
    (bodyBytes : String) (isStream : Bool) (retryCount : Nat) (fx : Effects)
    (h : upstreamCall ps env c channelHandler originalGroup group bodyBytes isStream
      retryCount = none) :
    ∃ (r : ClientResponse) (entry : Option RequestLog),
      attempt ps env c channelHandler originalGroup group bodyBytes isStream retryCount fx =
        .done { fx with responses := fx.responses ++ [r], logs := fx.logs ++ entry.toList } ∧
      (urlFails ps env c channelHandler originalGroup bodyBytes retryCount = true →
        entry = none) ∧
      (urlFails ps env c channelHandler originalGroup bodyBytes retryCount = false →
        (ps.requestLogService = true → entry.isSome = true) ∧
        ∀ e, entry = some e →
          e.RequestType = RequestTypeFinal ∧ (e.StatusCode = 503 ∨ e.StatusCode = 400) ∧
            e.Tokens = none) := by
  unfold upstreamCall at h
  unfold attempt urlFails
  cases h1 : ps.SelectKey retryCount with
  | error err =>
    simp only []
    refine ⟨_, _, rfl, by simp, fun _ => ⟨(logRequest_spec ..).1, fun e he => ?_⟩⟩
    have := (logRequest_spec ..).2 e he
    exact ⟨this.1, Or.inl this.2.1, this.2.2.1⟩
  | ok apiKey =>
    cases h2 : channelHandler.BuildUpstreamURL retryCount c.URL originalGroup.Name with
    | error err =>
      simp only []
      exact ⟨ClientResponse.error ErrKind.ErrInternalServer
        (some ("Failed to build upstream URL: " ++ err)), none, by simp [Effects.respond],
        by simp, by simp⟩
    | ok upstreamURL =>
      cases h3 : NewRequestWithContext env c.Method upstreamURL bodyBytes with
      | none =>
        simp only [h3]
        exact ⟨ClientResponse.error ErrKind.ErrInternalServer none, none,
          by simp [Effects.respond], by simp, by simp⟩
      | some req =>
        cases h4 : channelHandler.ApplyModelRedirect retryCount (strippedRequest c req)
            bodyBytes group with
        | error err =>
          simp only [h3, h4]
          refine ⟨_, _, rfl, by simp, fun _ => ⟨(logRequest_spec ..).1, fun e he => ?_⟩⟩
          have := (logRequest_spec ..).2 e he
          exact ⟨this.1, Or.inr this.2.1, this.2.2.1⟩
        | ok finalBodyBytes => simp [h1, h2, h3, h4] at h

/-- What `handleFailure` does: one key status update, one log entry with the given status,
of type `final` on the last attempt and `retry` before it, and the answer to the client on
the last attempt only. Nothing is sent upstream. -/
theorem handleFailure_spec (ps : ProxyServer) (env : Collaborators) (c : ClientRequest)
    (channelHandler : ChannelProxy) (originalGroup group : Group) (bodyBytes : String)
    (isStream : Bool) (retryCount : Nat) (apiKey : APIKey) (upstreamURL : String)
    (statusCode : Nat) (errorMessage parsedError : String) (fx : Effects) :
    ∃ entry : Option RequestLog,
      (ps.requestLogService = true → entry.isSome = true) ∧
      ((retryCount : Int) ≥ group.EffectiveConfig.MaxRetries →
        (∀ e, entry = some e →
          e.RequestType = RequestTypeFinal ∧ e.StatusCode = statusCode ∧ e.Tokens = none) ∧
        handleFailure ps env c channelHandler originalGroup group bodyBytes isStream retryCount
            apiKey upstreamURL statusCode errorMessage parsedError fx =
          .done
            { fx with
              statusUpdates := fx.statusUpdates ++ [(apiKey, false, parsedError)]
              logs := fx.logs ++ entry.toList
              responses := fx.responses ++
                [match unmarshalMap errorMessage with
                 | some errorJSON => .json statusCode errorJSON
                 | none => .upstreamError statusCode "UPSTREAM_ERROR" errorMessage] }) ∧
      (¬ (retryCount : Int) ≥ group.EffectiveConfig.MaxRetries →
        (∀ e, entry = some e →
          e.RequestType = RequestTypeRetry ∧ e.StatusCode = statusCode ∧ e.Tokens = none) ∧
        handleFailure ps env c channelHandler originalGroup group bodyBytes isStream retryCount
            apiKey upstreamURL statusCode errorMessage parsedError fx =
          .again
            { fx with
              statusUpdates := fx.statusUpdates ++ [(apiKey, false, parsedError)]
              logs := fx.logs ++ entry.toList }) := by
  by_cases hlast : (retryCount : Int) ≥ group.EffectiveConfig.MaxRetries
  · refine ⟨logRequest ps env c (some originalGroup) group (some apiKey)
      (env.Since retryCount) statusCode (some parsedError) isStream upstreamURL
      (some channelHandler) (some bodyBytes) RequestTypeFinal, (logRequest_spec ..).1, ?_, ?_⟩
    · intro _
      refine ⟨fun e he => ⟨((logRequest_spec ..).2 e he).1, ((logRequest_spec ..).2 e he).2.1,
        ((logRequest_spec ..).2 e he).2.2.1⟩, ?_⟩
      unfold handleFailure
      simp only [hlast, decide_True, if_true]
      cases unmarshalMap errorMessage <;> rfl
    · intro h; exact absurd hlast h
  · refine ⟨logRequest ps env c (some originalGroup) group (some apiKey)
      (env.Since retryCount) statusCode (some parsedError) isStream upstreamURL
      (some channelHandler) (some bodyBytes) RequestTypeRetry, (logRequest_spec ..).1, ?_, ?_⟩
    · intro h; exact absurd h hlast
    · intro _
      refine ⟨fun e he => ⟨((logRequest_spec ..).2 e he).1, ((logRequest_spec ..).2 e he).2.1,
        ((logRequest_spec ..).2 e he).2.2.1⟩, ?_⟩
      unfold handleFailure
      simp only [hlast, decide_False, Bool.false_eq_true, if_false]
      rfl

/-- What `afterDo` does to the log and to the requests sent: nothing more is sent, at most
one log entry is added (exactly one when the log service is there), of type `retry` when
the method calls itself and `final` when it returns; and it calls itself only below the
retry bound. -/
theorem afterDo_spec (ps : ProxyServer) (env : Collaborators) (c : ClientRequest)
    (channelHandler : ChannelProxy) (originalGroup group : Group) (bodyBytes : String)
    (isStream : Bool) (retryCount : Nat) (apiKey : APIKey) (upstreamURL : String)
    (result : DoResult) (fx : Effects) :
    ∃ entry : Option RequestLog,
      (ps.requestLogService = true → entry.isSome = true) ∧
      (afterDo ps env c channelHandler originalGroup group bodyBytes isStream retryCount
        apiKey upstreamURL result fx).fx.logs = fx.logs ++ entry.toList ∧
      (afterDo ps env c channelHandler originalGroup group bodyBytes isStream retryCount
        apiKey upstreamURL result fx).fx.sent = fx.sent ∧
      (∀ e, entry = some e → e.RequestType =
        if (afterDo ps env c channelHandler originalGroup group bodyBytes isStream retryCount
          apiKey upstreamURL result fx).isAgain then RequestTypeRetry else RequestTypeFinal) ∧
      ((afterDo ps env c channelHandler originalGroup group bodyBytes isStream retryCount
          apiKey upstreamURL result fx).isAgain = true →
        (retryCount : Int) < group.EffectiveConfig.MaxRetries) ∧
      (∀ e, entry = some e → e.Tokens = none) := by
  have key : ∀ statusCode errorMessage parsedError,
      ∃ entry : Option RequestLog,
      (ps.requestLogService = true → entry.isSome = true) ∧
      (handleFailure ps env c channelHandler originalGroup group bodyBytes isStream retryCount
        apiKey upstreamURL statusCode errorMessage parsedError fx).fx.logs =
          fx.logs ++ entry.toList ∧
      (handleFailure ps env c channelHandler originalGroup group bodyBytes isStream retryCount
        apiKey upstreamURL statusCode errorMessage parsedError fx).fx.sent = fx.sent ∧
      (∀ e, entry = some e → e.RequestType =
        if (handleFailure ps env c channelHandler originalGroup group bodyBytes isStream
          retryCount apiKey upstreamURL statusCode errorMessage parsedError fx).isAgain
        then RequestTypeRetry else RequestTypeFinal) ∧
      ((handleFailure ps env c channelHandler originalGroup group bodyBytes isStream retryCount
          apiKey upstreamURL statusCode errorMessage parsedError fx).isAgain = true →
        (retryCount : Int) < group.EffectiveConfig.MaxRetries) ∧
      (∀ e, entry = some e → e.Tokens = none) := by
    intro statusCode errorMessage parsedError
    obtain ⟨entry, h1, h2, h3⟩ := handleFailure_spec ps env c channelHandler originalGroup group
      bodyBytes isStream retryCount apiKey upstreamURL statusCode errorMessage parsedError fx
    by_cases hlast : (retryCount : Int) ≥ group.EffectiveConfig.MaxRetries
    · obtain ⟨h4, h5⟩ := h2 hlast
      refine ⟨entry, h1, ?_, ?_, ?_, ?_, fun e he => (h4 e he).2.2⟩ <;> rw [h5]
      · rfl
      · rfl
      · intro e he; exact (h4 e he).1
      · intro h; simp [Step.isAgain] at h
    · obtain ⟨h4, h5⟩ := h3 hlast
      refine ⟨entry, h1, ?_, ?_, ?_, ?_, fun e he => (h4 e he).2.2⟩ <;> rw [h5]
      · rfl
      · rfl
      · intro e he; exact (h4 e he).1
      · intro _; exact lt_of_not_ge hlast
  unfold afterDo
  cases result with
  | failure err =>
    simp only
    by_cases hig : env.IsIgnorableError err = true
    · simp only [if_pos hig]
      exact ⟨logRequest ps env c (some originalGroup) group (some apiKey)
        (env.Since retryCount) 499 (some err) isStream upstreamURL (some channelHandler)
        (some bodyBytes) RequestTypeFinal, (logRequest_spec ..).1, rfl, rfl,
        fun e he => by simpa [Step.isAgain] using ((logRequest_spec ..).2 e he).1,
        by simp [Step.isAgain], fun e he => ((logRequest_spec ..).2 e he).2.2.1⟩
    · simp only [if_neg hig]
      exact key _ _ _
  | response resp =>
    simp only
    by_cases hst : resp.StatusCode ≥ 400 ∧ resp.StatusCode ≠ 404
    · simp only [if_pos hst]
      exact key _ _ _
    · simp only [if_neg hst]
      refine ⟨logRequest ps env c (some originalGroup) group
        (some ((markOrganizationVerifiedOnSuccess (some apiKey) (some group)
          (channelHandler.ExtractModel c bodyBytes)).1.getD apiKey))
        (env.Since retryCount) resp.StatusCode none isStream upstreamURL (some channelHandler)
        (some bodyBytes) RequestTypeFinal, (logRequest_spec ..).1, ?_, ?_,
        fun e he => ?_, by simp [Step.isAgain], fun e he => ((logRequest_spec ..).2 e he).2.2.1⟩
      · simp only [Step.fx, Effects.record]
        split_ifs <;> rfl
      · simp only [Step.fx, Effects.record]
        split_ifs <;> rfl
      · simpa [Step.isAgain] using ((logRequest_spec ..).2 e he).1

/-- Induction along the recursion of `executeRequestWithRetry`: a property of the effects
that every recursive call hands on, and that makes every return establish `Post`, gives
`Post` at the end. -/
theorem executeRequestWithRetry_induction (ps : ProxyServer) (env : Collaborators)
    (c : ClientRequest) (channelHandler : ChannelProxy) (originalGroup group : Group)
    (bodyBytes : String) (isStream : Bool) (Inv : Nat → Effects → Prop) (Post : Effects → Prop)
    (hagain : ∀ n fx fx1, Inv n fx →
      attempt ps env c channelHandler originalGroup group bodyBytes isStream n fx = .again fx1 →
      Inv (n + 1) fx1)
    (hdone : ∀ n fx fx1, Inv n fx →
      attempt ps env c channelHandler originalGroup group bodyBytes isStream n fx = .done fx1 →
      Post fx1) :
    ∀ fuel n fx fx1, Inv n fx →
      executeRequestWithRetry ps env c channelHandler originalGroup group bodyBytes isStream
        fuel n fx = some fx1 → Post fx1 := by
  intro fuel
  induction fuel with
  | zero => intro n fx fx1 _ h; simp [executeRequestWithRetry] at h
  | succ fuel ih =>
    intro n fx fx1 hinv h
    unfold executeRequestWithRetry at h
    cases hstep : attempt ps env c channelHandler originalGroup group bodyBytes isStream n fx with
    | done fx2 =>
      simp only [hstep, Option.some.injEq] at h
      subst h
      exact hdone n fx fx2 hinv hstep
    | again fx2 =>
      simp only [hstep] at h
      exact ih (n + 1) fx2 fx1 (hagain n fx fx2 hinv hstep) h

/-- Summary of one attempt for the log and the requests sent. With `uc` the upstream
attempt of this call, if it makes one: the requests sent grow by `uc.req`; at most one
log entry is added; a recursive call happens only after an upstream attempt, below the
retry bound, and adds a `retry` entry; a return adds a `final` entry, unless the URL or
the request could not be built. -/
theorem attempt_spec (ps : ProxyServer) (env : Collaborators) (c : ClientRequest)
    (channelHandler : ChannelProxy) (originalGroup group : Group) (bodyBytes : String)
    (isStream : Bool) (retryCount : Nat) (fx : Effects) :
    ∃ entry : Option RequestLog,
      (attempt ps env c channelHandler originalGroup group bodyBytes isStream retryCount
        fx).fx.logs = fx.logs ++ entry.toList ∧
      (attempt ps env c channelHandler originalGroup group bodyBytes isStream retryCount
        fx).fx.sent = fx.sent ++
          ((upstreamCall ps env c channelHandler originalGroup group bodyBytes isStream
            retryCount).map (fun uc => uc.req)).toList ∧
      (∀ e, entry = some e → e.RequestType =
        if (attempt ps env c channelHandler originalGroup group bodyBytes isStream retryCount
          fx).isAgain then RequestTypeRetry else RequestTypeFinal) ∧
      ((attempt ps env c channelHandler originalGroup group bodyBytes isStream retryCount
          fx).isAgain = true →
        (retryCount : Int) < group.EffectiveConfig.MaxRetries ∧
        (upstreamCall ps env c channelHandler originalGroup group bodyBytes isStream
          retryCount).isSome = true) ∧
      (ps.requestLogService = true →
        urlFails ps env c channelHandler originalGroup bodyBytes retryCount = false →
        entry.isSome = true) ∧
      (urlFails ps env c channelHandler originalGroup bodyBytes retryCount = true →
        entry = none) ∧
      (∀ e, entry = some e → e.Tokens = none) := by
  cases huc : upstreamCall ps env c channelHandler originalGroup group bodyBytes isStream
      retryCount with
  | none =>
    obtain ⟨r, entry, h1, h2, h3⟩ := attempt_of_no_upstreamCall ps env c channelHandler
      originalGroup group bodyBytes isStream retryCount fx huc
    have htok : ∀ e, entry = some e → e.Tokens = none := by
      intro e he
      by_cases hu : urlFails ps env c channelHandler originalGroup bodyBytes retryCount = true
      · rw [h2 hu] at he; cases he
      · simp only [Bool.not_eq_true] at hu
        exact ((h3 hu).2 e he).2.2
    refine ⟨entry, ?_, ?_, ?_, ?_, ?_, h2, htok⟩
    · rw [h1]; rfl
    · rw [h1]; simp [Step.fx]
    · intro e he
      rw [h1]
      by_cases hu : urlFails ps env c channelHandler originalGroup bodyBytes retryCount = true
      · rw [h2 hu] at he; cases he
      · simp only [Bool.not_eq_true] at hu
        simpa [Step.isAgain] using ((h3 hu).2 e he).1
    · intro h; rw [h1] at h; simp [Step.isAgain] at h
    · intro hs hu; exact (h3 hu).1 hs
  | some uc =>
    have h1 := attempt_of_upstreamCall ps env c channelHandler originalGroup group bodyBytes
      isStream retryCount fx uc huc
    obtain ⟨entry, e1, e2, e3, e4, e5, e6⟩ := afterDo_spec ps env c channelHandler originalGroup
      group bodyBytes isStream retryCount uc.apiKey uc.upstreamURL uc.result
      { fx with sent := fx.sent ++ [uc.req] }
    rw [← h1] at e2 e3 e4 e5
    refine ⟨entry, e2, ?_, e4, fun h => ⟨e5 h, rfl⟩, fun hs _ => e1 hs, ?_, e6⟩
    · rw [e3]; rfl
    · intro hu
      exfalso
      unfold upstreamCall at huc
      unfold urlFails at hu
      cases h1 : ps.SelectKey retryCount with
      | error err => simp [h1] at hu
      | ok apiKey =>
        cases h2 : channelHandler.BuildUpstreamURL retryCount c.URL originalGroup.Name with
        | error err => simp [h1, h2] at huc
        | ok upstreamURL =>
          cases h3 : NewRequestWithContext env c.Method upstreamURL bodyBytes with
          | none => simp [h1, h2, h3] at huc
          | some req => simp [h1, h2, h3] at hu

/-- More recursion depth does not change what `executeRequestWithRetry` returns. -/
theorem executeRequestWithRetry_fuel_mono (ps : ProxyServer) (env : Collaborators)
    (c : ClientRequest) (channelHandler : ChannelProxy) (originalGroup group : Group)
    (bodyBytes : String) (isStream : Bool) :
    ∀ fuel n fx fx1 k,
      executeRequestWithRetry ps env c channelHandler originalGroup group bodyBytes isStream
        fuel n fx = some fx1 →
      executeRequestWithRetry ps env c channelHandler originalGroup group bodyBytes isStream
        (fuel + k) n fx = some fx1 := by
  intro fuel
  induction fuel with
  | zero => intro n fx fx1 k h; simp [executeRequestWithRetry] at h
  | succ fuel ih =>
    intro n fx fx1 k h
    have hk : fuel + 1 + k = (fuel + k) + 1 := by omega
    rw [hk]
    unfold executeRequestWithRetry at h ⊢
    cases hstep : attempt ps env c channelHandler originalGroup group bodyBytes isStream n fx with
    | done fx2 => simpa [hstep] using h
    | again fx2 =>
      simp only [hstep] at h ⊢
      exact ih (n + 1) fx2 fx1 k h

/-- The recursion of `executeRequestWithRetry` ends: a depth that exceeds the remaining
retries is enough for it to return. -/
theorem executeRequestWithRetry_terminates (ps : ProxyServer) (env : Collaborators)
    (c : ClientRequest) (channelHandler : ChannelProxy) (originalGroup group : Group)
    (bodyBytes : String) (isStream : Bool) :
    ∀ fuel n fx, group.EffectiveConfig.MaxRetries.toNat < n + fuel → 0 < fuel →
      ∃ fx1, executeRequestWithRetry ps env c channelHandler originalGroup group bodyBytes
        isStream fuel n fx = some fx1 := by
  intro fuel
  induction fuel with
  | zero => intro n fx _ h; omega
  | succ fuel ih =>
    intro n fx hlt _
    unfold executeRequestWithRetry
    cases hstep : attempt ps env c channelHandler originalGroup group bodyBytes isStream n fx with
    | done fx2 => exact ⟨fx2, rfl⟩
    | again fx2 =>
      simp only
      obtain ⟨_, _, _, _, h4, _⟩ := attempt_spec ps env c channelHandler originalGroup group
        bodyBytes isStream n fx
      have hn := (h4 (by rw [hstep]; rfl)).1
      have h1 : n < group.EffectiveConfig.MaxRetries.toNat := by omega
      exact ih (n + 1) fx2 (by omega) (by omega)

theorem filter_type_append (l : List RequestLog) (entry : Option RequestLog) (t : String) :
    ((l ++ entry.toList).filter (fun e => e.RequestType = t)).length =
      (l.filter (fun e => e.RequestType = t)).length +
        (entry.toList.filter (fun e => e.RequestType = t)).length := by
  simp [List.filter_append]

theorem filter_type_all (l : List RequestLog) (t : String)
    (h : ∀ e ∈ l, e.RequestType = t) :
    (l.filter (fun e => e.RequestType = t)).length = l.length := by
  rw [List.filter_eq_self.mpr]
  intro e he
  simp [h e he]

theorem filter_type_none (l : List RequestLog) (t t1 : String) (hne : t ≠ t1)
    (h : ∀ e ∈ l, e.RequestType = t) :
    (l.filter (fun e => e.RequestType = t1)).length = 0 := by
  rw [List.length_eq_zero, List.filter_eq_nil_iff]
  intro e he
  simp [h e he, hne]

/-! ## The retry loop -/

/-- C1, as amended: for a request that enters the retry loop with `retryCount = 0` and a
log service present, whatever the key selections, model redirections and upstream
outcomes, and provided no upstream URL build and no request construction fails: the
method returns, its log entries contain exactly one entry of type `final`, and the
number of upstream attempts is the number of `retry` entries plus one when the last call
made an upstream attempt, and equals the number of `retry` entries when the last call
returned before it (no key available, or model redirection failed). The last call is the
one whose retry count is the number of `retry` entries. -/
theorem log_exactness (ps : ProxyServer) (env : Collaborators) (c : ClientRequest)
    (channelHandler : ChannelProxy) (originalGroup group : Group) (bodyBytes : String)
    (isStream : Bool) (hlog : ps.requestLogService = true)
    (hurl : ∀ n, urlFails ps env c channelHandler originalGroup bodyBytes n = false) :
    ∃ fx, runRequest ps env c channelHandler originalGroup group bodyBytes isStream = some fx ∧
      fx.countType RequestTypeFinal = 1 ∧
      fx.attempts = fx.countType RequestTypeRetry +
        (if (upstreamCall ps env c channelHandler originalGroup group bodyBytes isStream
          (fx.countType RequestTypeRetry)).isSome then 1 else 0) := by
  obtain ⟨fx, hfx⟩ := executeRequestWithRetry_terminates ps env c channelHandler originalGroup
    group bodyBytes isStream (group.EffectiveConfig.MaxRetries.toNat + 1) 0 Effects.empty
    (by omega) (by omega)
  refine ⟨fx, hfx, ?_⟩
  refine executeRequestWithRetry_induction ps env c channelHandler originalGroup group bodyBytes
    isStream
    (fun n fx => fx.logs.length = n ∧ (∀ e ∈ fx.logs, e.RequestType = RequestTypeRetry) ∧
      fx.sent.length = n)
    (fun fx => fx.countType RequestTypeFinal = 1 ∧
      fx.attempts = fx.countType RequestTypeRetry +
        (if (upstreamCall ps env c channelHandler originalGroup group bodyBytes isStream
          (fx.countType RequestTypeRetry)).isSome then 1 else 0))
    ?_ ?_ _ 0 Effects.empty fx ⟨rfl, by simp [Effects.empty], rfl⟩ hfx
  · intro n fx fx1 ⟨hl, hall, hs⟩ hstep
    obtain ⟨entry, e1, e2, e3, e4, e5, _⟩ := attempt_spec ps env c channelHandler originalGroup
      group bodyBytes isStream n fx
    rw [hstep] at e1 e2 e3 e4
    simp only [Step.fx, Step.isAgain, if_true] at e1 e2 e3 e4
    obtain ⟨e, he⟩ := Option.isSome_iff_exists.mp (e5 hlog (hurl n))
    obtain ⟨uc, huc⟩ := Option.isSome_iff_exists.mp (e4 trivial).2
    subst he
    refine ⟨?_, ?_, ?_⟩
    · rw [e1]; simp [hl]
    · intro x hx
      rw [e1] at hx
      simp only [Option.toList, List.mem_append, List.mem_singleton] at hx
      rcases hx with hx | hx
      · exact hall x hx
      · rw [hx]; exact e3 e rfl
    · rw [e2, huc]; simp [hs]
  · intro n fx fx1 ⟨hl, hall, hs⟩ hstep
    obtain ⟨entry, e1, e2, e3, _, e5, _⟩ := attempt_spec ps env c channelHandler originalGroup
      group bodyBytes isStream n fx
    rw [hstep] at e1 e2 e3
    simp only [Step.fx, Step.isAgain, Bool.false_eq_true, if_false] at e1 e2 e3
    obtain ⟨e, he⟩ := Option.isSome_iff_exists.mp (e5 hlog (hurl n))
    subst he
    have hfin : e.RequestType = RequestTypeFinal := e3 e rfl
    have hne : RequestTypeRetry ≠ RequestTypeFinal := by decide
    have hretry : fx1.countType RequestTypeRetry = n := by
      unfold Effects.countType
      rw [e1, filter_type_append, filter_type_all _ _ hall, hl]
      simp [hfin, Ne.symm hne]
    have hfinal : fx1.countType RequestTypeFinal = 1 := by
      unfold Effects.countType
      rw [e1, filter_type_append, filter_type_none _ _ _ hne hall]
      simp [hfin]
    refine ⟨hfinal, ?_⟩
    rw [hretry]
    unfold Effects.attempts
    rw [e2]
    cases upstreamCall ps env c channelHandler originalGroup group bodyBytes isStream n <;>
      simp [hs]

/-- C1, amended, at a request whose first attempt is answered with status 500 and for
whose retry no key is available. -/
theorem log_exactness_witness :
    (Example.server Example.oneKey).requestLogService = true ∧
    (∀ n, urlFails (Example.server Example.oneKey) Example.env Example.plainClient
      (Example.failingChannel Example.emptyObject) (Example.group 1) Example.emptyObject n = false) ∧
    ∃ fx, runRequest (Example.server Example.oneKey) Example.env Example.plainClient
        (Example.failingChannel Example.emptyObject) (Example.group 1) (Example.group 1) Example.emptyObject false = some fx ∧
      fx.countType RequestTypeFinal = 1 ∧
      fx.attempts = fx.countType RequestTypeRetry +
        (if (upstreamCall (Example.server Example.oneKey) Example.env Example.plainClient
          (Example.failingChannel Example.emptyObject) (Example.group 1) (Example.group 1) Example.emptyObject false
          (fx.countType RequestTypeRetry)).isSome then 1 else 0) :=
  have hurl : ∀ n, urlFails (Example.server Example.oneKey) Example.env Example.plainClient
      (Example.failingChannel Example.emptyObject) (Example.group 1) Example.emptyObject n = false := by
    intro n
    unfold urlFails
    cases (Example.server Example.oneKey).SelectKey n <;> rfl
  ⟨rfl, hurl, log_exactness _ _ _ _ _ _ _ _ rfl hurl⟩

/-- C1 as stated fails. With `MaxRetries = 1`, a first attempt answered with status 500
and no key available for the retry, the request has one `final` entry, one `retry` entry
and one upstream attempt: the `retry` entries are not the attempts minus one. And when
the upstream URL cannot be built, the request has no `final` entry at all. -/
theorem log_exactness_counterexample :
    (runRequest (Example.server Example.oneKey) Example.env Example.plainClient
      (Example.failingChannel Example.emptyObject) (Example.group 1) (Example.group 1) Example.emptyObject false).map
        Effects.counts = some (1, 1, 1) ∧
    (runRequest (Example.server (fun _ => .ok Example.key)) Example.env Example.plainClient
      (OpenAIChannel Example.baseWithoutURL) (Example.group 1) (Example.group 1) Example.emptyObject false).map
        Effects.counts = some (0, 0, 0) := by
  constructor <;> decide

/-- C2: for a group with `MaxRetries = N ≥ 0`, whatever the upstream outcomes,
`executeRequestWithRetry` started with `retryCount = 0` returns (with a recursion depth of
`N + 1`, and with the same result for any larger depth) and performs at most `N + 1`
upstream attempts. -/
theorem retry_bound (ps : ProxyServer) (env : Collaborators) (c : ClientRequest)
    (channelHandler : ChannelProxy) (originalGroup group : Group) (bodyBytes : String)
    (isStream : Bool) (hN : 0 ≤ group.EffectiveConfig.MaxRetries) :
    ∃ fx, runRequest ps env c channelHandler originalGroup group bodyBytes isStream = some fx ∧
      (∀ fuel, group.EffectiveConfig.MaxRetries.toNat + 1 ≤ fuel →
        executeRequestWithRetry ps env c channelHandler originalGroup group bodyBytes isStream
          fuel 0 Effects.empty = some fx) ∧
      (fx.attempts : Int) ≤ group.EffectiveConfig.MaxRetries + 1 := by
  obtain ⟨fx, hfx⟩ := executeRequestWithRetry_terminates ps env c channelHandler originalGroup
    group bodyBytes isStream (group.EffectiveConfig.MaxRetries.toNat + 1) 0 Effects.empty
    (by omega) (by omega)
  refine ⟨fx, hfx, ?_, ?_⟩
  · intro fuel hfuel
    obtain ⟨k, rfl⟩ := Nat.exists_eq_add_of_le hfuel
    exact executeRequestWithRetry_fuel_mono ps env c channelHandler originalGroup group bodyBytes
      isStream _ 0 Effects.empty fx k hfx
  · refine executeRequestWithRetry_induction ps env c channelHandler originalGroup group
      bodyBytes isStream
      (fun n fx => fx.sent.length = n ∧ (n : Int) ≤ group.EffectiveConfig.MaxRetries)
      (fun fx => (fx.attempts : Int) ≤ group.EffectiveConfig.MaxRetries + 1)
      ?_ ?_ _ 0 Effects.empty fx ⟨rfl, by simpa using hN⟩ hfx
    · intro n fx fx1 ⟨hs, _⟩ hstep
      obtain ⟨entry, _, e2, _, e4, _, _⟩ := attempt_spec ps env c channelHandler originalGroup
        group bodyBytes isStream n fx
      rw [hstep] at e2 e4
      simp only [Step.fx, Step.isAgain] at e2 e4
      obtain ⟨hlt, hsome⟩ := e4 trivial
      obtain ⟨uc, huc⟩ := Option.isSome_iff_exists.mp hsome
      refine ⟨?_, ?_⟩
      · rw [e2, huc]; simp [hs]
      · push_cast; omega
    · intro n fx fx1 ⟨hs, hn⟩ hstep
      obtain ⟨entry, _, e2, _, _, _, _⟩ := attempt_spec ps env c channelHandler originalGroup
        group bodyBytes isStream n fx
      rw [hstep] at e2
      simp only [Step.fx] at e2
      have hlen : fx1.sent.length ≤ n + 1 := by
        rw [e2]
        cases upstreamCall ps env c channelHandler originalGroup group bodyBytes isStream n <;>
          simp [hs]
      unfold Effects.attempts
      omega

/-- C2, at a group with `MaxRetries = 1` whose upstream answers every attempt with
status 500. -/
theorem retry_bound_witness :
    (0 : Int) ≤ (Example.group 1).EffectiveConfig.MaxRetries ∧
    ∃ fx, runRequest (Example.server (fun _ => .ok Example.key)) Example.env Example.plainClient
        (Example.failingChannel Example.emptyObject) (Example.group 1) (Example.group 1) Example.emptyObject false = some fx ∧
      (∀ fuel, (Example.group 1).EffectiveConfig.MaxRetries.toNat + 1 ≤ fuel →
        executeRequestWithRetry (Example.server (fun _ => .ok Example.key)) Example.env
          Example.plainClient (Example.failingChannel Example.emptyObject) (Example.group 1) (Example.group 1)
          Example.emptyObject false fuel 0 Effects.empty = some fx) ∧
      (fx.attempts : Int) ≤ (Example.group 1).EffectiveConfig.MaxRetries + 1 :=
  ⟨by decide, retry_bound _ _ _ _ _ _ _ _ (by decide)⟩

/-- C10, as amended: for every request handled with a request-log service present and
every `MaxRetries`, if the upstream answers the first attempt with status 404 (no
transport error), the pipeline makes no further attempt and records exactly one log
entry, of type `final` and with status code 404. -/
theorem not_found_is_terminal (ps : ProxyServer) (env : Collaborators) (c : ClientRequest)
    (channelHandler : ChannelProxy) (originalGroup group : Group) (bodyBytes : String)
    (isStream : Bool) (resp : Response) (hlog : ps.requestLogService = true)
    (hcall : upstreamResult ps env c channelHandler originalGroup group bodyBytes isStream 0 =
      some (.response resp))
    (h404 : resp.StatusCode = 404) :
    ∃ fx e, runRequest ps env c channelHandler originalGroup group bodyBytes isStream = some fx ∧
      fx.attempts = 1 ∧ fx.logs = [e] ∧ e.RequestType = RequestTypeFinal ∧
      e.StatusCode = 404 := by
  unfold upstreamResult at hcall
  cases huc : upstreamCall ps env c channelHandler originalGroup group bodyBytes isStream 0 with
  | none => simp [huc] at hcall
  | some uc =>
    simp only [huc, Option.map_some', Option.some.injEq] at hcall
    have h1 := attempt_of_upstreamCall ps env c channelHandler originalGroup group bodyBytes
      isStream 0 Effects.empty uc huc
    have hst : ¬ (resp.StatusCode ≥ 400 ∧ resp.StatusCode ≠ 404) := fun h => h.2 h404
    obtain ⟨e, he⟩ := Option.isSome_iff_exists.mp
      ((logRequest_spec ps env c (some originalGroup) group
        (some ((markOrganizationVerifiedOnSuccess (some uc.apiKey) (some group)
          (channelHandler.ExtractModel c bodyBytes)).1.getD uc.apiKey))
        (env.Since 0) resp.StatusCode none isStream uc.upstreamURL (some channelHandler)
        (some bodyBytes) RequestTypeFinal).1 hlog)
    have hspec := (logRequest_spec ps env c (some originalGroup) group
        (some ((markOrganizationVerifiedOnSuccess (some uc.apiKey) (some group)
          (channelHandler.ExtractModel c bodyBytes)).1.getD uc.apiKey))
        (env.Since 0) resp.StatusCode none isStream uc.upstreamURL (some channelHandler)
        (some bodyBytes) RequestTypeFinal).2 e he
    rw [hcall] at h1
    unfold afterDo at h1
    simp only [if_neg hst, he] at h1
    have h2 : ∃ fx1, attempt ps env c channelHandler originalGroup group bodyBytes isStream 0
        Effects.empty = .done fx1 ∧ fx1.attempts = 1 ∧ fx1.logs = [e] := by
      rw [h1]
      refine ⟨_, rfl, ?_, ?_⟩
      · simp only [Effects.attempts, Effects.record, Effects.empty]
        split_ifs <;> rfl
      · simp only [Effects.record, Effects.empty]
        split_ifs <;> rfl
    obtain ⟨fx1, ha, hb, hc⟩ := h2
    refine ⟨fx1, e, ?_, hb, hc, hspec.1, hspec.2.1.trans h404⟩
    unfold runRequest executeRequestWithRetry
    rw [ha]

/-- C10, amended, at a request whose only attempt is answered with status 404, for a
group that allows three retries. -/
theorem not_found_is_terminal_witness :
    (Example.server (fun _ => .ok Example.key)).requestLogService = true ∧
    upstreamResult (Example.server (fun _ => .ok Example.key)) Example.env Example.plainClient
      (OpenAIChannel (Example.base (fun _ => .response (Example.response 404 "not found"))))
      (Example.group 3) (Example.group 3) Example.emptyObject false 0 =
        some (.response (Example.response 404 "not found")) ∧
    (Example.response 404 "not found").StatusCode = 404 ∧
    ∃ fx e, runRequest (Example.server (fun _ => .ok Example.key)) Example.env
        Example.plainClient
        (OpenAIChannel (Example.base (fun _ => .response (Example.response 404 "not found"))))
        (Example.group 3) (Example.group 3) Example.emptyObject false = some fx ∧
      fx.attempts = 1 ∧ fx.logs = [e] ∧ e.RequestType = RequestTypeFinal ∧
      e.StatusCode = 404 :=
  ⟨rfl, rfl, rfl, not_found_is_terminal _ _ _ _ _ _ _ _ _ rfl rfl rfl⟩

/-- C10 as stated fails. On a server whose `requestLogService` is nil, a request whose
first attempt is answered with status 404 makes that one attempt and records no log
entry: `logRequest` returns before it builds one. -/
theorem not_found_is_terminal_counterexample :
    (runRequest { Example.server (fun _ => .ok Example.key) with requestLogService := false }
      Example.env Example.plainClient
      (OpenAIChannel (Example.base (fun _ => .response (Example.response 404 "not found"))))
      (Example.group 3) (Example.group 3) Example.emptyObject false).map
        (fun fx => (fx.attempts, fx.logs.length)) = some (1, 0) := by
  decide

/-- C4, as amended: on the last failed attempt with an HTTP error (`retryCount ≥
MaxRetries`, status at least 400 and not 404) the method returns and the client receives,
for an upstream error body (as read, after `handleGzipCompression`) that
`json.Unmarshal` decodes into a `map[string]any`, that JSON value with the upstream
status: these are `null` and the JSON objects, nested no deeper than 10000, all of whose
numbers are within the `float64` range. For every other body, whether it is some other
JSON value, an object with a number out of range, or not valid JSON, the client receives
the wrapped error with code `UPSTREAM_ERROR`, the body as message and the upstream
status. -/
theorem final_error_answer (ps : ProxyServer) (env : Collaborators) (c : ClientRequest)
    (channelHandler : ChannelProxy) (originalGroup group : Group) (bodyBytes : String)
    (isStream : Bool) (retryCount : Nat) (fx : Effects) (resp : Response)
    (hcall : upstreamResult ps env c channelHandler originalGroup group bodyBytes isStream
      retryCount = some (.response resp))
    (hst : resp.StatusCode ≥ 400) (h404 : resp.StatusCode ≠ 404)
    (hlast : (retryCount : Int) ≥ group.EffectiveConfig.MaxRetries) :
    ∃ fx1, attempt ps env c channelHandler originalGroup group bodyBytes isStream retryCount
        fx = .done fx1 ∧
      fx1.responses = fx.responses ++
        [finalErrorAnswer resp.StatusCode
          (env.handleGzipCompression resp (readErrorBody resp))] := by
  unfold upstreamResult at hcall
  cases huc : upstreamCall ps env c channelHandler originalGroup group bodyBytes isStream
      retryCount with
  | none => simp [huc] at hcall
  | some uc =>
    simp only [huc, Option.map_some', Option.some.injEq] at hcall
    have h1 := attempt_of_upstreamCall ps env c channelHandler originalGroup group bodyBytes
      isStream retryCount fx uc huc
    rw [hcall] at h1
    unfold afterDo at h1
    simp only [if_pos (And.intro hst h404)] at h1
    obtain ⟨entry, _, h2, _⟩ := handleFailure_spec ps env c channelHandler originalGroup group
      bodyBytes isStream retryCount uc.apiKey uc.upstreamURL resp.StatusCode
      (env.handleGzipCompression resp (readErrorBody resp))
      (env.ParseUpstreamError (env.handleGzipCompression resp (readErrorBody resp)))
      { fx with sent := fx.sent ++ [uc.req] }
    rw [(h2 hlast).2] at h1
    refine ⟨_, h1, ?_⟩
    simp only [finalErrorAnswer, unmarshalMap]
    cases parseJSON (env.handleGzipCompression resp (readErrorBody resp)) with
    | none => rfl
    | some v =>
      cases v with
      | obj members =>
        simp only [Json.numbers]
        by_cases h : (Json.numbersOfMembers members).any parseFloatRangeError = true
        · have h1 : ¬ ∀ lit ∈ Json.numbersOfMembers members,
              parseFloatRangeError lit = false := by
            simpa [List.any_eq_true] using h
          simp only [h, if_true, if_neg h1]
        · have h1 : ∀ lit ∈ Json.numbersOfMembers members,
              parseFloatRangeError lit = false := by
            simpa [List.any_eq_true] using h
          simp only [h, Bool.false_eq_true, if_false, if_pos h1]
      | _ => rfl

/-- C4, amended, at the last attempt (`MaxRetries = 0`) answered with status 500 and
the JSON object `{"error":{"message":"rate limit"}}`. -/
theorem final_error_answer_witness :
    upstreamResult (Example.server (fun _ => .ok Example.key)) Example.env Example.plainClient
      (Example.failingChannel Example.rateLimitBody) (Example.group 0)
      (Example.group 0) Example.emptyObject false 0 =
        some (.response (Example.response 500 Example.rateLimitBody)) ∧
    (Example.response 500 Example.rateLimitBody).StatusCode ≥ 400 ∧
    (Example.response 500 Example.rateLimitBody).StatusCode ≠ 404 ∧
    ((0 : Nat) : Int) ≥ (Example.group 0).EffectiveConfig.MaxRetries ∧
    ∃ fx1, attempt (Example.server (fun _ => .ok Example.key)) Example.env Example.plainClient
        (Example.failingChannel Example.rateLimitBody) (Example.group 0)
        (Example.group 0) Example.emptyObject false 0 Effects.empty = .done fx1 ∧
      fx1.responses = Effects.empty.responses ++
        [finalErrorAnswer 500
          (Example.env.handleGzipCompression
            (Example.response 500 Example.rateLimitBody)
            (readErrorBody (Example.response 500 Example.rateLimitBody)))] :=
  ⟨rfl, by decide, by decide, by decide,
    final_error_answer (Example.server (fun _ => .ok Example.key)) Example.env
      Example.plainClient (Example.failingChannel Example.rateLimitBody)
      (Example.group 0) (Example.group 0) Example.emptyObject false 0 Effects.empty
      (Example.response 500 Example.rateLimitBody) rfl (by decide)
      (by decide) (by decide)⟩

/-- C4 as stated fails. The bodies `[]` and `{"error":{"code":1e999}}` are valid JSON,
but on the last attempt (`MaxRetries = 0`) answered with status 500 and either body the
client receives the wrapped `UPSTREAM_ERROR`, not the body: an array does not decode into
a map, and `1e999` is not a `float64`. -/
theorem final_error_answer_counterexample :
    jsonValid "[]" = true ∧
    (runRequest (Example.server (fun _ => .ok Example.key)) Example.env Example.plainClient
      (Example.failingChannel "[]") (Example.group 0) (Example.group 0) Example.emptyObject false).map
        (fun fx => fx.responses) = some [.upstreamError 500 "UPSTREAM_ERROR" "[]"] ∧
    jsonValid Example.hugeNumberBody = true ∧
    (runRequest (Example.server (fun _ => .ok Example.key)) Example.env Example.plainClient
      (Example.failingChannel Example.hugeNumberBody) (Example.group 0) (Example.group 0)
      Example.emptyObject false).map (fun fx => fx.responses) =
        some [.upstreamError 500 "UPSTREAM_ERROR" Example.hugeNumberBody] := by
  refine ⟨?_, ?_, ?_, ?_⟩
  · decide
  · rfl
  · decide
  · rfl

theorem getElem?_append_singleton {α : Type} (l : List α) (x y : α) (i : Nat)
    (h : (l ++ [x])[i]? = some y) : l[i]? = some y ∨ (i = l.length ∧ y = x) := by
  rw [List.getElem?_append] at h
  split_ifs at h with hlt
  · exact Or.inl h
  · right
    have h0 : i - l.length = 0 := by
      by_contra hne
      have hnone : ([x] : List α)[i - l.length]? = none := by
        apply List.getElem?_eq_none
        simp only [List.length_singleton]
        omega
      rw [hnone] at h
      cases h
    refine ⟨by omega, ?_⟩
    rw [h0] at h
    simpa using h.symm

/-- The credential headers of the request the OpenAI channel sends for a group without
header rules: `Authorization` is the single value `Bearer <key value>`, the two others
are absent. -/
theorem prepareRequest_credentials (env : Collaborators) (c : ClientRequest)
    (base : BaseChannel) (group : Group) (hrules : group.HeaderRuleList = [])
    (apiKey : APIKey) (bodyBytes finalBodyBytes : String) (isStream : Bool)
    (req0 : UpstreamRequest) :
    credentialHeaders (prepareRequest env c (OpenAIChannel base) group apiKey bodyBytes
      finalBodyBytes isStream (strippedRequest c req0)) =
      (some ["Bearer " ++ apiKey.KeyValue], none, none) := by
  have key : ∀ (h0 : Header) (k : String), k ≠ "Http-Referer" → k ≠ "X-Title" →
      k ≠ "X-Accel-Buffering" →
      (prepareRequest env c (OpenAIChannel base) group apiKey bodyBytes finalBodyBytes isStream
        (strippedRequest c req0)).Header.lookup k =
      ((strippedRequest c req0).Header.Set "Authorization"
        ("Bearer " ++ apiKey.KeyValue)).lookup k := by
    intro h0 k hk1 hk2 hk3
    unfold prepareRequest
    simp only [hrules, List.length_nil, gt_iff_lt, lt_self_iff_false, if_false, OpenAIChannel,
      OpenAIChannel.ModifyRequest]
    have hx : ∀ (h : Header), (h.Set "X-Accel-Buffering" "no").lookup k = h.lookup k :=
      fun h => Header.lookup_Set_other h _ _ k (by rw [canonical_XAccel]; exact hk3)
    split_ifs <;>
      simp only [hx, applyOpenRouterHeaders_lookup_other _ _ k hk1 hk2]
  have hstrip : (strippedRequest c req0).Header =
      ((c.Header.Clone.Del "Authorization").Del "X-Api-Key").Del "X-Goog-Api-Key" := rfl
  unfold credentialHeaders
  rw [key [] "Authorization" (by decide) (by decide) (by decide),
    key [] "X-Api-Key" (by decide) (by decide) (by decide),
    key [] "X-Goog-Api-Key" (by decide) (by decide) (by decide)]
  have a1 := Header.lookup_Set_same (strippedRequest c req0).Header "Authorization"
    ("Bearer " ++ apiKey.KeyValue)
  rw [canonical_Authorization] at a1
  have a2 : ((strippedRequest c req0).Header.Set "Authorization"
      ("Bearer " ++ apiKey.KeyValue)).lookup "X-Api-Key" = none := by
    rw [Header.lookup_Set_other _ _ _ _ (by decide), hstrip,
      Header.lookup_Del_other _ _ _ (by decide)]
    have := Header.lookup_Del_same (c.Header.Clone.Del "Authorization") "X-Api-Key"
    rwa [canonical_XApiKey] at this
  have a3 : ((strippedRequest c req0).Header.Set "Authorization"
      ("Bearer " ++ apiKey.KeyValue)).lookup "X-Goog-Api-Key" = none := by
    rw [Header.lookup_Set_other _ _ _ _ (by decide), hstrip]
    have := Header.lookup_Del_same ((c.Header.Clone.Del "Authorization").Del "X-Api-Key")
      "X-Goog-Api-Key"
    rwa [canonical_XGoogApiKey] at this
  rw [a1, a2, a3]

/-- The requests a run of the OpenAI channel sends upstream, for a group without header
rules: the one sent by the call with retry count `i` carries the credentials of the key
selected for that call, and nothing else under the three credential headers. -/
theorem sent_credentials (ps : ProxyServer) (env : Collaborators) (c : ClientRequest)
    (base : BaseChannel) (originalGroup group : Group) (hrules : group.HeaderRuleList = [])
    (bodyBytes : String) (isStream : Bool) (fuel : Nat) (fx : Effects)
    (hrun : executeRequestWithRetry ps env c (OpenAIChannel base) originalGroup group bodyBytes
      isStream fuel 0 Effects.empty = some fx) :
    ∀ i req, fx.sent[i]? = some req →
      ∃ apiKey, ps.SelectKey i = .ok apiKey ∧
        credentialHeaders req = (some ["Bearer " ++ apiKey.KeyValue], none, none) := by
  have step : ∀ n (fx fx1 : Effects),
      (fx.sent.length = n ∧ ∀ i req, fx.sent[i]? = some req →
        ∃ apiKey, ps.SelectKey i = .ok apiKey ∧
          credentialHeaders req = (some ["Bearer " ++ apiKey.KeyValue], none, none)) →
      (attempt ps env c (OpenAIChannel base) originalGroup group bodyBytes isStream n fx).fx =
        fx1 →
      (fx1.sent.length = n + 1 ∨ (attempt ps env c (OpenAIChannel base) originalGroup group
        bodyBytes isStream n fx).isAgain = false) ∧
      ∀ i req, fx1.sent[i]? = some req →
        ∃ apiKey, ps.SelectKey i = .ok apiKey ∧
          credentialHeaders req = (some ["Bearer " ++ apiKey.KeyValue], none, none) := by
    intro n fx fx1 ⟨hs, hall⟩ hfx
    obtain ⟨entry, _, e2, _, e4, _, _⟩ := attempt_spec ps env c (OpenAIChannel base)
      originalGroup group bodyBytes isStream n fx
    rw [hfx] at e2
    cases huc : upstreamCall ps env c (OpenAIChannel base) originalGroup group bodyBytes
        isStream n with
    | none =>
      rw [huc] at e2 e4
      simp only [Option.map_none', Option.toList, List.append_nil] at e2
      refine ⟨Or.inr ?_, ?_⟩
      · cases hb : (attempt ps env c (OpenAIChannel base) originalGroup group bodyBytes
            isStream n fx).isAgain
        · rfl
        · have := (e4 hb).2
          simp at this
      · rw [e2]; exact hall
    | some uc =>
      rw [huc] at e2
      simp only [Option.map_some', Option.toList] at e2
      obtain ⟨hkey, req0, fb, hreq⟩ := upstreamCall_spec ps env c (OpenAIChannel base)
        originalGroup group bodyBytes isStream n uc huc
      refine ⟨Or.inl (by rw [e2]; simp [hs]), ?_⟩
      intro i req hi
      rw [e2] at hi
      rcases getElem?_append_singleton _ _ _ _ hi with h | ⟨h1, h2⟩
      · exact hall i req h
      · refine ⟨uc.apiKey, by rw [h1, hs]; exact hkey, ?_⟩
        rw [h2, hreq]
        exact prepareRequest_credentials env c base group hrules uc.apiKey bodyBytes fb isStream
          req0
  refine executeRequestWithRetry_induction ps env c (OpenAIChannel base) originalGroup group
    bodyBytes isStream
    (fun n fx => fx.sent.length = n ∧ ∀ i req, fx.sent[i]? = some req →
      ∃ apiKey, ps.SelectKey i = .ok apiKey ∧
        credentialHeaders req = (some ["Bearer " ++ apiKey.KeyValue], none, none))
    (fun fx => ∀ i req, fx.sent[i]? = some req →
      ∃ apiKey, ps.SelectKey i = .ok apiKey ∧
        credentialHeaders req = (some ["Bearer " ++ apiKey.KeyValue], none, none))
    ?_ ?_ fuel 0 Effects.empty fx ⟨rfl, by simp [Effects.empty]⟩ hrun
  · intro n fx fx1 hinv hstep
    have := step n fx fx1 hinv (by rw [hstep]; rfl)
    rw [hstep] at this
    simp only [Step.isAgain, Bool.true_eq_false, or_false] at this
    exact this
  · intro n fx fx1 hinv hstep
    exact (step n fx fx1 hinv (by rw [hstep]; rfl)).2

/-- C3: every upstream request built by `executeRequestWithRetry` with the OpenAI channel,
for a group without header rules, carries `Authorization` equal to exactly the single
value `Bearer <key value>` of the key selected for that attempt, and carries no
`X-Api-Key` and no `X-Goog-Api-Key` header, whatever headers the client sent; hence two
requests that differ arbitrarily (in their headers and everything else) lead to the same
values of these three headers on the outbound request of each attempt. -/
theorem outbound_credentials (ps : ProxyServer) (env : Collaborators) (base : BaseChannel)
    (originalGroup group : Group) (hrules : group.HeaderRuleList = [])
    (c c1 : ClientRequest) (bodyBytes bodyBytes1 : String) (isStream isStream1 : Bool)
    (fuel fuel1 : Nat) (fx fx1 : Effects)
    (hrun : executeRequestWithRetry ps env c (OpenAIChannel base) originalGroup group bodyBytes
      isStream fuel 0 Effects.empty = some fx)
    (hrun1 : executeRequestWithRetry ps env c1 (OpenAIChannel base) originalGroup group
      bodyBytes1 isStream1 fuel1 0 Effects.empty = some fx1) :
    (∀ i req, fx.sent[i]? = some req →
      ∃ apiKey, ps.SelectKey i = .ok apiKey ∧
        req.Header.lookup "Authorization" = some ["Bearer " ++ apiKey.KeyValue] ∧
        req.Header.lookup "X-Api-Key" = none ∧
        req.Header.lookup "X-Goog-Api-Key" = none) ∧
    (∀ (i : Nat) req req1, fx.sent[i]? = some req → fx1.sent[i]? = some req1 →
      credentialHeaders req = credentialHeaders req1) := by
  have h := sent_credentials ps env c base originalGroup group hrules bodyBytes isStream fuel
    fx hrun
  have h1 := sent_credentials ps env c1 base originalGroup group hrules bodyBytes1 isStream1
    fuel1 fx1 hrun1
  constructor
  · intro i req hi
    obtain ⟨apiKey, hk, hc⟩ := h i req hi
    simp only [credentialHeaders, Prod.mk.injEq] at hc
    exact ⟨apiKey, hk, hc.1, hc.2.1, hc.2.2⟩
  · intro i req req1 hi hi1
    obtain ⟨apiKey, hk, hc⟩ := h i req hi
    obtain ⟨apiKey1, hk1, hc1⟩ := h1 i req1 hi1
    rw [hk] at hk1
    cases hk1
    rw [hc, hc1]

/-- C3, at a client request that carries its own values under all three credential
headers, compared with a request without headers: the request sent upstream carries
`Bearer sk-test`, the credential of the selected key, and nothing else. -/
theorem outbound_credentials_witness :
    (Example.group 0).HeaderRuleList = [] ∧
    (runRequest (Example.server (fun _ => .ok Example.key)) Example.env
      Example.clientWithCredentials
      (OpenAIChannel (Example.base (fun _ => .response (Example.response 200 Example.usageBody))))
      (Example.group 0) (Example.group 0) Example.emptyObject false).map
        (fun fx => fx.sent.map credentialHeaders) = some [(some ["Bearer sk-test"], none, none)] ∧
    ∃ fx fx1,
      executeRequestWithRetry (Example.server (fun _ => .ok Example.key)) Example.env
        Example.clientWithCredentials
        (OpenAIChannel (Example.base (fun _ => .response (Example.response 200 Example.usageBody))))
        (Example.group 0) (Example.group 0) Example.emptyObject false 1 0 Effects.empty =
          some fx ∧
      executeRequestWithRetry (Example.server (fun _ => .ok Example.key)) Example.env
        Example.plainClient
        (OpenAIChannel (Example.base (fun _ => .response (Example.response 200 Example.usageBody))))
        (Example.group 0) (Example.group 0) Example.emptyObject true 1 0 Effects.empty =
          some fx1 ∧
      (∀ i req, fx.sent[i]? = some req →
        ∃ apiKey, (Example.server (fun _ => .ok Example.key)).SelectKey i = .ok apiKey ∧
          req.Header.lookup "Authorization" = some ["Bearer " ++ apiKey.KeyValue] ∧
          req.Header.lookup "X-Api-Key" = none ∧
          req.Header.lookup "X-Goog-Api-Key" = none) ∧
      (∀ (i : Nat) req req1, fx.sent[i]? = some req → fx1.sent[i]? = some req1 →
        credentialHeaders req = credentialHeaders req1) :=
  ⟨rfl, by decide,
    (executeRequestWithRetry_terminates (Example.server (fun _ => .ok Example.key)) Example.env
      Example.clientWithCredentials
      (OpenAIChannel (Example.base (fun _ => .response (Example.response 200 Example.usageBody))))
      (Example.group 0) (Example.group 0) Example.emptyObject false 1 0 Effects.empty
      (by decide) (by decide)).elim fun fx hfx =>
    (executeRequestWithRetry_terminates (Example.server (fun _ => .ok Example.key)) Example.env
      Example.plainClient
      (OpenAIChannel (Example.base (fun _ => .response (Example.response 200 Example.usageBody))))
      (Example.group 0) (Example.group 0) Example.emptyObject true 1 0 Effects.empty
      (by decide) (by decide)).elim fun fx1 hfx1 =>
    ⟨fx, fx1, hfx, hfx1,
      outbound_credentials _ _ _ _ _ rfl _ _ _ _ _ _ _ _ fx fx1 hfx hfx1⟩⟩

/-- No log entry of a run carries token usage: `logRequest` leaves the token fields at
their zero value, and nothing else writes them. -/
theorem logs_without_tokens (ps : ProxyServer) (env : Collaborators) (c : ClientRequest)
    (channelHandler : ChannelProxy) (originalGroup group : Group) (bodyBytes : String)
    (isStream : Bool) (fuel : Nat) (fx : Effects)
    (hrun : executeRequestWithRetry ps env c channelHandler originalGroup group bodyBytes
      isStream fuel 0 Effects.empty = some fx) :
    ∀ e ∈ fx.logs, e.Tokens = none := by
  have step : ∀ n (fx : Effects), (∀ e ∈ fx.logs, e.Tokens = none) →
      ∀ e ∈ (attempt ps env c channelHandler originalGroup group bodyBytes isStream n
        fx).fx.logs, e.Tokens = none := by
    intro n fx hall e he
    obtain ⟨entry, e1, _, _, _, _, _, e7⟩ := attempt_spec ps env c channelHandler originalGroup
      group bodyBytes isStream n fx
    rw [e1, List.mem_append] at he
    rcases he with he | he
    · exact hall e he
    · cases entry with
      | none => simp at he
      | some x =>
        simp only [Option.toList, List.mem_singleton] at he
        rw [he]
        exact e7 x rfl
  refine executeRequestWithRetry_induction ps env c channelHandler originalGroup group bodyBytes
    isStream (fun _ fx => ∀ e ∈ fx.logs, e.Tokens = none)
    (fun fx => ∀ e ∈ fx.logs, e.Tokens = none) ?_ ?_ fuel 0 Effects.empty fx
    (by simp [Effects.empty]) hrun
  · intro n fx fx1 hinv hstep
    have := step n fx hinv
    rwa [hstep] at this
  · intro n fx fx1 hinv hstep
    have := step n fx hinv
    rwa [hstep] at this

/-- C5 fails on the code. In the happy non-streaming scenario (upstream answers 200 with
a body whose usage is (3, 5, 8), which `parseTokensFromResponse` does parse), the single
log entry of the request is `final` with status 200 and carries no token usage. -/
theorem final_log_drops_usage :
    parseTokensFromResponse Example.usageBody = some ⟨3, 5, 8⟩ ∧
    (runRequest (Example.server (fun _ => .ok Example.key)) Example.env Example.plainClient
      (OpenAIChannel (Example.base (fun _ => .response (Example.response 200 Example.usageBody))))
      (Example.group 0) (Example.group 0) Example.emptyObject false).map
        (fun fx => fx.logs.map (fun e => (e.StatusCode, e.RequestType, e.IsSuccess, e.Tokens))) =
      some [(200, "final", true, none)] := by
  constructor <;> decide

/-! ## The streaming relay -/

/-- What `ReadBytes` returns on a non-empty buffer: a non-empty line without an inner line
feed that is the first line of the buffer; when a line feed was found the line ends with
it and the other lines are those of the rest, which is shorter than the buffer. -/
theorem ReadBytes_spec (c : Char) (cs : List Char) :
    (ReadBytes (c :: cs)).1 ≠ [] ∧
    sseLines (c :: cs) = (ReadBytes (c :: cs)).1 ::
      (if (ReadBytes (c :: cs)).2.2 then sseLines (ReadBytes (c :: cs)).2.1 else []) ∧
    (ReadBytes (c :: cs)).2.1.length < (c :: cs).length ∧
    ∃ content, '\n' ∉ content ∧
      (ReadBytes (c :: cs)).1 = content ++ (if (ReadBytes (c :: cs)).2.2 then ['\n'] else []) := by
  induction cs generalizing c with
  | nil =>
    by_cases hc : c = '\n'
    · subst hc
      exact ⟨by simp [ReadBytes], by simp [ReadBytes, sseLines], by simp [ReadBytes],
        [], by simp, by simp [ReadBytes]⟩
    · exact ⟨by simp [ReadBytes, hc], by simp [ReadBytes, sseLines, hc], by simp [ReadBytes, hc],
        [c], by simpa using Ne.symm hc, by simp [ReadBytes, hc]⟩
  | cons d ds ih =>
    by_cases hc : c = '\n'
    · subst hc
      exact ⟨by simp [ReadBytes], by simp [ReadBytes, sseLines], by simp [ReadBytes],
        [], by simp, by simp [ReadBytes]⟩
    · obtain ⟨h1, h2, h3, content, h4, h5⟩ := ih d
      have hR : ReadBytes (c :: d :: ds) =
          (c :: (ReadBytes (d :: ds)).1, (ReadBytes (d :: ds)).2.1, (ReadBytes (d :: ds)).2.2) := by
        conv_lhs => unfold ReadBytes
        simp [hc]
      refine ⟨by simp [hR], ?_, ?_, c :: content, ?_, ?_⟩
      · have hS : sseLines (c :: d :: ds) =
            (match sseLines (d :: ds) with
              | [] => [[c]]
              | l :: ls => (c :: l) :: ls) := by
          conv_lhs => unfold sseLines
          simp [hc]
        rw [hS, h2, hR]
      · rw [hR]
        simp only [List.length_cons] at h3 ⊢
        omega
      · simp only [List.mem_cons, not_or]
        exact ⟨Ne.symm hc, h4⟩
      · rw [hR]
        simp only [h5, List.cons_append]

theorem sseLines_join (cs : List Char) : (sseLines cs).flatten = cs := by
  induction cs with
  | nil => rfl
  | cons c cs ih =>
    by_cases hc : c = '\n'
    · simp [sseLines, hc, ih]
    · simp only [sseLines, hc, if_false]
      cases hl : sseLines cs with
      | nil =>
        rw [hl] at ih
        simp only [List.flatten_nil] at ih
        simp [← ih]
      | cons l ls =>
        rw [hl] at ih
        simp only [List.flatten_cons] at ih
        simp [← ih]

theorem splitNewline_of_not_mem (content : List Char) (h : '\n' ∉ content) :
    splitNewline content = [content] ∧ splitNewline (content ++ ['\n']) = [content, []] := by
  induction content with
  | nil => exact ⟨rfl, rfl⟩
  | cons c cs ih =>
    simp only [List.mem_cons, not_or] at h
    obtain ⟨h1, h2⟩ := ih h.2
    have hc : ¬ c = '\n' := fun e => h.1 e.symm
    constructor
    · simp [splitNewline, hc, h1]
    · simp only [List.cons_append, splitNewline, hc, if_false, List.append_eq, h2]

theorem dropWhile_append_of_all {p : Char → Bool} (l t : List Char) (h : ∀ x ∈ l, p x = true) :
    (l ++ t).dropWhile p = t.dropWhile p := by
  induction l with
  | nil => rfl
  | cons a l ih =>
    have ha : p a = true := h a (by simp)
    simp only [List.cons_append, List.dropWhile, ha]
    exact ih (fun x hx => h x (by simp [hx]))

theorem dropWhile_append_of_not_all {p : Char → Bool} (l t : List Char)
    (h : ∃ x ∈ l, p x = false) : (l ++ t).dropWhile p = l.dropWhile p ++ t := by
  induction l with
  | nil => obtain ⟨x, hx, _⟩ := h; simp at hx
  | cons a l ih =>
    by_cases ha : p a = true
    · simp only [List.cons_append, List.dropWhile, ha]
      apply ih
      obtain ⟨x, hx, hpx⟩ := h
      simp only [List.mem_cons] at hx
      rcases hx with rfl | hx
      · rw [ha] at hpx; cases hpx
      · exact ⟨x, hx, hpx⟩
    · simp only [Bool.not_eq_true] at ha
      simp [List.dropWhile, ha]

/-- Trailing white space does not change what `TrimSpace` returns. -/
theorem trimSpaceChars_append_space (cs : List Char) (c : Char) (hc : isSpace c = true) :
    trimSpaceChars (cs ++ [c]) = trimSpaceChars cs := by
  unfold trimSpaceChars
  by_cases hall : ∀ x ∈ cs, isSpace x = true
  · have h1 : (cs ++ [c]).dropWhile isSpace = [] := by
      rw [dropWhile_append_of_all cs [c] hall]
      simp [List.dropWhile, hc]
    have h2 : cs.dropWhile isSpace = [] := by
      have := dropWhile_append_of_all cs [] hall
      simpa using this
    rw [h1, h2]
  · push_neg at hall
    obtain ⟨x, hx, hpx⟩ := hall
    simp only [Bool.not_eq_true] at hpx
    rw [dropWhile_append_of_not_all cs [c] ⟨x, hx, hpx⟩, List.reverse_append]
    simp [List.dropWhile, hc]

theorem lineUsage_append_newline (content : List Char) :
    lineUsage ⟨content ++ ['\n']⟩ = lineUsage ⟨content⟩ := by
  unfold lineUsage TrimSpace
  simp only [trimSpaceChars_append_space content '\n' (by decide)]

/-- On a line without inner line feed, `parseTokensFromStreamChunk` finds the usage the
line carries. -/
theorem parseTokensFromStreamChunk_line (content : List Char) (h : '\n' ∉ content)
    (found : Bool) :
    parseTokensFromStreamChunk ⟨content ++ (if found then ['\n'] else [])⟩ =
      lineUsage ⟨content ++ (if found then ['\n'] else [])⟩ := by
  have hempty : parseTokensFromStreamChunk.scan [""] = none := by decide
  have hone : ∀ rest, (rest = [] ∨ rest = [""]) →
      parseTokensFromStreamChunk.scan (String.mk content :: rest) = lineUsage ⟨content⟩ := by
    intro rest hrest
    have hrest1 : parseTokensFromStreamChunk.scan rest = none := by
      rcases hrest with rfl | rfl
      · rfl
      · exact hempty
    unfold parseTokensFromStreamChunk.scan lineUsage
    simp only [hrest1]
    by_cases hp : HasPrefix (TrimSpace ⟨content⟩) "data:" = true
    · simp only [hp, Bool.not_true, Bool.false_eq_true, if_false, if_true]
      by_cases hd : TrimSpace (TrimPrefix (TrimSpace ⟨content⟩) "data:") = "[DONE]"
      · simp [hd]
      · simp only [hd, if_false]
        cases unmarshalUsageResponse (TrimSpace (TrimPrefix (TrimSpace ⟨content⟩) "data:")) with
        | none => rfl
        | some u => cases u <;> rfl
    · simp [hp]
  obtain ⟨h1, h2⟩ := splitNewline_of_not_mem content h
  cases found with
  | false =>
    simp only [Bool.false_eq_true, if_false, List.append_nil]
    unfold parseTokensFromStreamChunk SplitLines
    simp only [h1, List.map]
    exact hone [] (Or.inl rfl)
  | true =>
    simp only [if_true]
    rw [lineUsage_append_newline]
    unfold parseTokensFromStreamChunk SplitLines
    simp only [h2, List.map]
    exact hone [""] (Or.inr rfl)

theorem getLast?_cons_or {α : Type} (x : α) (xs : List α) (acc : Option α) :
    ((x :: xs).getLast?).or acc = (xs.getLast?).or (some x) := by
  cases xs with
  | nil => rfl
  | cons y ys =>
    rw [List.getLast?_cons_cons]
    obtain ⟨z, hz⟩ : ∃ z, (y :: ys).getLast? = some z :=
      ⟨_, List.getLast?_eq_getLast _ (by simp)⟩
    rw [hz]
    rfl

/-- The relay loop without write errors: every line of what is unread is written, in
order, and the usage returned is that of the last line that carries one, else the one
held before. -/
theorem relayLoop_spec :
    ∀ (fuel : Nat) (unread : List Char) (acc : Option TokenUsage) (written : List String),
      unread.length < fuel →
      relayLoop (fun _ => false) fuel unread acc written =
        some ⟨(lastUsage ((sseLines unread).map String.mk)).or acc,
          written ++ (sseLines unread).map String.mk⟩ := by
  intro fuel
  induction fuel with
  | zero => intro unread acc written h; omega
  | succ fuel ih =>
    intro unread acc written hlen
    cases unread with
    | nil => simp [relayLoop, ReadBytes, sseLines, lastUsage]
    | cons c cs =>
      obtain ⟨h1, h2, h3, content, h4, h5⟩ := ReadBytes_spec c cs
      have hpos : (ReadBytes (c :: cs)).1.length > 0 := List.length_pos.mpr h1
      have hparse : parseTokensFromStreamChunk ⟨(ReadBytes (c :: cs)).1⟩ =
          lineUsage ⟨(ReadBytes (c :: cs)).1⟩ := by
        rw [h5]
        exact parseTokensFromStreamChunk_line content h4 _
      unfold relayLoop
      simp only [hpos, if_true, Bool.false_eq_true, if_false, hparse]
      rw [h2]
      cases hfound : (ReadBytes (c :: cs)).2.2 with
      | false =>
        simp only [Bool.false_eq_true, if_false, List.map, lastUsage, List.filterMap]
        cases lineUsage ⟨(ReadBytes (c :: cs)).1⟩ <;> simp
      | true =>
        simp only [if_true]
        rw [ih _ _ _ (by simp only [List.length_cons] at h3 hlen; omega)]
        simp only [lastUsage, List.map, List.filterMap]
        cases hu : lineUsage ⟨(ReadBytes (c :: cs)).1⟩ with
        | none => simp
        | some u => simp [getLast?_cons_or]

/-- C6, as amended: when the writer supports flushing and no write fails,
`handleStreamingResponseWithTokens` returns, for every upstream body, the usage carried
by the last line that carries one, and nil when no line does; and it writes every line of
the body to the client in upstream order, so that the client receives the body. A line
carries a usage when, without surrounding white space, it is `data:` followed by a
payload other than `[DONE]` that is a JSON object (nested no deeper than 10000) each of
whose `usage` members is `null` or an object with `int64` or `null` token counts, the
last `usage` member being an object; the usage is made of the token counts of the usage
objects that follow the last `null` (normally the one usage object), each count being
the last `int64` given for it and 0 when none is given. For the stream that ends with a
usage chunk (10, 20, 30) and `[DONE]` the usage returned is (10, 20, 30). -/
theorem streaming_relay_last_usage (resp : Response) :
    handleStreamingResponseWithTokens true (fun _ => false) resp =
      some ⟨lastCarriedUsage (upstreamLines resp.Body), upstreamLines resp.Body⟩ ∧
    String.join (upstreamLines resp.Body) = resp.Body ∧
    (handleStreamingResponseWithTokens true (fun _ => false)
      (Example.response 200 Example.sseBody)).map (fun r => r.usage) =
        some (some ⟨10, 20, 30⟩) := by
  refine ⟨?_, ?_, by decide⟩
  · unfold handleStreamingResponseWithTokens
    simp only [Bool.not_true, Bool.false_eq_true, if_false]
    rw [relayLoop_spec _ _ _ _ (Nat.lt_succ_self _)]
    simp [upstreamLines, lastUsage_eq_lastCarriedUsage]
  · have h := sseLines_join resp.Body.data
    unfold upstreamLines
    rw [string_eq_iff_data]
    have hj : ∀ ls : List (List Char), (String.join (ls.map String.mk)).data = ls.flatten := by
      intro ls
      induction ls with
      | nil => rfl
      | cons l ls ih2 =>
        simp only [List.map, String.join, List.foldl_cons, List.flatten_cons] at ih2 ⊢
        have hfold : ∀ (xs : List String) (a : String),
            (List.foldl (fun r s => r ++ s) a xs).data =
              a.data ++ (List.foldl (fun r s => r ++ s) "" xs).data := by
          intro xs
          induction xs with
          | nil => intro a; simp
          | cons x xs ihx =>
            intro a
            simp only [List.foldl_cons]
            rw [ihx (a ++ x), ihx ("" ++ x)]
            simp [string_append_data, List.append_assoc]
        rw [hfold, ih2]
        simp [string_append_data]
    rw [hj, h]

/-- C6 as stated fails. In a stream of two events, the first with usage (1, 2, 3) and
the second with the payload `{"usage":7.5}`, the last line of the form `data: <json>`
whose JSON has a non-null `usage` member is the second one; no usage can be decoded from
it, and the usage returned is that of the first event. -/
theorem streaming_relay_last_usage_counterexample :
    (upstreamLines Example.brokenUsageStream).map dataPayload =
      [some Example.usagePayload, none, some Example.brokenUsagePayload, none] ∧
    hasNonNullUsage Example.brokenUsagePayload = true ∧
    parseTokensFromStreamChunk ("data: " ++ Example.brokenUsagePayload ++ "\n") = none ∧
    (handleStreamingResponseWithTokens true (fun _ => false)
      (Example.response 200 Example.brokenUsageStream)).map (fun r => r.usage) =
        some (some ⟨1, 2, 3⟩) := by
  refine ⟨?_, ?_, ?_, ?_⟩ <;> decide

/-! ## Request logging -/

/-- C14: in every entry `logRequest` records, for a group whose
`EnableRequestBodyLogging` is false the fields `RequestBody` and `UserAgent` are both
empty, whatever body and `User-Agent` the client sent; when it is true, `RequestBody` is
the body truncated to 65,000 (`utils.TruncateString`) and `UserAgent` is the `User-Agent`
of the client request. -/
theorem logRequest_body_logging (ps : ProxyServer) (env : Collaborators) (c : ClientRequest)
    (originalGroup : Option Group) (group : Group) (apiKey : Option APIKey) (duration : Int)
    (statusCode : Nat) (finalError : Option String) (isStream : Bool) (upstreamAddr : String)
    (channelHandler : Option ChannelProxy) (bodyBytes : Option String) (requestType : String)
    (e : RequestLog)
    (he : logRequest ps env c originalGroup group apiKey duration statusCode finalError
      isStream upstreamAddr channelHandler bodyBytes requestType = some e) :
    (group.EffectiveConfig.EnableRequestBodyLogging = false →
      e.RequestBody = "" ∧ e.UserAgent = "") ∧
    (group.EffectiveConfig.EnableRequestBodyLogging = true →
      e.RequestBody = env.TruncateString (bodyBytes.getD "") 65000 ∧
      e.UserAgent = c.Header.Get "User-Agent") := by
  unfold logRequest at he
  cases hs : ps.requestLogService
  · simp [hs] at he
  · simp only [hs, Bool.not_true, Bool.false_eq_true, if_false, Option.some.injEq] at he
    subst he
    constructor
    · intro h
      simp [h]
    · intro h
      simp [h, ClientRequest.UserAgent]

/-- C14, at a client request with body `{"model":"gpt-premium"}` and `User-Agent`
`curl/8.0`: nothing of either is logged for a group without body logging, both are logged
for a group with it. -/
theorem logRequest_body_logging_witness :
    (∃ e, logRequest (Example.server (fun _ => .ok Example.key)) Example.env
        Example.clientWithAgent (some (Example.group 0)) (Example.group 0) (some Example.key) 12
        200 none false "https://up.example/v1/chat/completions" none
        (some Example.premiumBody) RequestTypeFinal = some e ∧
      (Example.group 0).EffectiveConfig.EnableRequestBodyLogging = false ∧
      e.RequestBody = "" ∧ e.UserAgent = "") ∧
    (∃ e, logRequest (Example.server (fun _ => .ok Example.key)) Example.env
        Example.clientWithAgent (some Example.loggingGroup) Example.loggingGroup
        (some Example.key) 12 200 none false "https://up.example/v1/chat/completions" none
        (some Example.premiumBody) RequestTypeFinal = some e ∧
      Example.loggingGroup.EffectiveConfig.EnableRequestBodyLogging = true ∧
      e.RequestBody = Example.premiumBody ∧ e.UserAgent = "curl/8.0") :=
  ⟨(Option.isSome_iff_exists.mp ((logRequest_spec (Example.server (fun _ => .ok Example.key))
      Example.env Example.clientWithAgent (some (Example.group 0)) (Example.group 0)
      (some Example.key) 12 200 none false "https://up.example/v1/chat/completions" none
      (some Example.premiumBody) RequestTypeFinal).1 rfl)).elim fun e he =>
      ⟨e, he, rfl, (logRequest_body_logging _ _ _ _ _ _ _ _ _ _ _ _ _ _ e he).1 rfl⟩,
    (Option.isSome_iff_exists.mp ((logRequest_spec (Example.server (fun _ => .ok Example.key))
      Example.env Example.clientWithAgent (some Example.loggingGroup) Example.loggingGroup
      (some Example.key) 12 200 none false "https://up.example/v1/chat/completions" none
      (some Example.premiumBody) RequestTypeFinal).1 rfl)).elim fun e he =>
      ⟨e, he, rfl,
        ((logRequest_body_logging _ _ _ _ _ _ _ _ _ _ _ _ _ _ e he).2 rfl).1.trans (by decide),
        ((logRequest_body_logging _ _ _ _ _ _ _ _ _ _ _ _ _ _ e he).2 rfl).2.trans (by decide)⟩⟩

/-! ## Ignorable errors and organization promotion -/

/-- C11, as amended: with a request-log service present, for every attempt whose
transport error is classified ignorable by `IsIgnorableError`, whatever `retryCount` and
`MaxRetries` are, the method returns from that call: it records one log entry, with
status 499 and type `final`, makes no `UpdateStatus` call, and makes no attempt beyond
this one. -/
theorem ignorable_error_is_final (ps : ProxyServer) (env : Collaborators) (c : ClientRequest)
    (channelHandler : ChannelProxy) (originalGroup group : Group) (bodyBytes : String)
    (isStream : Bool) (retryCount : Nat) (fx : Effects) (err : String)
    (hlog : ps.requestLogService = true)
    (hcall : upstreamResult ps env c channelHandler originalGroup group bodyBytes isStream
      retryCount = some (.failure err))
    (hign : env.IsIgnorableError err = true) :
    ∃ fx1 e,
      attempt ps env c channelHandler originalGroup group bodyBytes isStream retryCount fx =
        .done fx1 ∧
      (∀ fuel, executeRequestWithRetry ps env c channelHandler originalGroup group bodyBytes
        isStream (fuel + 1) retryCount fx = some fx1) ∧
      fx1.logs = fx.logs ++ [e] ∧ e.StatusCode = 499 ∧ e.RequestType = RequestTypeFinal ∧
      fx1.statusUpdates = fx.statusUpdates ∧
      fx1.attempts = fx.attempts + 1 := by
  unfold upstreamResult at hcall
  cases huc : upstreamCall ps env c channelHandler originalGroup group bodyBytes isStream
      retryCount with
  | none => simp [huc] at hcall
  | some uc =>
    simp only [huc, Option.map_some', Option.some.injEq] at hcall
    have h1 := attempt_of_upstreamCall ps env c channelHandler originalGroup group bodyBytes
      isStream retryCount fx uc huc
    obtain ⟨e, he⟩ := Option.isSome_iff_exists.mp
      ((logRequest_spec ps env c (some originalGroup) group (some uc.apiKey)
        (env.Since retryCount) 499 (some err) isStream uc.upstreamURL (some channelHandler)
        (some bodyBytes) RequestTypeFinal).1 hlog)
    have hspec := (logRequest_spec ps env c (some originalGroup) group (some uc.apiKey)
        (env.Since retryCount) 499 (some err) isStream uc.upstreamURL (some channelHandler)
        (some bodyBytes) RequestTypeFinal).2 e he
    rw [hcall] at h1
    unfold afterDo at h1
    simp only [if_pos hign, he] at h1
    refine ⟨_, e, h1, ?_, ?_, hspec.2.1, hspec.1, ?_, ?_⟩
    · intro fuel
      unfold executeRequestWithRetry
      rw [h1]
    · simp [Effects.record]
    · simp [Effects.record]
    · simp [Effects.record, Effects.attempts]

/-- C11, amended, at the second attempt (`retryCount = 1`) of a request to a group with
`MaxRetries = 3`, cut short by the transport error `context canceled`. -/
theorem ignorable_error_is_final_witness :
    (Example.server (fun _ => .ok Example.key)).requestLogService = true ∧
    upstreamResult (Example.server (fun _ => .ok Example.key)) Example.env Example.plainClient
      (OpenAIChannel (Example.base (fun _ => .failure "context canceled")))
      (Example.group 3) (Example.group 3) Example.emptyObject true 1 =
        some (.failure "context canceled") ∧
    Example.env.IsIgnorableError "context canceled" = true ∧
    ∃ fx1 e,
      attempt (Example.server (fun _ => .ok Example.key)) Example.env Example.plainClient
        (OpenAIChannel (Example.base (fun _ => .failure "context canceled")))
        (Example.group 3) (Example.group 3) Example.emptyObject true 1 Effects.empty =
          .done fx1 ∧
      (∀ fuel, executeRequestWithRetry (Example.server (fun _ => .ok Example.key)) Example.env
        Example.plainClient (OpenAIChannel (Example.base (fun _ => .failure "context canceled")))
        (Example.group 3) (Example.group 3) Example.emptyObject true (fuel + 1) 1
        Effects.empty = some fx1) ∧
      fx1.logs = Effects.empty.logs ++ [e] ∧ e.StatusCode = 499 ∧
      e.RequestType = RequestTypeFinal ∧
      fx1.statusUpdates = Effects.empty.statusUpdates ∧
      fx1.attempts = Effects.empty.attempts + 1 :=
  ⟨rfl, rfl, by decide,
    ignorable_error_is_final (Example.server (fun _ => .ok Example.key)) Example.env
      Example.plainClient (OpenAIChannel (Example.base (fun _ => .failure "context canceled")))
      (Example.group 3) (Example.group 3) Example.emptyObject true 1 Effects.empty
      "context canceled" rfl rfl (by decide)⟩

/-- C11 as stated fails. On a server whose `requestLogService` is nil, a request whose
first attempt ends with the ignorable transport error `context canceled` makes that one
attempt and no `UpdateStatus` call, and records no log entry. -/
theorem ignorable_error_is_final_counterexample :
    Example.env.IsIgnorableError "context canceled" = true ∧
    (runRequest (Example.serverWithoutLog (fun _ => .ok Example.key)) Example.env
      Example.plainClient (OpenAIChannel (Example.base (fun _ => .failure "context canceled")))
      (Example.group 3) (Example.group 3) Example.emptyObject true).map
        (fun fx => (fx.attempts, fx.statusUpdates.length, fx.logs.length)) = some (1, 0, 0) := by
  constructor <;> decide

/-- The two ways `markOrganizationVerifiedOnSuccess` ends for a key and a group that are
there: it leaves the key as it is and starts no update, or the key was not verified, is
verified afterwards, and the one update started is `(ID, true)`. -/
theorem markOrganizationVerifiedOnSuccess_spec (k : APIKey) (g : Group) (model : String) :
    markOrganizationVerifiedOnSuccess (some k) (some g) model = (some k, []) ∨
    (k.IsOrganizationKey = false ∧
      markOrganizationVerifiedOnSuccess (some k) (some g) model =
        (some { k with IsOrganizationKey := true }, [(k.ID, true)])) := by
  unfold markOrganizationVerifiedOnSuccess
  simp only []
  split_ifs with h1 h2 h3 h4
  · exact Or.inl rfl
  · exact Or.inl rfl
  · exact Or.inl rfl
  · exact Or.inl rfl
  · exact Or.inr ⟨by simpa using h4, rfl⟩

/-- The keys `afterDo` promotes and the organization-status updates it starts are those
of `promotionOf`. -/
theorem afterDo_promotion (ps : ProxyServer) (env : Collaborators) (c : ClientRequest)
    (channelHandler : ChannelProxy) (originalGroup group : Group) (bodyBytes : String)
    (isStream : Bool) (retryCount : Nat) (apiKey : APIKey) (upstreamURL : String)
    (result : DoResult) (fx : Effects) :
    (afterDo ps env c channelHandler originalGroup group bodyBytes isStream retryCount
      apiKey upstreamURL result fx).fx.promoted =
        fx.promoted ++ (promotionOf channelHandler c group bodyBytes apiKey result).1 ∧
    (afterDo ps env c channelHandler originalGroup group bodyBytes isStream retryCount
      apiKey upstreamURL result fx).fx.orgUpdates =
        fx.orgUpdates ++ (promotionOf channelHandler c group bodyBytes apiKey result).2 := by
  have key : ∀ statusCode errorMessage parsedError,
      (handleFailure ps env c channelHandler originalGroup group bodyBytes isStream retryCount
        apiKey upstreamURL statusCode errorMessage parsedError fx).fx.promoted = fx.promoted ∧
      (handleFailure ps env c channelHandler originalGroup group bodyBytes isStream retryCount
        apiKey upstreamURL statusCode errorMessage parsedError fx).fx.orgUpdates =
          fx.orgUpdates := by
    intro statusCode errorMessage parsedError
    obtain ⟨entry, _, h2, h3⟩ := handleFailure_spec ps env c channelHandler originalGroup group
      bodyBytes isStream retryCount apiKey upstreamURL statusCode errorMessage parsedError fx
    by_cases hlast : (retryCount : Int) ≥ group.EffectiveConfig.MaxRetries
    · rw [(h2 hlast).2]; exact ⟨rfl, rfl⟩
    · rw [(h3 hlast).2]; exact ⟨rfl, rfl⟩
  unfold afterDo promotionOf
  cases result with
  | failure err =>
    simp only
    by_cases hig : env.IsIgnorableError err = true
    · simp only [if_pos hig]
      exact ⟨by simp [Step.fx, Effects.record], by simp [Step.fx, Effects.record]⟩
    · simp only [if_neg hig]
      simpa using key 500 err err
  | response resp =>
    simp only
    by_cases hst : resp.StatusCode ≥ 400 ∧ resp.StatusCode ≠ 404
    · simp only [if_pos hst]
      simpa using key _ _ _
    · simp only [if_neg hst, Step.fx, Effects.record]
      constructor <;> split_ifs <;> rfl

/-- The keys one attempt promotes and the organization-status updates it starts are those
of `attemptPromotion`. -/
theorem attempt_promotion (ps : ProxyServer) (env : Collaborators) (c : ClientRequest)
    (channelHandler : ChannelProxy) (originalGroup group : Group) (bodyBytes : String)
    (isStream : Bool) (retryCount : Nat) (fx : Effects) :
    (attempt ps env c channelHandler originalGroup group bodyBytes isStream retryCount
      fx).fx.promoted = fx.promoted ++
        (attemptPromotion ps env c channelHandler originalGroup group bodyBytes isStream
          retryCount).1 ∧
    (attempt ps env c channelHandler originalGroup group bodyBytes isStream retryCount
      fx).fx.orgUpdates = fx.orgUpdates ++
        (attemptPromotion ps env c channelHandler originalGroup group bodyBytes isStream
          retryCount).2 := by
  unfold attemptPromotion
  cases huc : upstreamCall ps env c channelHandler originalGroup group bodyBytes isStream
      retryCount with
  | none =>
    obtain ⟨r, entry, h, _⟩ := attempt_of_no_upstreamCall ps env c channelHandler originalGroup
      group bodyBytes isStream retryCount fx huc
    rw [h]
    simp [Step.fx]
  | some uc =>
    rw [attempt_of_upstreamCall ps env c channelHandler originalGroup group bodyBytes isStream
      retryCount fx uc huc]
    exact afterDo_promotion ps env c channelHandler originalGroup group bodyBytes isStream
      retryCount uc.apiKey uc.upstreamURL uc.result { fx with sent := fx.sent ++ [uc.req] }

/-- An attempt promotes nothing, or it promotes the key it selected, which was not
verified, and starts the one update `(ID, true)`. -/
theorem attemptPromotion_spec (ps : ProxyServer) (env : Collaborators) (c : ClientRequest)
    (channelHandler : ChannelProxy) (originalGroup group : Group) (bodyBytes : String)
    (isStream : Bool) (retryCount : Nat) :
    attemptPromotion ps env c channelHandler originalGroup group bodyBytes isStream
      retryCount = ([], []) ∨
    ∃ k0, ps.SelectKey retryCount = .ok k0 ∧ k0.IsOrganizationKey = false ∧
      attemptPromotion ps env c channelHandler originalGroup group bodyBytes isStream
        retryCount = ([{ k0 with IsOrganizationKey := true }], [(k0.ID, true)]) := by
  unfold attemptPromotion
  cases huc : upstreamCall ps env c channelHandler originalGroup group bodyBytes isStream
      retryCount with
  | none => exact Or.inl rfl
  | some uc =>
    have hsel := (upstreamCall_spec ps env c channelHandler originalGroup group bodyBytes
      isStream retryCount uc huc).1
    simp only [promotionOf]
    cases uc.result with
    | failure err => exact Or.inl rfl
    | response resp =>
      simp only
      by_cases hst : resp.StatusCode ≥ 400 ∧ resp.StatusCode ≠ 404
      · simp only [if_pos hst]; exact Or.inl trivial
      · simp only [if_neg hst]
        rcases markOrganizationVerifiedOnSuccess_spec uc.apiKey group
          (channelHandler.ExtractModel c bodyBytes) with h | ⟨hf, h⟩
        · rw [h]; exact Or.inl rfl
        · rw [h]; exact Or.inr ⟨uc.apiKey, hsel, hf, rfl⟩

/-- What a run of `executeRequestWithRetry` keeps true of the keys it promoted and the
organization-status updates it started: every promoted key is a selected key that was not
verified, with the flag set, and the updates are `(ID, true)` for the promoted keys. -/
theorem promotion_invariant (ps : ProxyServer) (env : Collaborators) (c : ClientRequest)
    (channelHandler : ChannelProxy) (originalGroup group : Group) (bodyBytes : String)
    (isStream : Bool) (retryCount : Nat) (fx : Effects)
    (h1 : ∀ k ∈ fx.promoted, k.IsOrganizationKey = true ∧
      ∃ n k0, ps.SelectKey n = .ok k0 ∧ k0.IsOrganizationKey = false ∧
        k = { k0 with IsOrganizationKey := true })
    (h2 : fx.orgUpdates = fx.promoted.map (fun k => (k.ID, true))) :
    (∀ k ∈ (attempt ps env c channelHandler originalGroup group bodyBytes isStream retryCount
        fx).fx.promoted, k.IsOrganizationKey = true ∧
      ∃ n k0, ps.SelectKey n = .ok k0 ∧ k0.IsOrganizationKey = false ∧
        k = { k0 with IsOrganizationKey := true }) ∧
    (attempt ps env c channelHandler originalGroup group bodyBytes isStream retryCount
        fx).fx.orgUpdates =
      (attempt ps env c channelHandler originalGroup group bodyBytes isStream retryCount
        fx).fx.promoted.map (fun k => (k.ID, true)) := by
  obtain ⟨e1, e2⟩ := attempt_promotion ps env c channelHandler originalGroup group bodyBytes
    isStream retryCount fx
  rw [e1, e2]
  rcases attemptPromotion_spec ps env c channelHandler originalGroup group bodyBytes isStream
    retryCount with h | ⟨k0, hsel, hf, h⟩
  · rw [h]
    simpa using ⟨h1, h2⟩
  · rw [h]
    refine ⟨?_, by simp [h2]⟩
    intro k hk
    simp only [List.mem_append, List.mem_singleton] at hk
    rcases hk with hk | hk
    · exact h1 k hk
    · subst hk
      exact ⟨rfl, retryCount, k0, hsel, hf, rfl⟩

/-- C13: a key whose `IsOrganizationKey` is true is left as it is by
`markOrganizationVerifiedOnSuccess`, for every group and model, and no update is started
for it; every update the method starts, for any key, is `UpdateOrganizationStatus(ID,
true)` for that key. For a run of `executeRequestWithRetry`: an attempt made with a
verified key writes no key and starts no update; the run returns, every key it wrote is a
selected key that was not verified and has the flag true after the write, and the
organization-status updates it started are exactly `(ID, true)` for the keys written. No
path writes false. -/
theorem org_flag_monotone (ps : ProxyServer) (env : Collaborators) (c : ClientRequest)
    (channelHandler : ChannelProxy) (originalGroup group : Group) (bodyBytes : String)
    (isStream : Bool) (apiKey : APIKey) (g : Option Group) (model : String)
    (hkey : apiKey.IsOrganizationKey = true) :
    markOrganizationVerifiedOnSuccess (some apiKey) g model = (some apiKey, []) ∧
    (∀ (k0 : Option APIKey) (g0 : Option Group) (m0 : String),
      ∀ u ∈ (markOrganizationVerifiedOnSuccess k0 g0 m0).2,
        u.2 = true ∧ ∃ k, k0 = some k ∧ u.1 = k.ID) ∧
    (∀ n, ps.SelectKey n = .ok apiKey →
      attemptPromotion ps env c channelHandler originalGroup group bodyBytes isStream n =
        ([], [])) ∧
    ∃ fx, runRequest ps env c channelHandler originalGroup group bodyBytes isStream = some fx ∧
      (∀ k ∈ fx.promoted, k.IsOrganizationKey = true ∧
        ∃ n k0, ps.SelectKey n = .ok k0 ∧ k0.IsOrganizationKey = false ∧
          k = { k0 with IsOrganizationKey := true }) ∧
      fx.orgUpdates = fx.promoted.map (fun k => (k.ID, true)) := by
  refine ⟨?_, ?_, ?_, ?_⟩
  · cases g with
    | none => rfl
    | some g1 =>
      rcases markOrganizationVerifiedOnSuccess_spec apiKey g1 model with h | ⟨hf, _⟩
      · exact h
      · rw [hkey] at hf; exact absurd hf (by decide)
  · intro k0 g0 m0 u hu
    cases k0 with
    | none => simp [markOrganizationVerifiedOnSuccess] at hu
    | some k =>
      cases g0 with
      | none => simp [markOrganizationVerifiedOnSuccess] at hu
      | some g1 =>
        rcases markOrganizationVerifiedOnSuccess_spec k g1 m0 with h | ⟨_, h⟩
        · rw [h] at hu; simp at hu
        · rw [h] at hu
          simp only [List.mem_singleton] at hu
          subst hu
          exact ⟨rfl, k, rfl, rfl⟩
  · intro n hsel
    rcases attemptPromotion_spec ps env c channelHandler originalGroup group bodyBytes isStream
      n with h | ⟨k0, hsel0, hf, _⟩
    · exact h
    · rw [hsel] at hsel0
      simp only [Except.ok.injEq] at hsel0
      subst hsel0
      rw [hkey] at hf; exact absurd hf (by decide)
  · obtain ⟨fx, hfx⟩ := executeRequestWithRetry_terminates ps env c channelHandler
      originalGroup group bodyBytes isStream (group.EffectiveConfig.MaxRetries.toNat + 1) 0
      Effects.empty (by omega) (by omega)
    refine ⟨fx, hfx, ?_⟩
    refine executeRequestWithRetry_induction ps env c channelHandler originalGroup group
      bodyBytes isStream
      (fun _ fx => (∀ k ∈ fx.promoted, k.IsOrganizationKey = true ∧
          ∃ n k0, ps.SelectKey n = .ok k0 ∧ k0.IsOrganizationKey = false ∧
            k = { k0 with IsOrganizationKey := true }) ∧
        fx.orgUpdates = fx.promoted.map (fun k => (k.ID, true)))
      (fun fx => (∀ k ∈ fx.promoted, k.IsOrganizationKey = true ∧
          ∃ n k0, ps.SelectKey n = .ok k0 ∧ k0.IsOrganizationKey = false ∧
            k = { k0 with IsOrganizationKey := true }) ∧
        fx.orgUpdates = fx.promoted.map (fun k => (k.ID, true)))
      ?_ ?_ _ 0 Effects.empty fx ⟨by simp [Effects.empty], by simp [Effects.empty]⟩ hfx
    · intro n fx0 fx1 ⟨h1, h2⟩ hstep
      have := promotion_invariant ps env c channelHandler originalGroup group bodyBytes
        isStream n fx0 h1 h2
      rwa [hstep] at this
    · intro n fx0 fx1 ⟨h1, h2⟩ hstep
      have := promotion_invariant ps env c channelHandler originalGroup group bodyBytes
        isStream n fx0 h1 h2
      rwa [hstep] at this

/-- C13, at a premium-model request served with a key that is already verified, answered
with status 200. -/
theorem org_flag_monotone_witness :
    Example.verifiedKey.IsOrganizationKey = true ∧
    markOrganizationVerifiedOnSuccess (some Example.verifiedKey) (some Example.premiumGroup)
      "gpt-premium" = (some Example.verifiedKey, []) ∧
    (∀ (k0 : Option APIKey) (g0 : Option Group) (m0 : String),
      ∀ u ∈ (markOrganizationVerifiedOnSuccess k0 g0 m0).2,
        u.2 = true ∧ ∃ k, k0 = some k ∧ u.1 = k.ID) ∧
    (∀ n, (Example.server (fun _ => .ok Example.verifiedKey)).SelectKey n =
        .ok Example.verifiedKey →
      attemptPromotion (Example.server (fun _ => .ok Example.verifiedKey)) Example.env
        Example.plainClient
        (OpenAIChannel (Example.base (fun _ => .response (Example.response 200 Example.emptyObject))))
        Example.premiumGroup Example.premiumGroup Example.premiumBody false n = ([], [])) ∧
    ∃ fx, runRequest (Example.server (fun _ => .ok Example.verifiedKey)) Example.env
        Example.plainClient
        (OpenAIChannel (Example.base (fun _ => .response (Example.response 200 Example.emptyObject))))
        Example.premiumGroup Example.premiumGroup Example.premiumBody false = some fx ∧
      (∀ k ∈ fx.promoted, k.IsOrganizationKey = true ∧
        ∃ n k0, (Example.server (fun _ => .ok Example.verifiedKey)).SelectKey n = .ok k0 ∧
          k0.IsOrganizationKey = false ∧ k = { k0 with IsOrganizationKey := true }) ∧
      fx.orgUpdates = fx.promoted.map (fun k => (k.ID, true)) :=
  ⟨rfl, org_flag_monotone (Example.server (fun _ => .ok Example.verifiedKey)) Example.env
    Example.plainClient
    (OpenAIChannel (Example.base (fun _ => .response (Example.response 200 Example.emptyObject))))
    Example.premiumGroup Example.premiumGroup Example.premiumBody false Example.verifiedKey
    (some Example.premiumGroup) "gpt-premium" rfl⟩

/-- C12 fails on the code. A premium-model request made with a key that is not verified,
whose one upstream attempt is answered with status 404: the status is not a failure for
`executeRequestWithRetry`, so the key is promoted and `UpdateOrganizationStatus(7, true)`
is started, while the single log entry of the request, of type `final`, has status 404
and `IsSuccess = false`. The same request answered with status 200 promotes the key with
a final log whose `IsSuccess` is true. -/
theorem promotion_on_not_found :
    Example.key.IsOrganizationKey = false ∧
    (runRequest (Example.server (fun _ => .ok Example.key)) Example.env Example.plainClient
      (OpenAIChannel (Example.base (fun _ => .response (Example.response 404 "not found"))))
      Example.premiumGroup Example.premiumGroup Example.premiumBody false).map
        (fun fx => (fx.attempts, fx.promoted.map (fun k => (k.ID, k.IsOrganizationKey)),
          fx.orgUpdates, fx.logs.map (fun e => (e.StatusCode, e.RequestType, e.IsSuccess)))) =
      some (1, [(7, true)], [(7, true)], [(404, "final", false)]) ∧
    (runRequest (Example.server (fun _ => .ok Example.key)) Example.env Example.plainClient
      (OpenAIChannel (Example.base (fun _ => .response (Example.response 200 Example.emptyObject))))
      Example.premiumGroup Example.premiumGroup Example.premiumBody false).map
        (fun fx => (fx.attempts, fx.promoted.map (fun k => (k.ID, k.IsOrganizationKey)),
          fx.orgUpdates, fx.logs.map (fun e => (e.StatusCode, e.RequestType, e.IsSuccess)))) =
      some (1, [(7, true)], [(7, true)], [(200, "final", true)]) := by
  refine ⟨rfl, ?_, ?_⟩
  · rfl
  · rfl

end OpenLoad
